import Mathlib

/-!
LiteScene `Material`: property storage and texture channel table.

A shallow embedding of `src/materials/material.js`.

* JavaScript values are split by shape: `Prim` (primitives), `Atom` (a primitive
  or a `GL.Texture` handle), `Obj` (a plain object whose fields are atoms, in
  insertion order), `Entry` (what a slot of `this.textures` holds) and `Value`
  (what `setProperty` receives).
* Objects are modelled by value: a descriptor is identified with the slot of the
  table that holds it, and only own properties are looked up. Own properties keep
  the order `for ... in` visits them in: array indices first, then insertion order.
* Plain objects and texture handles convert to primitives the default way: none
  redefines `toString` or `valueOf`, and `Object.prototype` is not extended.
* A `throw` or a `TypeError` is the `error` case of `Except JSError`.
* Numbers are IEEE-754 doubles, kept exactly as `mant * 2 ^ exp`; the two zeros
  are identified. `Float32Array` stores round to single precision.
* Strings are lists of UTF-16 code units; a `Char` stands for one code unit.
-/

namespace LS

/-! ## Numbers -/

/-- A JavaScript number: NaN, an infinity, or the finite value `mant * 2 ^ exp`. -/
inductive Num where
  | nan
  | inf (negative : Bool)
  | fin (mant : Int) (exp : Int)
  deriving DecidableEq, Repr

/-- Position of the leading one bit of `n` (0 for `n < 2`); `fuel` bounds the halvings. -/
def log2Floor : Nat → Nat → Nat
  | 0, _ => 0
  | fuel + 1, n => if n < 2 then 0 else log2Floor fuel (n / 2) + 1

/-- Divide `n` by `d`, rounding to nearest and ties to even. -/
def divRoundHalfEven (n d : Nat) : Nat :=
  let f := n / d
  let r := n % d
  if 2 * r < d then f else if d < 2 * r then f + 1 else if f % 2 = 0 then f else f + 1

/-- Remove the factors of two of `a`, raising the exponent accordingly. -/
def stripTwos : Nat → Nat → Int → Nat × Int
  | 0, a, e => (a, e)
  | fuel + 1, a, e => if a ≠ 0 ∧ a % 2 = 0 then stripTwos fuel (a / 2) (e + 1) else (a, e)

/-- The finite number `± a * 2 ^ e` in lowest terms (odd mantissa, or `0 * 2 ^ 0`). -/
def Num.ofParts (negative : Bool) (a : Nat) (e : Int) : Num :=
  if a = 0 then .fin 0 0
  else
    let p := stripTwos a a e
    .fin (if negative then -(p.1 : Int) else (p.1 : Int)) p.2

/-- Round `± a * 2 ^ e` to the binary format with `p` significand bits and largest
exponent `emax` (round to nearest, ties to even, gradual underflow, overflow to infinity). -/
def Num.roundTo (p : Nat) (emax : Int) (negative : Bool) (a : Nat) (e : Int) : Num :=
  if a = 0 then .fin 0 0
  else
    let top : Int := e + (log2Floor a a : Int)
    if emax < top then .inf negative
    else
      let t : Int := max top (1 - emax) - ((p : Int) - 1)
      let r : Nat := if t ≤ e then a * 2 ^ (e - t).toNat else divRoundHalfEven a (2 ^ (t - e).toNat)
      if r = 0 then .fin 0 0
      else if emax < t + (log2Floor r r : Int) then .inf negative
      else Num.ofParts negative r t

/-- Round a number to the nearest double. -/
def Num.toFloat64 : Num → Num
  | .fin m e => Num.roundTo 53 1023 (decide (m < 0)) m.natAbs e
  | x => x

/-- Conversion applied when a number is stored in a `Float32Array` (`Math.fround`). -/
def Num.toFloat32 : Num → Num
  | .fin m e => Num.roundTo 24 127 (decide (m < 0)) m.natAbs e
  | x => x

/-- The number one. -/
def Num.one : Num := .fin 1 0

/-- The number zero. -/
def Num.zero : Num := .fin 0 0

/-- A natural number as a JavaScript number (exact below `2 ^ 53`). -/
def Num.ofNat (n : Nat) : Num := Num.toFloat64 (.fin n 0)

/-- JavaScript `a - b` on numbers: the exact difference rounded to a double. -/
def Num.sub : Num → Num → Num
  | .nan, _ => .nan
  | _, .nan => .nan
  | .inf a, .inf b => if a = b then .nan else .inf a
  | .inf a, .fin _ _ => .inf a
  | .fin _ _, .inf b => .inf (!b)
  | .fin m1 e1, .fin m2 e2 =>
    let e := min e1 e2
    let d : Int := m1 * 2 ^ (e1 - e).toNat - m2 * 2 ^ (e2 - e).toNat
    Num.roundTo 53 1023 (decide (d < 0)) d.natAbs e

/-- JavaScript `a === b` on numbers (NaN differs from everything, itself included). -/
def Num.eq : Num → Num → Bool
  | .inf a, .inf b => a == b
  | .fin m1 e1, .fin m2 e2 =>
    let e := min e1 e2
    m1 * 2 ^ (e1 - e).toNat == m2 * 2 ^ (e2 - e).toNat
  | _, _ => false

/-- JavaScript truthiness of a number: false for zero and NaN. -/
def Num.truthy : Num → Bool
  | .nan => false
  | .inf _ => true
  | .fin m _ => m != 0

end LS

namespace LS

/-! ## Values -/

/-- A `GL.Texture` instance; `id` tells distinct objects apart. -/
structure Texture where
  id : Nat
  texture_type : Nat
  deriving DecidableEq, Repr

/-- A primitive JavaScript value. -/
inductive Prim where
  | undefined
  | null
  | bool (b : Bool)
  | num (x : Num)
  | str (s : String)
  deriving DecidableEq, Repr

/-- A primitive or a texture handle: what a descriptor field holds. -/
inductive Atom where
  | prim (p : Prim)
  | tex (t : Texture)
  deriving DecidableEq, Repr

/-- A plain object with atomic fields, own properties in insertion order. -/
abbrev Obj := List (String × Atom)

/-- What a slot of `this.textures` holds: a primitive (legacy bare name, or junk), a
descriptor object, or a texture handle stored as it is. Properties written onto a
`GL.Texture` object are not tracked. -/
inductive Entry where
  | prim (p : Prim)
  | obj (o : Obj)
  | tex (t : Texture)
  deriving DecidableEq, Repr

/-- A value handed to `setProperty`, or read back by `getProperty`. -/
inductive Value where
  | prim (p : Prim)
  | tex (t : Texture)
  | arr (xs : List Atom)
  | map (m : List (String × Entry))
  deriving DecidableEq, Repr

/-- What a call can raise. -/
inductive JSError where
  | thrown (msg : String)
  | typeError
  deriving DecidableEq, Repr

/-- The collaborators the material code reaches through globals. -/
structure Host where
  /-- ECMAScript `ToNumber` on strings. -/
  strToNum : String → Num
  /-- The registry `LS.ResourcesManager.textures`, `undefined` where nothing is registered. -/
  textures : String → Atom
  /-- The constant `LS.Blend.NORMAL`. -/
  blendNormal : Value
  /-- The method `String.prototype.toUpperCase`. -/
  toUpperCase : String → String
  /-- ECMAScript `ToString` on numbers. -/
  numToString : Num → String
  /-- The WebGL constant `gl.TEXTURE_2D`. -/
  TEXTURE_2D : Nat
  /-- The value of `vec2.create([1,50])` (gl-matrix). -/
  specular : Value

/-! ### Insertion-ordered tables (own properties of an object) -/

/-- The property names a plain object inherits from `Object.prototype` (ECMAScript, with
Annex B). Where an object has no own property under such a name, the JavaScript read `o[k]`
finds the inherited member (a built-in function; `Object.prototype` itself for
`__proto__`), which is not empty. The tables below hold own properties only, so the
properties about reads under a caller-chosen key are stated for keys outside this list. -/
def objectPrototypeNames : List String :=
  ["constructor", "hasOwnProperty", "isPrototypeOf", "propertyIsEnumerable",
    "toLocaleString", "toString", "valueOf", "__proto__", "__defineGetter__",
    "__defineSetter__", "__lookupGetter__", "__lookupSetter__"]

/-- Property read `t[k]` among the own properties of `t`; for a key of
`objectPrototypeNames` that `t` does not own, the JavaScript read goes on to the inherited
member, which this table does not hold. -/
def Table.get {β : Type} (t : List (String × β)) (k : String) : Option β :=
  match t with
  | [] => none
  | (k1, v) :: rest => if k1 = k then some v else Table.get rest k

/-- The digit a character stands for. -/
def digitValue (c : Char) : Option Nat :=
  if 48 ≤ c.toNat ∧ c.toNat ≤ 57 then some (c.toNat - 48) else none

/-- The number a list of decimal digits denotes, continuing from `acc`. -/
def parseDigits : List Char → Nat → Option Nat
  | [], acc => some acc
  | c :: cs, acc =>
    match digitValue c with
    | some d => parseDigits cs (10 * acc + d)
    | none => none

/-- The array index a property key denotes: a canonical decimal numeral below `2 ^ 32 - 1`.
Such keys are enumerated before all others, in ascending order. -/
def arrayIndex (k : String) : Option Nat :=
  match k.data with
  | [] => none
  | c :: cs =>
    if c = '0' ∧ cs ≠ [] then none
    else
      match parseDigits (c :: cs) 0 with
      | some n => if n < 4294967295 then some n else none
      | none => none

/-- Overwrite the value of an existing key, keeping its place. -/
def Table.replace {β : Type} (t : List (String × β)) (k : String) (v : β) : List (String × β) :=
  match t with
  | [] => []
  | (k1, v1) :: rest => if k1 = k then (k1, v) :: rest else (k1, v1) :: Table.replace rest k v

/-- Add the array-index key `k` (index `n`): after the smaller indices, before the rest. -/
def Table.insertIndex {β : Type} (t : List (String × β)) (n : Nat) (k : String) (v : β) :
    List (String × β) :=
  match t with
  | [] => [(k, v)]
  | (k1, v1) :: rest =>
    match arrayIndex k1 with
    | some n1 =>
      if n < n1 then (k, v) :: (k1, v1) :: rest else (k1, v1) :: Table.insertIndex rest n k v
    | none => (k, v) :: (k1, v1) :: rest

/-- Property write `t[k] = v`: in place when the key exists; a new key goes to the end,
or among the array indices when it is one (the order `for ... in` follows). -/
def Table.set {β : Type} (t : List (String × β)) (k : String) (v : β) : List (String × β) :=
  match Table.get t k with
  | some _ => Table.replace t k v
  | none =>
    match arrayIndex k with
    | some n => Table.insertIndex t n k v
    | none => t ++ [(k, v)]

/-- Property removal `delete t[k]`. -/
def Table.erase {β : Type} (t : List (String × β)) (k : String) : List (String × β) :=
  t.filter (fun p => p.1 ≠ k)

/-! ### Conversions -/

/-- The string a plain object or texture handle converts to (no `toString` override). -/
def objectString : String := "[object Object]"

/-- JavaScript truthiness of a primitive. -/
def Prim.truthy : Prim → Bool
  | .undefined => false
  | .null => false
  | .bool b => b
  | .num x => x.truthy
  | .str s => s != ""

/-- JavaScript truthiness of an atom. -/
def Atom.truthy : Atom → Bool
  | .prim p => p.truthy
  | .tex _ => true

/-- JavaScript truthiness of a table slot. -/
def Entry.truthy : Entry → Bool
  | .prim p => p.truthy
  | .obj _ => true
  | .tex _ => true

/-- ECMAScript `ToPrimitive` of an atom. -/
def Atom.toPrim : Atom → Prim
  | .prim p => p
  | .tex _ => .str objectString

/-- ECMAScript `ToPrimitive` of a table slot. -/
def Entry.toPrim : Entry → Prim
  | .prim p => p
  | .obj _ => .str objectString
  | .tex _ => .str objectString

/-- ECMAScript `ToNumber` of a primitive. -/
def Prim.toNumber (h : Host) : Prim → Num
  | .undefined => .nan
  | .null => Num.zero
  | .bool b => if b then Num.one else Num.zero
  | .num x => x
  | .str s => h.strToNum s

/-- ECMAScript `ToString` of a primitive that is not a number, as far as `ToNumber` of the
result is concerned; numbers convert back to themselves. -/
def Prim.toNumberViaString (h : Host) : Prim → Num
  | .undefined => h.strToNum "undefined"
  | .null => h.strToNum "null"
  | .bool b => h.strToNum (if b then "true" else "false")
  | .num x => x
  | .str s => h.strToNum s

/-- ECMAScript `ToNumber` of any value. An array converts through `join(",")`, whose
elements print `null` and `undefined` as the empty string. -/
def Value.toNumber (h : Host) : Value → Num
  | .prim p => p.toNumber h
  | .tex _ => h.strToNum objectString
  | .arr [] => h.strToNum ""
  | .arr [.prim .undefined] => h.strToNum ""
  | .arr [.prim .null] => h.strToNum ""
  | .arr [.prim p] => p.toNumberViaString h
  | .arr [.tex _] => h.strToNum objectString
  | .arr (_ :: _ :: _) => .nan
  | .map _ => h.strToNum objectString

/-- Abstract equality `a == b` on primitives. -/
def Prim.looseEq (h : Host) : Prim → Prim → Bool
  | .undefined, .undefined => true
  | .undefined, .null => true
  | .null, .undefined => true
  | .null, .null => true
  | .undefined, _ => false
  | .null, _ => false
  | _, .undefined => false
  | _, .null => false
  | .num a, .num b => Num.eq a b
  | .str a, .str b => a == b
  | .bool a, .bool b => a == b
  | a, b => Num.eq (a.toNumber h) (b.toNumber h)

/-- Abstract equality `a == b` on atoms: handles compare by identity, a handle against a
primitive through its string form. -/
def Atom.looseEq (h : Host) : Atom → Atom → Bool
  | .tex a, .tex b => a == b
  | .tex _, .prim .undefined => false
  | .tex _, .prim .null => false
  | .prim .undefined, .tex _ => false
  | .prim .null, .tex _ => false
  | a, b => Prim.looseEq h a.toPrim b.toPrim

/-- The JavaScript `substr(start, len)`. -/
def substr (s : String) (start len : Nat) : String := ⟨(s.data.drop start).take len⟩

/-- The JavaScript `substr(start)`. -/
def substrFrom (s : String) (start : Nat) : String := ⟨s.data.drop start⟩

/-- An atom as a table slot. -/
def Atom.toEntry : Atom → Entry
  | .prim p => .prim p
  | .tex t => .tex t

/-- A table slot as a value. -/
def Entry.toValue : Entry → Value
  | .prim p => .prim p
  | .tex t => .tex t
  | .obj o => .map (o.map (fun kv => (kv.1, kv.2.toEntry)))

/-- Property read `sampler[k]` on a table slot; primitives and handles have no such field. -/
def Entry.getField (e : Entry) (k : String) : Atom :=
  match e with
  | .obj o => (Table.get o k).getD (.prim .undefined)
  | _ => .prim .undefined

/-- Property write `sampler[k] = v` on a table slot; a write onto a primitive is dropped
(non-strict code). -/
def Entry.setField (e : Entry) (k : String) (v : Atom) : Entry :=
  match e with
  | .obj o => .obj (Table.set o k v)
  | other => other

/-- The loop `for(var i in sampler_options) sampler[i] = sampler_options[i]`. -/
def Entry.merge (e : Entry) (sampler_options : Option Obj) : Entry :=
  match sampler_options with
  | none => e
  | some o => o.foldl (fun acc kv => acc.setField kv.1 kv.2) e

/-! ### Fixed-length `Float32Array` storage -/

/-- A `Float32Array` of length `n`. -/
structure F32Array (n : Nat) where
  data : List Num
  size_eq : data.length = n
  deriving DecidableEq, Repr

/-- Element read `a[i]`. -/
def F32Array.get {n : Nat} (a : F32Array n) (i : Nat) : Prim :=
  match a.data.get? i with
  | some x => .num x
  | none => .undefined

/-- Element write `a[i] = x`, rounding to single precision. -/
def F32Array.set {n : Nat} (a : F32Array n) (i : Nat) (x : Num) : F32Array n :=
  ⟨a.data.set i x.toFloat32, by rw [List.length_set]; exact a.size_eq⟩

/-- The call `a.subarray(0, k).set(xs)` for `xs` no longer than the view. -/
def F32Array.write {n : Nat} (a : F32Array n) (xs : List Num) : F32Array n :=
  ⟨(xs.map Num.toFloat32).take n ++ a.data.drop xs.length, by
    rw [List.length_append, List.length_take, List.length_map, List.length_drop, a.size_eq]
    omega⟩

/-- The elements of an array (or of its first `k` elements) as atoms. -/
def F32Array.toAtoms {n : Nat} (a : F32Array n) (k : Nat) : List Atom :=
  (a.data.take k).map (fun x => Atom.prim (.num x))

/-! ## The material -/

/-- Modelled from the spec: the class `ShaderQuery` is not among the sources; the spec has
it hold the cached macro set, which `clear` empties ("clear-then-repopulate"). -/
structure ShaderQuery where
  macros : Obj
  deriving DecidableEq, Repr

/-- Modelled from the spec: `new ShaderQuery()`, a query without macros. -/
def ShaderQuery.create : ShaderQuery := ⟨[]⟩

/-- Modelled from the spec: `ShaderQuery.prototype.clear`, which empties the macro set so
that nothing is left from a previous call. -/
def ShaderQuery.clear (_q : ShaderQuery) : ShaderQuery := ⟨[]⟩

/-- The data fields of a `Material` instance that the property and texture code touches.
Methods inherited from the prototype are not part of the state. -/
structure Material where
  uid : String
  /-- Colour and opacity share this buffer: RGB in 0..2, opacity in 3. -/
  _color : F32Array 4
  _diffuse : F32Array 3
  blend_mode : Value
  alpha_test : Value
  alpha_test_shadows : Value
  uvs_matrix : F32Array 9
  textures : List (String × Entry)
  specular_factor : Value
  specular_gloss : Value
  reflection : Value
  /-- The cached shader query, `new ShaderQuery()` at construction. -/
  _query : ShaderQuery := ShaderQuery.create
  /-- Caller-supplied macros; absent unless assigned. -/
  extra_macros : Option Obj := none
  /-- Caller-supplied uniforms; absent unless assigned. -/
  extra_uniforms : Option (List (String × Value)) := none
  /-- The cached uniform map; absent before the first preparation. -/
  _uniforms : Option (List (String × Value)) := none
  /-- The cached sampler list; absent before the first preparation. -/
  _samplers : Option (List Entry) := none
  deriving DecidableEq, Repr

/-- What a call leaves behind: its return value, the material, and the names it asked
`LS.ResourcesManager.load` to fetch. -/
structure Outcome (α : Type) where
  value : α
  material : Material
  loads : List String
  deriving DecidableEq, Repr

namespace Material

def COLOR_TEXTURE : String := "color"
def COORDS_UV0 : String := "0"
def COORDS_POLAR : String := "polar"
def COORDS_POLAR_REFLECTED : String := "polar_reflected"

/-- The class table `Material.DEFAULT_UVS`. -/
def DEFAULT_UVS : List (String × String) :=
  [("normal", COORDS_UV0), ("displacement", COORDS_UV0),
   ("environment", COORDS_POLAR_REFLECTED), ("irradiance", COORDS_POLAR)]

/-- The expression `Material.DEFAULT_UVS[channel] || "0"`, for a channel name outside
`objectPrototypeNames` (under those names the class table inherits a function). -/
def defaultUvs (channel : String) : String :=
  match Table.get DEFAULT_UVS channel with
  | some u => if u ≠ "" then u else "0"
  | none => "0"

/-- The literal `{ texture: texture, uvs: uvs, wrap: 0, minFilter: 0, magFilter: 0 }`. -/
def samplerLiteral (texture : Atom) (uvs : String) : Obj :=
  [("texture", texture), ("uvs", .prim (.str uvs)), ("wrap", .prim (.num Num.zero)),
   ("minFilter", .prim (.num Num.zero)), ("magFilter", .prim (.num Num.zero))]

/-- The constructor `new Material()` with no configuration object. -/
def create (h : Host) (uid : String) : Material where
  uid := uid
  _color := ⟨[Num.one, Num.one, Num.one, Num.one], rfl⟩
  _diffuse := ⟨[Num.one, Num.one, Num.one], rfl⟩
  blend_mode := h.blendNormal
  alpha_test := .prim (.bool false)
  alpha_test_shadows := .prim (.bool false)
  uvs_matrix := ⟨[Num.one, Num.zero, Num.zero, Num.zero, Num.one, Num.zero,
    Num.zero, Num.zero, Num.one], rfl⟩
  textures := []
  specular_factor := .prim .undefined
  specular_gloss := .prim .undefined
  reflection := .prim .undefined

/-- The method `getTextureSampler`: the slot `this.textures[channel]`, read among the own
properties of the table (all there is to read for a channel name outside
`objectPrototypeNames`). -/
def getTextureSampler (this : Material) (channel : String) : Entry :=
  (Table.get this.textures channel).getD (.prim .undefined)

/-- The request `LS.ResourcesManager.load(texture)` issued for a name not starting with `:`. -/
def loadRequest (texture : Atom) : List String :=
  match texture with
  | .prim (.str s) => if s.data.head? ≠ some ':' then [s] else []
  | _ => []

/-- The method `setTexture`; the slot of the channel is read among the own properties of the
table (see `Table.get`). -/
def setTexture (h : Host) (this : Material) (channel : String) (texture : Atom)
    (sampler_options : Option Obj) : Except JSError (Outcome Entry) :=
  if channel = "" then
    .error (.thrown "Material.prototype.setTexture channel must be specified")
  else if !texture.truthy then
    .ok ⟨.prim .undefined, { this with textures := Table.erase this.textures channel }, []⟩
  else
    let sampler := this.getTextureSampler channel
    if !sampler.truthy then
      let created := (Entry.obj (samplerLiteral texture (defaultUvs channel))).merge sampler_options
      .ok ⟨created, { this with textures := Table.set this.textures channel created },
        loadRequest texture⟩
    else if Atom.looseEq h (sampler.getField "texture") texture then
      .ok ⟨sampler, this, []⟩
    else
      let updated := (sampler.setField "texture" texture).merge sampler_options
      .ok ⟨updated, { this with textures := Table.set this.textures channel updated },
        loadRequest texture⟩

/-- The method `setTextureProperty`; the slot of the channel is read among the own
properties of the table (see `Table.get`). -/
def setTextureProperty (this : Material) (channel property : String) (value : Atom) : Material :=
  let sampler := this.getTextureSampler channel
  if !sampler.truthy then
    if property = "texture" then
      { this with textures :=
          Table.set this.textures channel (.obj (samplerLiteral value (defaultUvs channel))) }
    else this
  else
    { this with textures := Table.set this.textures channel (sampler.setField property value) }

/-- The method `getTexture`; an omitted channel is the empty string. The slot of the channel
is read among the own properties of the table (see `Table.get`). -/
def getTexture (h : Host) (this : Material) (channel : String) : Atom :=
  let channel := if channel = "" then COLOR_TEXTURE else channel
  let v := this.getTextureSampler channel
  if !v.truthy then .prim .null
  else
    match v with
    | .prim (.str s) => h.textures s
    | _ =>
      let tex := v.getField "texture"
      if !tex.truthy then .prim .null
      else
        match tex with
        | .prim (.str s) => h.textures s
        | .tex t => .tex t
        | _ => .prim .null

/-- The reference `sampler.constructor === String ? sampler : sampler.texture`. -/
def textureRef (sampler : Entry) : Atom :=
  match sampler with
  | .prim (.str s) => .prim (.str s)
  | e => e.getField "texture"

/-- The static `Material.getTextureFromSampler`. -/
def getTextureFromSampler (h : Host) (sampler : Entry) : Atom :=
  let texture := textureRef sampler
  if !texture.truthy then .prim .null
  else
    let texture := match texture with
      | .prim (.str s) => h.textures s
      | other => other
    match texture with
    | .tex t => .tex t
    | _ => .prim .null

/-- The method `setTextureSampler`. -/
def setTextureSampler (this : Material) (channel : String) (sampler : Entry) :
    Except JSError Material :=
  if channel = "" then
    .error (.thrown "Cannot call Material setTextureSampler without channel")
  else if !sampler.truthy then
    .ok { this with textures := Table.erase this.textures channel }
  else
    .ok { this with textures := Table.set this.textures channel sampler }

/-- The method `onResourceRenamed`. -/
def onResourceRenamed (h : Host) (this : Material) (old_name new_name : Atom) : Material :=
  { this with textures := this.textures.map (fun kv =>
      if !kv.2.truthy then kv
      else if Atom.looseEq h (kv.2.getField "texture") old_name then
        (kv.1, kv.2.setField "texture" new_name)
      else kv) }

/-! ### Generic property access -/

/-- The test `(value && (value.constructor === String || value.constructor === GL.Texture))
|| !value` of the `tex_` branch, with the texture argument it lets through. -/
def textureArgument : Value → Option Atom
  | .prim (.str s) => some (.prim (.str s))
  | .prim p => if p.truthy then none else some (.prim p)
  | .tex t => some (.tex t)
  | .arr _ => none
  | .map _ => none

/-- The test `value.constructor === Number`, with the number it lets through; reading
`constructor` off `null` or `undefined` is a `TypeError`. -/
def numberArgument : Value → Except JSError (Option Num)
  | .prim .undefined => .error .typeError
  | .prim .null => .error .typeError
  | .prim (.num x) => .ok (some x)
  | _ => .ok none

/-- The test `target.length == value.length` for a target of length `n`; reading `length`
off `null` or `undefined` is a `TypeError`. -/
def lengthMatches (h : Host) (n : Nat) : Value → Except JSError Bool
  | .prim .undefined => .error .typeError
  | .prim .null => .error .typeError
  | .prim (.str s) => .ok (decide (n = s.length))
  | .prim _ => .ok false
  | .tex _ => .ok false
  | .arr xs => .ok (decide (n = xs.length))
  | .map m =>
    match Table.get m "length" with
    | none => .ok false
    | some e => .ok (Prim.looseEq h (.num (Num.ofNat n)) e.toPrim)

/-- The numbers `ToNumber(value[i])` for `i < n` that `TypedArray.prototype.set` copies. -/
def elementNumbers (h : Host) (n : Nat) : Value → List Num
  | .arr xs => xs.map (fun a => a.toPrim.toNumber h)
  | .prim (.str s) => s.data.map (fun c => h.strToNum (String.singleton c))
  | .map m => (List.range n).map (fun i =>
      match Table.get m (toString i) with
      | some e => e.toPrim.toNumber h
      | none => Num.nan)
  | _ => []

/-- The pairs `(i, value[i])` that `for(var i in value)` visits. A texture handle is taken
to have no enumerable property. -/
def enumerate : Value → List (String × Entry)
  | .map m => m
  | .arr xs => xs.enum.map (fun p => (toString p.1, p.2.toEntry))
  | .prim (.str s) => s.data.enum.map (fun p => (toString p.1, Entry.prim (.str (String.singleton p.2))))
  | _ => []

/-- The legacy normalisation `if(typeof(tex) == "string") tex = { texture: tex, uvs: "0", ... }`. -/
def legacySampler (tex : Entry) : Entry :=
  match tex with
  | .prim (.str s) => .obj (samplerLiteral (.prim (.str s)) "0")
  | other => other

/-- The loop `for(var i in value)` of the `textures` case: every visited pair is stored,
bare strings normalised first. -/
def assignTextures (textures : List (String × Entry)) (pairs : List (String × Entry)) :
    List (String × Entry) :=
  pairs.foldl (fun t kv => Table.set t kv.1 (legacySampler kv.2)) textures

/-- The names of the number case of the `setProperty` switch. -/
def numberNames : List String := ["opacity", "specular_factor", "specular_gloss", "reflection"]

/-- The names stored without a check. -/
def plainNames : List String := ["alpha_test", "alpha_test_shadows", "blend_mode"]

/-- The names of the vector case. -/
def vectorNames : List String := ["uvs_matrix", "color"]

/-- The assignment `this[name] = x` for a name of the number case; `opacity` goes through
its setter into slot 3 of the colour buffer. -/
def assignNumber (this : Material) (name : String) (x : Num) : Material :=
  if name = "opacity" then { this with _color := this._color.set 3 x }
  else if name = "specular_factor" then { this with specular_factor := .prim (.num x) }
  else if name = "specular_gloss" then { this with specular_gloss := .prim (.num x) }
  else { this with reflection := .prim (.num x) }

/-- The assignment `this[name] = value` for a name stored without a check. -/
def assignPlain (this : Material) (name : String) (value : Value) : Material :=
  if name = "alpha_test" then { this with alpha_test := value }
  else if name = "alpha_test_shadows" then { this with alpha_test_shadows := value }
  else { this with blend_mode := value }

/-- The method `setProperty`. -/
def setProperty (h : Host) (this : Material) (name : String) (value : Value) :
    Except JSError (Outcome Bool) :=
  if substr name 0 4 = "tex_" then
    match textureArgument value with
    | some texture =>
      match this.setTexture h (substrFrom name 4) texture none with
      | .ok r => .ok ⟨true, r.material, r.loads⟩
      | .error e => .error e
    | none => .ok ⟨true, this, []⟩
  else if name ∈ numberNames then
    match numberArgument value with
    | .error e => .error e
    | .ok (some x) => .ok ⟨true, this.assignNumber name x, []⟩
    | .ok none => .ok ⟨true, this, []⟩
  else if name ∈ plainNames then
    .ok ⟨true, this.assignPlain name value, []⟩
  else if name ∈ vectorNames then
    let n := if name = "uvs_matrix" then 9 else 3
    match lengthMatches h n value with
    | .error e => .error e
    | .ok true =>
      if name = "uvs_matrix" then
        .ok ⟨true, { this with uvs_matrix := this.uvs_matrix.write (elementNumbers h n value) }, []⟩
      else
        .ok ⟨true, { this with _color := this._color.write (elementNumbers h n value) }, []⟩
    | .ok false => .ok ⟨true, this, []⟩
  else if name = "textures" then
    .ok ⟨true, { this with textures := assignTextures this.textures (enumerate value) }, []⟩
  else if name = "transparency" then
    .ok ⟨true, { this with _color := this._color.set 3 (Num.sub Num.one (value.toNumber h)) }, []⟩
  else
    .ok ⟨false, this, []⟩

/-- The read `this[name]` on the data fields of the instance; `color` and `opacity` go
through their getters. -/
def field (this : Material) (name : String) : Value :=
  if name = "color" then .arr (this._color.toAtoms 3)
  else if name = "opacity" then .prim (this._color.get 3)
  else if name = "_color" then .arr (this._color.toAtoms 4)
  else if name = "diffuse" then .arr (this._diffuse.toAtoms 3)
  else if name = "_diffuse" then .arr (this._diffuse.toAtoms 3)
  else if name = "uid" then .prim (.str this.uid)
  else if name = "blend_mode" then this.blend_mode
  else if name = "alpha_test" then this.alpha_test
  else if name = "alpha_test_shadows" then this.alpha_test_shadows
  else if name = "uvs_matrix" then .arr (this.uvs_matrix.toAtoms 9)
  else if name = "textures" then .map this.textures
  else if name = "specular_factor" then this.specular_factor
  else if name = "specular_gloss" then this.specular_gloss
  else if name = "reflection" then this.reflection
  else .prim .undefined

/-- The method `getProperty`. -/
def getProperty (this : Material) (name : String) : Value :=
  if substr name 0 4 = "tex_" then (this.getTextureSampler (substrFrom name 4)).toValue
  else this.field name

/-- The method `configure`: `setProperty` for every pair of `o`, in order. -/
def configure (h : Host) (this : Material) (o : List (String × Value)) :
    Except JSError (Outcome Unit) :=
  match o with
  | [] => .ok ⟨(), this, []⟩
  | (i, v) :: rest =>
    match this.setProperty h i v with
    | .error e => .error e
    | .ok r =>
      match configure h r.material rest with
      | .error e => .error e
      | .ok r2 => .ok ⟨(), r2.material, r.loads ++ r2.loads⟩

end Material

/-! ### Call sequences -/

/-- A call that can change the texture channel table. -/
inductive Op where
  | setTexture (channel : String) (texture : Atom) (sampler_options : Option Obj)
  | setTextureProperty (channel property : String) (value : Atom)
  | setTextureSampler (channel : String) (sampler : Entry)
  | setProperty (name : String) (value : Value)
  | onResourceRenamed (old_name new_name : Atom)
  deriving DecidableEq, Repr

/-- The material after a call; a call that throws does so before it writes anything. -/
def Op.apply (h : Host) (m : Material) : Op → Material
  | .setTexture c t o =>
    match m.setTexture h c t o with
    | .ok r => r.material
    | .error _ => m
  | .setTextureProperty c p v => m.setTextureProperty c p v
  | .setTextureSampler c s =>
    match m.setTextureSampler c s with
    | .ok r => r
    | .error _ => m
  | .setProperty n v =>
    match m.setProperty h n v with
    | .ok r => r.material
    | .error _ => m
  | .onResourceRenamed a b => m.onResourceRenamed h a b

/-- The material after a sequence of calls. -/
def Material.run (h : Host) (m : Material) (ops : List Op) : Material :=
  ops.foldl (Op.apply h) m

/-- The channel has an entry in the table. -/
def Material.hasEntry (m : Material) (channel : String) : Bool :=
  (Table.get m.textures channel).isSome

/-- The channel has an entry and that entry holds a non-empty texture reference. -/
def Material.holdsTexture (m : Material) (channel : String) : Bool :=
  match Table.get m.textures channel with
  | some e => (Material.textureRef e).truthy
  | none => false

/-- The call writes no empty texture reference into a descriptor: an empty reference
reaches the table only as the `texture` argument of `setTexture`, which deletes. -/
def Op.keepsTextures : Op → Bool
  | .setTexture _ _ none => true
  | .setTexture _ _ (some o) => o.all (fun kv => kv.1 ≠ "texture" || kv.2.truthy)
  | .setTextureProperty _ p v => p ≠ "texture" || v.truthy
  | .setTextureSampler _ s => !s.truthy || (Material.textureRef s).truthy
  | .setProperty n v =>
    substr n 0 4 = "tex_" || n ≠ "textures" ||
      (Material.enumerate v).all (fun kv => (Material.textureRef (Material.legacySampler kv.2)).truthy)
  | .onResourceRenamed _ b => b.truthy

/-- Every entry of the table holds a non-empty texture reference. -/
def Material.texturesOk (t : List (String × Entry)) : Bool :=
  t.all (fun kv => (Material.textureRef kv.2).truthy)

/-! ### Shader query and uniforms -/

/-- ECMAScript `ToString` of an atom, as string concatenation applies it. -/
def Atom.toStr (h : Host) : Atom → String
  | .prim .undefined => "undefined"
  | .prim .null => "null"
  | .prim (.bool b) => if b then "true" else "false"
  | .prim (.num x) => h.numToString x
  | .prim (.str s) => s
  | .tex _ => objectString

/-- The part of `scene.info` that the material reads. -/
structure SceneInfo where
  ambient_color : Value
  deriving DecidableEq, Repr

/-- The scene handed to the builders; `info` is absent when `scene.info` is empty. -/
structure Scene where
  info : Option SceneInfo
  deriving DecidableEq, Repr

/-- The locals `uniforms`, `samplers` and `last_texture_slot` of `fillUniforms`. -/
structure UniformState where
  uniforms : List (String × Value)
  samplers : List Entry
  last_texture_slot : Nat
  deriving DecidableEq, Repr

/-- The array write `samplers[n] = x`; a write past the end leaves holes before it. -/
def arrayAssign (xs : List Entry) (n : Nat) (x : Entry) : List Entry :=
  if n < xs.length then xs.set n x
  else xs ++ List.replicate (n - xs.length) (Entry.prim .undefined) ++ [x]

/-- The loop `for(var i in o) target[i] = o[i]`. -/
def Table.setAll {β : Type} (target : List (String × β)) (o : List (String × β)) :
    List (String × β) :=
  o.foldl (fun acc kv => Table.set acc kv.1 kv.2) target

namespace Material

/-- The expression `sampler.uvs || Material.DEFAULT_UVS[i] || "0"`, as the string that
`"uvs_" + uvs` appends. -/
def effectiveUvs (h : Host) (i : String) (sampler : Entry) : String :=
  if (sampler.getField "uvs").truthy then (sampler.getField "uvs").toStr h else defaultUvs i

/-- The macro name `"USE_" + i.toUpperCase() + (2D ? "_TEXTURE" : "_CUBEMAP")`. -/
def macroName (h : Host) (i : String) (texture : Texture) : String :=
  "USE_" ++ h.toUpperCase i ++
    (if texture.texture_type = h.TEXTURE_2D then "_TEXTURE" else "_CUBEMAP")

/-- The body of the texture loop of `fillShaderQuery` for the key `i`: the macro it
assigns, or none when it takes `continue`. -/
def macroFor (h : Host) (this : Material) (i : String) : Option (String × Atom) :=
  let sampler := this.getTextureSampler i
  if !sampler.truthy then none
  else
    match getTextureFromSampler h sampler with
    | .tex texture =>
      some (macroName h i texture, .prim (.str ("uvs_" ++ effectiveUvs h i sampler)))
    | _ => none

/-- The method `fillShaderQuery`. -/
def fillShaderQuery (h : Host) (this : Material) : Material :=
  let query := this._query.clear
  let macros := this.textures.foldl (fun q kv =>
    match macroFor h this kv.1 with
    | some p => Table.set q p.1 p.2
    | none => q) query.macros
  let macros := match this.extra_macros with
    | some extra => Table.setAll macros extra
    | none => macros
  { this with _query := ⟨macros⟩ }

/-- The uniform name `i + (2D ? "_texture" : "_cubemap")`. -/
def uniformName (h : Host) (i : String) (texture : Texture) : String :=
  i ++ (if texture.texture_type = h.TEXTURE_2D then "_texture" else "_cubemap")

/-- The body of the texture loop of `fillUniforms` for the key `i`. -/
def uniformStep (h : Host) (this : Material) (st : UniformState) (i : String) : UniformState :=
  let sampler := this.getTextureSampler i
  if !sampler.truthy then st
  else
    match getTextureFromSampler h sampler with
    | .tex texture =>
      ⟨Table.set st.uniforms (uniformName h i texture)
          (.prim (.num (Num.ofNat st.last_texture_slot))),
        arrayAssign st.samplers st.last_texture_slot sampler,
        st.last_texture_slot + 1⟩
    | _ => st

/-- The five uniforms `fillUniforms` assigns before the texture loop. -/
def baseUniforms (h : Host) (this : Material) (scene : Scene) : List (String × Value) :=
  let uniforms : List (String × Value) := []
  let uniforms := Table.set uniforms "u_material_color" (.arr (this._color.toAtoms 4))
  let uniforms := Table.set uniforms "u_ambient_color"
    (match scene.info with
      | some info => info.ambient_color
      | none => .arr (this._diffuse.toAtoms 3))
  let uniforms := Table.set uniforms "u_texture_matrix" (.arr (this.uvs_matrix.toAtoms 9))
  let uniforms := Table.set uniforms "u_specular" h.specular
  Table.set uniforms "u_reflection" (.prim (.num Num.zero))

/-- The method `fillUniforms`. -/
def fillUniforms (h : Host) (this : Material) (scene : Scene) : Material :=
  let st := this.textures.foldl (fun st kv => uniformStep h this st kv.1)
    ⟨baseUniforms h this scene, [], 0⟩
  let uniforms := match this.extra_uniforms with
    | some extra => Table.setAll st.uniforms extra
    | none => st.uniforms
  { this with _uniforms := some uniforms, _samplers := some st.samplers }

/-- The method `prepareMaterial`. -/
def prepareMaterial (h : Host) (this : Material) (scene : Scene) : Material :=
  let this := match this._uniforms with
    | none => { this with _uniforms := some [], _samplers := some [] }
    | some _ => this
  fillUniforms h (fillShaderQuery h this) scene

/-! ### Property reflection -/

/-- The method `getTextureChannels`: the class table `constructor.texture_channels`, or
the empty list when the class has none. -/
def getTextureChannels (texture_channels : Option (List String)) : List String :=
  match texture_channels with
  | some channels => channels
  | none => []

/-- The method `getPropertiesInfo`, for a class with the given `texture_channels`. -/
def getPropertiesInfo (texture_channels : Option (List String)) : List (String × String) :=
  (getTextureChannels texture_channels).foldl (fun o c => Table.set o ("tex_" ++ c) "Texture")
    [("color", "vec3"), ("opacity", "number"), ("blend_mode", "number"),
      ("alpha_test", "boolean"), ("alpha_test_shadows", "boolean"), ("uvs_matrix", "mat3")]

/-- What `getPropertyInfoFromPath` returns: nothing for an empty path, `null` for a name it
does not know, or the record `{name, value, type}` (its `node` and `target` fields, the
owner and the material itself, are left out). -/
inductive PathInfo where
  | undefined
  | null
  | info (name : String) (value : Value) (type : String)
  deriving DecidableEq, Repr

/-- The method `getPropertyInfoFromPath`. -/
def getPropertyInfoFromPath (this : Material) (path : List String) : PathInfo :=
  match path with
  | [] => .undefined
  | varname :: _ =>
    if varname ∈ ["opacity", "transparency", "specular_factor", "specular_gloss",
        "reflection", "blend_mode"] then .info varname (this.field varname) "number"
    else if varname ∈ ["alpha_test", "alpha_test_shadows"] then
      .info varname (this.field varname) "boolean"
    else if varname = "uvs_matrix" then .info varname (this.field varname) "mat3"
    else if varname = "color" then .info varname (this.field varname) "vec3"
    else if varname = "textures" then .info varname (this.field varname) "Texture"
    else .null

/-! ### Serialisation -/

end Material

/-- JavaScript truthiness of a value. -/
def Value.truthy : Value → Bool
  | .prim p => p.truthy
  | _ => true

/-- The helpers of the `LS` namespace and of the platform that `serialize` and `clone`
call; none of them is among the sources. -/
structure Cloner where
  /-- The helper `LS.cloneObject(material)`. -/
  cloneObject : Material → List (String × Value)
  /-- The helper `LS.getObjectClassName(material)`. -/
  getObjectClassName : Material → Value
  /-- The copy `JSON.parse(JSON.stringify(data))`. -/
  jsonCopy : List (String × Value) → List (String × Value)

namespace Material

/-- The method `serialize`. -/
def serialize (k : Cloner) (this : Material) : List (String × Value) :=
  Table.set (k.cloneObject this) "material_class" (k.getObjectClassName this)

/-- The method `clone`, for the class `Material`; `uid` is what `LS.generateUId` hands
the new instance. The material of the outcome is the clone. -/
def clone (h : Host) (k : Cloner) (this : Material) (uid : String) :
    Except JSError (Outcome Unit) :=
  let data := this.serialize k
  let data := match Table.get data "uid" with
    | some v => if v.truthy then Table.erase data "uid" else data
    | none => data
  (create h uid).configure h (k.jsonCopy data)

/-! ### Shader code -/

/-- The array `s.split(sep)` for a one-character separator. -/
def splitOnChar (sep : Char) : List Char → List (List Char)
  | [] => [[]]
  | c :: cs =>
    if c = sep then [] :: splitOnChar sep cs
    else
      match splitOnChar sep cs with
      | [] => [[c]]
      | l :: ls => (c :: l) :: ls

/-- The piece `line.split("//")[0]`: what precedes the first `//`. -/
def beforeComment : List Char → List Char
  | [] => []
  | [c] => [c]
  | c :: d :: rest => if c = '/' ∧ d = '/' then [] else c :: beforeComment (d :: rest)

/-- The static `Material.processShaderCode`; `none` is `null`. -/
def processShaderCode (code : String) : Option String :=
  let lines := splitOnChar '\n' code.data
  let lines := lines.map beforeComment
  let code : String := ⟨lines.flatten⟩
  if code = "" then none else some code

end Material

/-! ### Active channels -/

namespace Material

/-- The activity test both builders apply to the key `i`: the sampler is not empty and
`getTextureFromSampler` hands back a texture. -/
def activeTexture (h : Host) (this : Material) (i : String) : Option Texture :=
  let sampler := this.getTextureSampler i
  if !sampler.truthy then none
  else
    match getTextureFromSampler h sampler with
    | .tex texture => some texture
    | _ => none

/-- The channels with a usable texture, in the order `for ... in` visits the table. -/
def activeChannels (h : Host) (this : Material) : List (String × Texture) :=
  this.textures.filterMap (fun kv => (activeTexture h this kv.1).map (fun t => (kv.1, t)))

/-- The macros the texture loop assigns, in order. -/
def textureMacros (h : Host) (this : Material) : List (String × Atom) :=
  this.textures.filterMap (fun kv => macroFor h this kv.1)

/-- The texture uniforms for a list of active channels: slots count up from `n`. -/
def slotPairs (h : Host) : Nat → List (String × Texture) → List (String × Value)
  | _, [] => []
  | n, (i, t) :: rest => (uniformName h i t, .prim (.num (Num.ofNat n))) :: slotPairs h (n + 1) rest

/-- The macro map has a macro named after the channel (either suffix). -/
def hasMacro (h : Host) (this : Material) (channel : String) : Bool :=
  (Table.get this._query.macros ("USE_" ++ h.toUpperCase channel ++ "_TEXTURE")).isSome ||
    (Table.get this._query.macros ("USE_" ++ h.toUpperCase channel ++ "_CUBEMAP")).isSome

/-- The uniform map has a texture uniform named after the channel (either suffix). -/
def hasTextureUniform (this : Material) (channel : String) : Bool :=
  match this._uniforms with
  | some uniforms =>
    (Table.get uniforms (channel ++ "_texture")).isSome ||
      (Table.get uniforms (channel ++ "_cubemap")).isSome
  | none => false

end Material

/-! ### Worked inputs -/

deriving instance DecidableEq for Except

/-- A host for worked examples: nothing is registered and `LS.Blend.NORMAL` is `"normal"`.
No example converts between strings and numbers (`strToNum` answers NaN, `numToString` the
empty string); `toUpperCase` is followed on ASCII letters. -/
def exampleHost : Host where
  strToNum := fun _ => Num.nan
  textures := fun _ => .prim .undefined
  blendNormal := .prim (.str "normal")
  toUpperCase := fun s => ⟨s.data.map Char.toUpper⟩
  numToString := fun _ => ""
  TEXTURE_2D := 3553
  specular := .arr [.prim (.num (.fin 1 0)), .prim (.num (.fin 25 1))]

/-- A freshly constructed material. -/
def exampleMaterial : Material := Material.create exampleHost "MAT-0"

/-- The descriptor of `a.png` on a channel without a class default, wrap mode 1. -/
def exampleDescriptor : Entry :=
  .obj [("texture", .prim (.str "a.png")), ("uvs", .prim (.str "0")),
    ("wrap", .prim (.num (.fin 1 0))), ("minFilter", .prim (.num (.fin 0 0))),
    ("magFilter", .prim (.num (.fin 0 0)))]

/-- A fresh material whose `color` channel holds `exampleDescriptor`. -/
def exampleAssigned : Material :=
  { exampleMaterial with textures := [("color", exampleDescriptor)] }

/-- A 2D texture handle. -/
def exampleTexture : Texture := ⟨1, 3553⟩

/-- A cubemap texture handle. -/
def exampleCubemap : Texture := ⟨2, 34067⟩

/-- A scene without `info`. -/
def exampleScene : Scene := ⟨none⟩

/-- A snapshot helper for worked examples: the public data fields of the material, arrays
as plain arrays; the JSON copy of such data is the data itself. -/
def exampleCloner : Cloner where
  cloneObject := fun m =>
    [("uid", .prim (.str m.uid)), ("diffuse", .arr (m._diffuse.toAtoms 3)),
      ("blend_mode", m.blend_mode), ("alpha_test", m.alpha_test),
      ("alpha_test_shadows", m.alpha_test_shadows),
      ("uvs_matrix", .arr (m.uvs_matrix.toAtoms 9)), ("textures", .map m.textures),
      ("color", .arr (m._color.toAtoms 3)), ("opacity", .prim (m._color.get 3))]
  getObjectClassName := fun _ => .prim (.str "Material")
  jsonCopy := fun data => data

/-- A fresh material whose diffuse colour was set to `[0.5, 0.5, 0.5]`. -/
def exampleDiffuse : Material :=
  { exampleMaterial with _diffuse := ⟨[.fin 1 (-1), .fin 1 (-1), .fin 1 (-1)], rfl⟩ }

/-- What cloning `exampleDiffuse` yields: a default material with the new uid. -/
def exampleCloneOutcome : Outcome Unit :=
  ⟨(), Material.create exampleHost "MAT-1", []⟩

/-- Successive calls `setTexture(name, texture)` for a list of names and texture references
(handles or resource names), in list order. -/
def Material.insertTextures (h : Host) : Material → List (String × Atom) →
    Except JSError Material
  | m, [] => .ok m
  | m, (c, t) :: rest =>
    match m.setTexture h c t none with
    | .ok r => Material.insertTextures h r.material rest
    | .error e => .error e

/-- A fresh material whose `color` channel holds a 2D texture handle. -/
def exampleTextured : Material :=
  { exampleMaterial with
    textures := [("color", .obj (Material.samplerLiteral (.tex exampleTexture) "0"))] }

/-- A fresh material whose `environment` channel holds a cubemap handle and no `uvs`. -/
def exampleEnvironment : Material :=
  { exampleMaterial with textures := [("environment", .obj [("texture", .tex exampleCubemap)])] }

/-- The material `exampleTextured` with two extra macros, one named like the macro of
`color`. -/
def exampleOverride : Material :=
  { exampleTextured with
    extra_macros := some [("USE_COLOR_TEXTURE", .prim (.str "custom")),
      ("FAST", .prim (.str ""))] }

/-- A fresh material with a 2D handle on `color` and, on `COLOR`, the name of a resource
that is not registered. -/
def exampleCaseClash : Material :=
  { exampleMaterial with
    textures := [("color", .obj (Material.samplerLiteral (.tex exampleTexture) "0")),
      ("COLOR", .obj (Material.samplerLiteral (.prim (.str "missing.png")) "0"))] }

/-- A fresh material with an unregistered resource name on `color` and a cubemap handle on
`environment`. -/
def exampleUnresolved : Material :=
  { exampleMaterial with
    textures := [("color", .obj (Material.samplerLiteral (.prim (.str "missing.png")) "0")),
      ("environment", .obj [("texture", .tex exampleCubemap)])] }

/-- The host of the worked examples with one registered resource: `a.png` is loaded as the
2D texture. -/
def exampleRegistry : Host :=
  { exampleHost with
    textures := fun s => if s = "a.png" then .tex exampleTexture else .prim .undefined }

/-- Three channel names in insertion order, each with a texture reference and the texture
it stands for: the registered name `a.png` and two handles. -/
def exampleInsertions : List (String × Atom × Texture) :=
  [("A", .prim (.str "a.png"), exampleTexture), ("B", .tex exampleCubemap, exampleCubemap),
    ("C", .tex exampleTexture, exampleTexture)]

/-- What inserting `b` and then `0`, each with a 2D handle, leaves: the key `0` is an array
index and is enumerated first. -/
def exampleIndexed : Material :=
  { exampleMaterial with
    textures := [("0", .obj (Material.samplerLiteral (.tex exampleTexture) "0")),
      ("b", .obj (Material.samplerLiteral (.tex exampleTexture) "0"))] }

/-- What inserting `exampleInsertions` into a fresh material leaves. -/
def exampleInserted : Material :=
  { exampleMaterial with
    textures := [("A", .obj (Material.samplerLiteral (.prim (.str "a.png")) "0")),
      ("B", .obj (Material.samplerLiteral (.tex exampleCubemap) "0")),
      ("C", .obj (Material.samplerLiteral (.tex exampleTexture) "0"))] }

/-- A fresh material whose `color` slot holds the bare resource name `a.png`, as
`setTextureSampler("color", "a.png")` leaves it. -/
def exampleLegacy : Material :=
  { exampleMaterial with textures := [("color", .prim (.str "a.png"))] }

/-- The material `exampleEnvironment` after `setTextureProperty("environment", "uvs", 0)`:
the descriptor carries the number 0 as its `uvs`. -/
def exampleZeroUvs : Material :=
  { exampleMaterial with
    textures := [("environment",
      .obj [("texture", .tex exampleCubemap), ("uvs", .prim (.num Num.zero))])] }

/-- The double nearest to 0.1. -/
def oneTenth : Num := .fin 3602879701896397 (-55)

/-- The number 0.25. -/
def oneQuarter : Num := .fin 1 (-2)

end LS

/-! ## Properties -/

namespace LS

/-! ### Tables -/

theorem Table.get_replace_self {β : Type} (t : List (String × β)) (k : String) (v w : β)
    (hget : Table.get t k = some w) : Table.get (Table.replace t k v) k = some v := by
  induction t with
  | nil => simp [Table.get] at hget
  | cons hd tl ih =>
    obtain ⟨k1, v1⟩ := hd
    by_cases hk : k1 = k
    · simp [Table.replace, Table.get, hk]
    · simp only [Table.get, hk, if_false] at hget
      simp [Table.replace, Table.get, hk, ih hget]

theorem Table.get_replace_of_ne {β : Type} (t : List (String × β)) (k k2 : String) (v : β)
    (hne : k2 ≠ k) : Table.get (Table.replace t k v) k2 = Table.get t k2 := by
  induction t with
  | nil => simp [Table.replace]
  | cons hd tl ih =>
    obtain ⟨k1, v1⟩ := hd
    by_cases hk : k1 = k
    · subst hk
      simp [Table.replace, Table.get, Ne.symm hne]
    · by_cases hk2 : k1 = k2
      · subst hk2
        simp [Table.replace, Table.get, hk]
      · simp [Table.replace, Table.get, hk, hk2, ih]

theorem Table.replace_of_get {β : Type} (t : List (String × β)) (k : String) (v : β)
    (hget : Table.get t k = some v) : Table.replace t k v = t := by
  induction t with
  | nil => rfl
  | cons hd tl ih =>
    obtain ⟨k1, v1⟩ := hd
    by_cases hk : k1 = k
    · simp [Table.get, hk] at hget
      simp [Table.replace, hk, hget]
    · simp only [Table.get, hk, if_false] at hget
      simp [Table.replace, hk, ih hget]

theorem Table.mem_replace {β : Type} (t : List (String × β)) (k : String) (v : β)
    (x : String × β) (hx : x ∈ Table.replace t k v) : x ∈ t ∨ x.2 = v := by
  induction t with
  | nil => simp [Table.replace] at hx
  | cons hd tl ih =>
    obtain ⟨k1, v1⟩ := hd
    by_cases hk : k1 = k
    · simp [Table.replace, hk] at hx
      rcases hx with hx | hx
      · right; simp [hx]
      · left; exact List.mem_cons_of_mem _ hx
    · simp [Table.replace, hk] at hx
      rcases hx with hx | hx
      · left; simp [hx]
      · rcases ih hx with h1 | h1
        · left; exact List.mem_cons_of_mem _ h1
        · right; exact h1

theorem Table.get_insertIndex_self {β : Type} (t : List (String × β)) (n : Nat) (k : String)
    (v : β) (hnone : Table.get t k = none) :
    Table.get (Table.insertIndex t n k v) k = some v := by
  induction t with
  | nil => simp [Table.insertIndex, Table.get]
  | cons hd tl ih =>
    obtain ⟨k1, v1⟩ := hd
    by_cases hk : k1 = k
    · simp [Table.get, hk] at hnone
    · simp only [Table.get, hk, if_false] at hnone
      simp only [Table.insertIndex]
      split
      · split
        · simp [Table.get]
        · simp [Table.get, hk, ih hnone]
      · simp [Table.get]

theorem Table.get_insertIndex_of_ne {β : Type} (t : List (String × β)) (n : Nat)
    (k k2 : String) (v : β) (hne : k2 ≠ k) :
    Table.get (Table.insertIndex t n k v) k2 = Table.get t k2 := by
  induction t with
  | nil => simp [Table.insertIndex, Table.get, Ne.symm hne]
  | cons hd tl ih =>
    obtain ⟨k1, v1⟩ := hd
    simp only [Table.insertIndex]
    split
    · split
      · simp [Table.get, Ne.symm hne]
      · by_cases hk2 : k1 = k2
        · simp [Table.get, hk2]
        · simp [Table.get, hk2, ih]
    · simp [Table.get, Ne.symm hne]

theorem Table.mem_insertIndex {β : Type} (t : List (String × β)) (n : Nat) (k : String)
    (v : β) (x : String × β) (hx : x ∈ Table.insertIndex t n k v) : x ∈ t ∨ x.2 = v := by
  induction t with
  | nil =>
    simp [Table.insertIndex] at hx
    right; simp [hx]
  | cons hd tl ih =>
    obtain ⟨k1, v1⟩ := hd
    simp only [Table.insertIndex] at hx
    split at hx
    · split at hx
      · rcases List.mem_cons.mp hx with hx | hx
        · right; simp [hx]
        · left; exact hx
      · rcases List.mem_cons.mp hx with hx | hx
        · left; simp [hx]
        · rcases ih hx with h1 | h1
          · left; exact List.mem_cons_of_mem _ h1
          · right; exact h1
    · rcases List.mem_cons.mp hx with hx | hx
      · right; simp [hx]
      · left; exact hx

theorem Table.get_append_single {β : Type} (t : List (String × β)) (k k2 : String) (v : β) :
    Table.get (t ++ [(k, v)]) k2 =
      match Table.get t k2 with
      | some w => some w
      | none => if k = k2 then some v else none := by
  induction t with
  | nil => simp [Table.get]
  | cons hd tl ih =>
    obtain ⟨k1, v1⟩ := hd
    by_cases hk : k1 = k2
    · simp [Table.get, hk]
    · simp [Table.get, hk, ih]

theorem Table.get_set_self {β : Type} (t : List (String × β)) (k : String) (v : β) :
    Table.get (Table.set t k v) k = some v := by
  unfold Table.set
  cases hget : Table.get t k with
  | some w => exact Table.get_replace_self t k v w hget
  | none =>
    simp only
    cases hidx : arrayIndex k with
    | some n => exact Table.get_insertIndex_self t n k v hget
    | none => simp [Table.get_append_single, hget]

theorem Table.get_set_of_ne {β : Type} (t : List (String × β)) (k k2 : String) (v : β)
    (hne : k2 ≠ k) : Table.get (Table.set t k v) k2 = Table.get t k2 := by
  unfold Table.set
  cases hget : Table.get t k with
  | some w => exact Table.get_replace_of_ne t k k2 v hne
  | none =>
    simp only
    cases hidx : arrayIndex k with
    | some n => exact Table.get_insertIndex_of_ne t n k k2 v hne
    | none =>
      simp only [Table.get_append_single, Ne.symm hne, if_false]
      cases Table.get t k2 <;> rfl

theorem Table.get_erase_self {β : Type} (t : List (String × β)) (k : String) :
    Table.get (Table.erase t k) k = none := by
  induction t with
  | nil => simp [Table.erase, Table.get]
  | cons hd tl ih =>
    obtain ⟨k1, v1⟩ := hd
    by_cases hk : k1 = k
    · simpa [Table.erase, hk] using ih
    · simpa [Table.erase, hk, Table.get] using ih

theorem Table.get_erase_of_ne {β : Type} (t : List (String × β)) (k k2 : String)
    (hne : k2 ≠ k) : Table.get (Table.erase t k) k2 = Table.get t k2 := by
  induction t with
  | nil => simp [Table.erase, Table.get]
  | cons hd tl ih =>
    obtain ⟨k1, v1⟩ := hd
    by_cases hk : k1 = k
    · subst hk
      simpa [Table.erase, Table.get, Ne.symm hne] using ih
    · by_cases hk2 : k1 = k2
      · subst hk2
        simp [Table.erase, Table.get, hk]
      · simpa [Table.erase, Table.get, hk, hk2] using ih

/-- A new key that is not an array index goes to the end of the table. -/
theorem Table.set_of_get_none {β : Type} (t : List (String × β)) (k : String) (v : β)
    (hnone : Table.get t k = none) (hidx : arrayIndex k = none) :
    Table.set t k v = t ++ [(k, v)] := by
  simp [Table.set, hnone, hidx]

theorem Table.set_of_get_some {β : Type} (t : List (String × β)) (k : String) (v w : β)
    (hsome : Table.get t k = some w) : Table.set t k v = Table.replace t k v := by
  simp [Table.set, hsome]

theorem Table.set_set_same {β : Type} (t : List (String × β)) (k : String) (v : β) :
    Table.set (Table.set t k v) k v = Table.set t k v := by
  have hget := Table.get_set_self t k v
  rw [Table.set_of_get_some _ k v v hget]
  exact Table.replace_of_get _ k v hget

theorem Table.erase_erase_same {β : Type} (t : List (String × β)) (k : String) :
    Table.erase (Table.erase t k) k = Table.erase t k := by
  simp [Table.erase, List.filter_filter]

theorem Table.mem_of_get {β : Type} (t : List (String × β)) (k : String) (v : β)
    (hget : Table.get t k = some v) : (k, v) ∈ t := by
  induction t with
  | nil => simp [Table.get] at hget
  | cons hd tl ih =>
    obtain ⟨k1, v1⟩ := hd
    by_cases hk : k1 = k
    · simp [Table.get, hk] at hget
      simp [hk, hget]
    · simp only [Table.get, hk, if_false] at hget
      exact List.mem_cons_of_mem _ (ih hget)

theorem Table.mem_set {β : Type} (t : List (String × β)) (k : String) (v : β)
    (x : String × β) (hx : x ∈ Table.set t k v) : x ∈ t ∨ x.2 = v := by
  unfold Table.set at hx
  cases hget : Table.get t k with
  | some w =>
    simp only [hget] at hx
    exact Table.mem_replace t k v x hx
  | none =>
    simp only [hget] at hx
    cases hidx : arrayIndex k with
    | some n =>
      simp only [hidx] at hx
      exact Table.mem_insertIndex t n k v x hx
    | none =>
      simp only [hidx] at hx
      rcases List.mem_append.mp hx with h1 | h1
      · left; exact h1
      · right; simp at h1; simp [h1]

/-! ### Entries -/

theorem Entry.truthy_textureRef_setField (e : Entry) (k : String) (v : Atom)
    (hkv : k ≠ "texture" ∨ v.truthy = true)
    (he : (Material.textureRef e).truthy = true) :
    (Material.textureRef (e.setField k v)).truthy = true := by
  cases e with
  | prim p => simpa [Entry.setField] using he
  | tex t => simpa [Entry.setField] using he
  | obj o =>
    by_cases hk : k = "texture"
    · subst hk
      rcases hkv with hkv | hkv
      · exact absurd rfl hkv
      · simp [Entry.setField, Material.textureRef, Entry.getField, Table.get_set_self, hkv]
    · have hget : Table.get (Table.set o k v) "texture" = Table.get o "texture" :=
        Table.get_set_of_ne o k "texture" v (Ne.symm hk)
      simpa [Entry.setField, Material.textureRef, Entry.getField, hget] using he

theorem Entry.truthy_textureRef_foldl (o : Obj) :
    ∀ e : Entry, (∀ kv ∈ o, kv.1 ≠ "texture" ∨ kv.2.truthy = true) →
      (Material.textureRef e).truthy = true →
      (Material.textureRef (o.foldl (fun acc kv => acc.setField kv.1 kv.2) e)).truthy = true := by
  induction o with
  | nil => intro e _ he; simpa using he
  | cons hd tl ih =>
    intro e hall he
    simp only [List.foldl_cons]
    apply ih
    · intro kv hkv
      exact hall kv (List.mem_cons_of_mem _ hkv)
    · exact Entry.truthy_textureRef_setField e hd.1 hd.2 (hall hd (List.mem_cons_self _ _)) he

theorem Entry.truthy_textureRef_merge (e : Entry) (opts : Option Obj)
    (hopts : ∀ o, opts = some o → ∀ kv ∈ o, kv.1 ≠ "texture" ∨ kv.2.truthy = true)
    (he : (Material.textureRef e).truthy = true) :
    (Material.textureRef (e.merge opts)).truthy = true := by
  cases opts with
  | none => simpa [Entry.merge] using he
  | some o => exact Entry.truthy_textureRef_foldl o e (hopts o rfl) he

theorem Material.textureRef_samplerLiteral (t : Atom) (uvs : String) :
    Material.textureRef (.obj (Material.samplerLiteral t uvs)) = t := by
  simp [Material.textureRef, Material.samplerLiteral, Entry.getField, Table.get]

/-! ### The table invariant -/

theorem Material.texturesOk_iff (t : List (String × Entry)) :
    Material.texturesOk t = true ↔ ∀ kv ∈ t, (Material.textureRef kv.2).truthy = true := by
  simp [Material.texturesOk, List.all_eq_true]

theorem Material.texturesOk_set (t : List (String × Entry)) (k : String) (v : Entry)
    (ht : Material.texturesOk t = true) (hv : (Material.textureRef v).truthy = true) :
    Material.texturesOk (Table.set t k v) = true := by
  rw [Material.texturesOk_iff] at ht ⊢
  intro kv hkv
  rcases Table.mem_set t k v kv hkv with h1 | h1
  · exact ht kv h1
  · rw [h1]; exact hv

theorem Material.texturesOk_erase (t : List (String × Entry)) (k : String)
    (ht : Material.texturesOk t = true) : Material.texturesOk (Table.erase t k) = true := by
  rw [Material.texturesOk_iff] at ht ⊢
  intro kv hkv
  exact ht kv (List.mem_of_mem_filter hkv)

theorem Material.texturesOk_get (t : List (String × Entry)) (k : String) (e : Entry)
    (ht : Material.texturesOk t = true) (hget : Table.get t k = some e) :
    (Material.textureRef e).truthy = true := by
  rw [Material.texturesOk_iff] at ht
  exact ht (k, e) (Table.mem_of_get t k e hget)

theorem Material.texturesOk_sampler (m : Material) (c : String)
    (ht : Material.texturesOk m.textures = true)
    (hs : (m.getTextureSampler c).truthy = true) :
    (Material.textureRef (m.getTextureSampler c)).truthy = true := by
  unfold Material.getTextureSampler at hs ⊢
  cases hget : Table.get m.textures c with
  | none => simp [hget, Entry.truthy, Prim.truthy] at hs
  | some e =>
    simp only [hget, Option.getD_some]
    exact Material.texturesOk_get m.textures c e ht hget

/-! ### The branches of `setTexture` -/

theorem Material.setTexture_falsy (h : Host) (m : Material) (c : String) (t : Atom)
    (opts : Option Obj) (hc : c ≠ "") (ht : t.truthy = false) :
    m.setTexture h c t opts =
      .ok ⟨.prim .undefined, { m with textures := Table.erase m.textures c }, []⟩ := by
  simp [Material.setTexture, hc, ht]

theorem Material.setTexture_create (h : Host) (m : Material) (c : String) (t : Atom)
    (opts : Option Obj) (hc : c ≠ "") (ht : t.truthy = true)
    (hs : (m.getTextureSampler c).truthy = false) :
    m.setTexture h c t opts =
      .ok ⟨(Entry.obj (Material.samplerLiteral t (Material.defaultUvs c))).merge opts,
        { m with textures := Table.set m.textures c ((Entry.obj (Material.samplerLiteral t (Material.defaultUvs c))).merge opts) },
        Material.loadRequest t⟩ := by
  simp [Material.setTexture, hc, ht, hs]

theorem Material.setTexture_same (h : Host) (m : Material) (c : String) (t : Atom)
    (opts : Option Obj) (hc : c ≠ "") (ht : t.truthy = true)
    (hs : (m.getTextureSampler c).truthy = true)
    (heq : Atom.looseEq h ((m.getTextureSampler c).getField "texture") t = true) :
    m.setTexture h c t opts = .ok ⟨m.getTextureSampler c, m, []⟩ := by
  simp [Material.setTexture, hc, ht, hs, heq]

theorem Material.setTexture_replace (h : Host) (m : Material) (c : String) (t : Atom)
    (opts : Option Obj) (hc : c ≠ "") (ht : t.truthy = true)
    (hs : (m.getTextureSampler c).truthy = true)
    (heq : Atom.looseEq h ((m.getTextureSampler c).getField "texture") t = false) :
    m.setTexture h c t opts =
      .ok ⟨((m.getTextureSampler c).setField "texture" t).merge opts,
        { m with textures := Table.set m.textures c (((m.getTextureSampler c).setField "texture" t).merge opts) },
        Material.loadRequest t⟩ := by
  simp [Material.setTexture, hc, ht, hs, heq]

theorem Material.setTexture_no_channel (h : Host) (m : Material) (t : Atom) (opts : Option Obj) :
    m.setTexture h "" t opts =
      .error (.thrown "Material.prototype.setTexture channel must be specified") := by
  simp [Material.setTexture]

theorem Material.texturesOk_setTexture (h : Host) (m : Material) (c : String) (t : Atom)
    (opts : Option Obj) (r : Outcome Entry)
    (hopts : ∀ o, opts = some o → ∀ kv ∈ o, kv.1 ≠ "texture" ∨ kv.2.truthy = true)
    (ht : Material.texturesOk m.textures = true)
    (hr : m.setTexture h c t opts = .ok r) :
    Material.texturesOk r.material.textures = true := by
  by_cases hc : c = ""
  · subst hc
    rw [Material.setTexture_no_channel] at hr
    cases hr
  · cases htr : t.truthy with
    | false =>
      rw [Material.setTexture_falsy h m c t opts hc htr] at hr
      cases hr
      exact Material.texturesOk_erase _ _ ht
    | true =>
      cases hs : (m.getTextureSampler c).truthy with
      | false =>
        rw [Material.setTexture_create h m c t opts hc htr hs] at hr
        cases hr
        apply Material.texturesOk_set _ _ _ ht
        apply Entry.truthy_textureRef_merge _ _ hopts
        rw [Material.textureRef_samplerLiteral]; exact htr
      | true =>
        have hsref := Material.texturesOk_sampler m c ht hs
        cases heq : Atom.looseEq h ((m.getTextureSampler c).getField "texture") t with
        | true =>
          rw [Material.setTexture_same h m c t opts hc htr hs heq] at hr
          cases hr
          exact ht
        | false =>
          rw [Material.setTexture_replace h m c t opts hc htr hs heq] at hr
          cases hr
          apply Material.texturesOk_set _ _ _ ht
          apply Entry.truthy_textureRef_merge _ _ hopts
          exact Entry.truthy_textureRef_setField _ _ _ (Or.inr htr) hsref

/-! ### The branches of `setTextureProperty` -/

theorem Material.setTextureProperty_create (m : Material) (c : String) (v : Atom)
    (hs : (m.getTextureSampler c).truthy = false) :
    m.setTextureProperty c "texture" v =
      { m with textures := Table.set m.textures c (.obj (Material.samplerLiteral v (Material.defaultUvs c))) } := by
  simp [Material.setTextureProperty, hs]

theorem Material.setTextureProperty_missing (m : Material) (c p : String) (v : Atom)
    (hs : (m.getTextureSampler c).truthy = false) (hp : p ≠ "texture") :
    m.setTextureProperty c p v = m := by
  simp [Material.setTextureProperty, hs, hp]

theorem Material.setTextureProperty_existing (m : Material) (c p : String) (v : Atom)
    (hs : (m.getTextureSampler c).truthy = true) :
    m.setTextureProperty c p v =
      { m with textures := Table.set m.textures c ((m.getTextureSampler c).setField p v) } := by
  simp [Material.setTextureProperty, hs]

theorem Material.texturesOk_setTextureProperty (m : Material) (c p : String) (v : Atom)
    (hpv : p ≠ "texture" ∨ v.truthy = true)
    (ht : Material.texturesOk m.textures = true) :
    Material.texturesOk (m.setTextureProperty c p v).textures = true := by
  cases hs : (m.getTextureSampler c).truthy with
  | false =>
    by_cases hp : p = "texture"
    · subst hp
      rcases hpv with hpv | hpv
      · exact absurd rfl hpv
      · rw [Material.setTextureProperty_create m c v hs]
        apply Material.texturesOk_set _ _ _ ht
        rw [Material.textureRef_samplerLiteral]; exact hpv
    · rw [Material.setTextureProperty_missing m c p v hs hp]; exact ht
  | true =>
    rw [Material.setTextureProperty_existing m c p v hs]
    apply Material.texturesOk_set _ _ _ ht
    exact Entry.truthy_textureRef_setField _ _ _ hpv (Material.texturesOk_sampler m c ht hs)

theorem Material.texturesOk_setTextureSampler (m : Material) (c : String) (s : Entry)
    (r : Material) (hs : s.truthy = false ∨ (Material.textureRef s).truthy = true)
    (ht : Material.texturesOk m.textures = true)
    (hr : m.setTextureSampler c s = .ok r) :
    Material.texturesOk r.textures = true := by
  unfold Material.setTextureSampler at hr
  by_cases hc : c = ""
  · simp [hc] at hr
  · cases hst : s.truthy with
    | false =>
      simp [hc, hst] at hr
      rw [← hr]
      exact Material.texturesOk_erase _ _ ht
    | true =>
      simp [hc, hst] at hr
      rw [← hr]
      rcases hs with hs | hs
      · rw [hst] at hs; cases hs
      · exact Material.texturesOk_set _ _ _ ht hs

theorem Material.texturesOk_onResourceRenamed (h : Host) (m : Material) (a b : Atom)
    (hb : b.truthy = true) (ht : Material.texturesOk m.textures = true) :
    Material.texturesOk (m.onResourceRenamed h a b).textures = true := by
  rw [Material.texturesOk_iff] at ht ⊢
  intro kv hkv
  simp only [Material.onResourceRenamed, List.mem_map] at hkv
  obtain ⟨kv0, hmem, hkv0⟩ := hkv
  have h0 := ht kv0 hmem
  by_cases h1 : kv0.2.truthy = true
  · by_cases h2 : Atom.looseEq h (kv0.2.getField "texture") a = true
    · simp [h1, h2] at hkv0
      rw [← hkv0]
      exact Entry.truthy_textureRef_setField _ _ _ (Or.inr hb) h0
    · simp [h1, h2] at hkv0
      rw [← hkv0]; exact h0
  · simp [h1] at hkv0
    rw [← hkv0]; exact h0

theorem Material.texturesOk_assignTextures (pairs : List (String × Entry)) :
    ∀ t : List (String × Entry), Material.texturesOk t = true →
      (∀ kv ∈ pairs, (Material.textureRef (Material.legacySampler kv.2)).truthy = true) →
      Material.texturesOk (Material.assignTextures t pairs) = true := by
  induction pairs with
  | nil => intro t ht _; simpa [Material.assignTextures] using ht
  | cons hd tl ih =>
    intro t ht hall
    simp only [Material.assignTextures, List.foldl_cons]
    apply ih
    · exact Material.texturesOk_set _ _ _ ht (hall hd (List.mem_cons_self _ _))
    · intro kv hkv
      exact hall kv (List.mem_cons_of_mem _ hkv)

/-! ### The branches of `setProperty` -/

theorem Material.setProperty_tex (h : Host) (m : Material) (name : String) (value : Value)
    (hp : substr name 0 4 = "tex_") :
    m.setProperty h name value =
      match Material.textureArgument value with
      | some texture =>
        match m.setTexture h (substrFrom name 4) texture none with
        | .ok r => .ok ⟨true, r.material, r.loads⟩
        | .error e => .error e
      | none => .ok ⟨true, m, []⟩ := by
  simp [Material.setProperty, hp]

theorem Material.setProperty_number (h : Host) (m : Material) (name : String) (value : Value)
    (hp : substr name 0 4 ≠ "tex_") (hn : name ∈ Material.numberNames) :
    m.setProperty h name value =
      match Material.numberArgument value with
      | .error e => .error e
      | .ok (some x) => .ok ⟨true, m.assignNumber name x, []⟩
      | .ok none => .ok ⟨true, m, []⟩ := by
  simp [Material.setProperty, hp, hn]

theorem Material.setProperty_plain (h : Host) (m : Material) (name : String) (value : Value)
    (hp : substr name 0 4 ≠ "tex_") (hn : name ∈ Material.plainNames) :
    m.setProperty h name value = .ok ⟨true, m.assignPlain name value, []⟩ := by
  have h1 : name ∉ Material.numberNames := by
    intro hmem
    simp [Material.numberNames, Material.plainNames] at hmem hn
    rcases hn with hn | hn | hn <;> subst hn <;> simp at hmem
  simp [Material.setProperty, hp, hn, h1]

theorem Material.setProperty_color (h : Host) (m : Material) (value : Value) :
    m.setProperty h "color" value =
      match Material.lengthMatches h 3 value with
      | .error e => .error e
      | .ok true =>
        .ok ⟨true, { m with _color := m._color.write (Material.elementNumbers h 3 value) }, []⟩
      | .ok false => .ok ⟨true, m, []⟩ := by
  have hp : substr "color" 0 4 ≠ "tex_" := by decide
  simp [Material.setProperty, hp, Material.numberNames, Material.plainNames,
    Material.vectorNames]

theorem Material.setProperty_uvs_matrix (h : Host) (m : Material) (value : Value) :
    m.setProperty h "uvs_matrix" value =
      match Material.lengthMatches h 9 value with
      | .error e => .error e
      | .ok true =>
        .ok ⟨true, { m with uvs_matrix := m.uvs_matrix.write (Material.elementNumbers h 9 value) }, []⟩
      | .ok false => .ok ⟨true, m, []⟩ := by
  have hp : substr "uvs_matrix" 0 4 ≠ "tex_" := by decide
  simp [Material.setProperty, hp, Material.numberNames, Material.plainNames,
    Material.vectorNames]

theorem Material.setProperty_textures (h : Host) (m : Material) (value : Value) :
    m.setProperty h "textures" value =
      .ok ⟨true, { m with textures :=
        Material.assignTextures m.textures (Material.enumerate value) }, []⟩ := by
  have hp : substr "textures" 0 4 ≠ "tex_" := by decide
  simp [Material.setProperty, hp, Material.numberNames, Material.plainNames,
    Material.vectorNames]

theorem Material.setProperty_transparency (h : Host) (m : Material) (value : Value) :
    m.setProperty h "transparency" value =
      .ok ⟨true, { m with _color := m._color.set 3 (Num.sub Num.one (value.toNumber h)) }, []⟩ := by
  have hp : substr "transparency" 0 4 ≠ "tex_" := by decide
  simp [Material.setProperty, hp, Material.numberNames, Material.plainNames,
    Material.vectorNames]

theorem Material.setProperty_unknown (h : Host) (m : Material) (name : String) (value : Value)
    (hp : substr name 0 4 ≠ "tex_")
    (hn : name ∉ ["opacity", "specular_factor", "specular_gloss", "reflection", "alpha_test",
      "alpha_test_shadows", "blend_mode", "uvs_matrix", "color", "textures", "transparency"]) :
    m.setProperty h name value = .ok ⟨false, m, []⟩ := by
  simp only [List.mem_cons, List.mem_singleton, not_or, List.mem_nil_iff, or_false] at hn
  obtain ⟨h1, h2, h3, h4, h5, h6, h7, h8, h9, h10, h11⟩ := hn
  simp [Material.setProperty, hp, Material.numberNames, Material.plainNames,
    Material.vectorNames, h1, h2, h3, h4, h5, h6, h7, h8, h9, h10, h11]

theorem Material.assignNumber_textures (m : Material) (name : String) (x : Num) :
    (m.assignNumber name x).textures = m.textures := by
  unfold Material.assignNumber
  split_ifs <;> rfl

theorem Material.assignPlain_textures (m : Material) (name : String) (value : Value) :
    (m.assignPlain name value).textures = m.textures := by
  unfold Material.assignPlain
  split_ifs <;> rfl

/-- Names other than `tex_...` and `textures` leave the channel table alone. -/
theorem Material.setProperty_textures_eq (h : Host) (m : Material) (name : String)
    (value : Value) (r : Outcome Bool) (hp : substr name 0 4 ≠ "tex_")
    (hn : name ≠ "textures") (hr : m.setProperty h name value = .ok r) :
    r.material.textures = m.textures := by
  unfold Material.setProperty at hr
  simp only [hp, if_false, hn] at hr
  split_ifs at hr with h1 h2 h3 h4 h5
  · split at hr
    · cases hr
    · cases hr; exact Material.assignNumber_textures _ _ _
    · cases hr; rfl
  · cases hr; exact Material.assignPlain_textures _ _ _
  · split at hr
    · cases hr
    · cases hr; rfl
    · cases hr; rfl
  · split at hr
    · cases hr
    · cases hr; rfl
    · cases hr; rfl
  · cases hr; rfl
  · cases hr; rfl

/-! ### C1: the channel-table invariant -/

theorem Op.texturesOk_apply (h : Host) (m : Material) (op : Op)
    (hop : op.keepsTextures = true) (ht : Material.texturesOk m.textures = true) :
    Material.texturesOk (op.apply h m).textures = true := by
  cases op with
  | setTexture c t o =>
    simp only [Op.apply]
    cases hr : m.setTexture h c t o with
    | error e => exact ht
    | ok r =>
      apply Material.texturesOk_setTexture h m c t o r _ ht hr
      intro o1 ho1 kv hkv
      subst ho1
      simp only [Op.keepsTextures, List.all_eq_true, Bool.or_eq_true, decide_eq_true_eq] at hop
      exact hop kv hkv
  | setTextureProperty c p v =>
    simp only [Op.apply]
    apply Material.texturesOk_setTextureProperty m c p v _ ht
    simpa [Op.keepsTextures] using hop
  | setTextureSampler c s =>
    simp only [Op.apply]
    cases hr : m.setTextureSampler c s with
    | error e => exact ht
    | ok r =>
      apply Material.texturesOk_setTextureSampler m c s r _ ht hr
      simpa [Op.keepsTextures] using hop
  | setProperty n v =>
    simp only [Op.apply]
    cases hr : m.setProperty h n v with
    | error e => exact ht
    | ok r =>
      by_cases hp : substr n 0 4 = "tex_"
      · rw [Material.setProperty_tex h m n v hp] at hr
        cases harg : Material.textureArgument v with
        | none =>
          simp only [harg] at hr
          cases hr; exact ht
        | some texture =>
          simp only [harg] at hr
          cases hst : m.setTexture h (substrFrom n 4) texture none with
          | error e => simp only [hst] at hr; cases hr
          | ok r1 =>
            simp only [hst] at hr
            cases hr
            exact Material.texturesOk_setTexture h m _ texture none r1
              (fun o ho => by cases ho) ht hst
      · by_cases hn : n = "textures"
        · subst hn
          rw [Material.setProperty_textures] at hr
          cases hr
          apply Material.texturesOk_assignTextures _ _ ht
          intro kv hkv
          simp only [Op.keepsTextures, Bool.or_eq_true, decide_eq_true_eq, List.all_eq_true] at hop
          rcases hop with (hop | hop) | hop
          · exact absurd hop hp
          · exact absurd rfl hop
          · exact hop kv hkv
        · rw [Material.setProperty_textures_eq h m n v r hp hn hr]; exact ht
  | onResourceRenamed a b =>
    simp only [Op.apply]
    exact Material.texturesOk_onResourceRenamed h m a b (by simpa [Op.keepsTextures] using hop) ht

theorem Material.texturesOk_run (h : Host) (ops : List Op) :
    ∀ m : Material, (∀ op ∈ ops, op.keepsTextures = true) →
      Material.texturesOk m.textures = true →
      Material.texturesOk (m.run h ops).textures = true := by
  induction ops with
  | nil => intro m _ ht; simpa [Material.run] using ht
  | cons op rest ih =>
    intro m hops ht
    simp only [Material.run, List.foldl_cons]
    apply ih
    · intro op1 hop1
      exact hops op1 (List.mem_cons_of_mem _ hop1)
    · exact Op.texturesOk_apply h m op (hops op (List.mem_cons_self _ _)) ht

/-- C1, as stated, fails: after `setTextureProperty("color", "texture", null)` on a fresh
material the channel `color` has an entry, and that entry holds a null texture. -/
theorem C1_null_texture_entry :
    (exampleMaterial.run exampleHost
        [Op.setTextureProperty "color" "texture" (.prim .null)]).hasEntry "color" = true ∧
    (exampleMaterial.run exampleHost
        [Op.setTextureProperty "color" "texture" (.prim .null)]).holdsTexture "color" = false := by
  decide

/-- C1, amended: in every state reached from a fresh material by calls that write no empty
texture reference into a descriptor (`Op.keepsTextures`: an empty reference is passed only
as the `texture` argument of `setTexture`, directly or through `tex_<channel>`), a channel
has an entry in the table if and only if that entry holds a non-empty texture reference. -/
theorem C1_channel_table_invariant (h : Host) (uid : String) (ops : List Op)
    (hops : ∀ op ∈ ops, op.keepsTextures = true) (c : String) :
    ((Material.create h uid).run h ops).hasEntry c = true ↔
      ((Material.create h uid).run h ops).holdsTexture c = true := by
  have hok : Material.texturesOk ((Material.create h uid).run h ops).textures = true :=
    Material.texturesOk_run h ops (Material.create h uid) hops (by
      simp [Material.create, Material.texturesOk])
  unfold Material.hasEntry Material.holdsTexture
  cases hget : Table.get ((Material.create h uid).run h ops).textures c with
  | none => simp
  | some e =>
    simp only [Option.isSome_some, true_iff]
    exact Material.texturesOk_get _ c e hok hget

/-- C1 at a concrete call sequence: assign, retune, clear another channel, rename. -/
theorem C1_channel_table_invariant_witness :
    (∀ op ∈ [Op.setTexture "color" (.prim (.str "a.png")) none,
        Op.setTextureProperty "color" "uvs" (.prim (.str "1")),
        Op.setProperty "tex_normal" (.prim .null),
        Op.onResourceRenamed (.prim (.str "a.png")) (.prim (.str "b.png"))], op.keepsTextures = true) ∧
    ((((Material.create exampleHost "MAT-0").run exampleHost
        [Op.setTexture "color" (.prim (.str "a.png")) none,
        Op.setTextureProperty "color" "uvs" (.prim (.str "1")),
        Op.setProperty "tex_normal" (.prim .null),
        Op.onResourceRenamed (.prim (.str "a.png")) (.prim (.str "b.png"))]).hasEntry "color" = true) ↔
      (((Material.create exampleHost "MAT-0").run exampleHost
        [Op.setTexture "color" (.prim (.str "a.png")) none,
        Op.setTextureProperty "color" "uvs" (.prim (.str "1")),
        Op.setProperty "tex_normal" (.prim .null),
        Op.onResourceRenamed (.prim (.str "a.png")) (.prim (.str "b.png"))]).holdsTexture "color" = true)) :=
  ⟨by decide, C1_channel_table_invariant exampleHost "MAT-0" _ (by decide) "color"⟩

/-! ### C2: clearing a channel -/

/-- C2: for a non-empty channel name `c`, `setTexture(c, t)` with a null (or otherwise
empty) `t` returns `undefined`, leaves no entry for `c`, keeps every other channel and
every other field; and `getTexture` answers `null` for a channel without an entry whose
name the table does not inherit from `Object.prototype` (the omitted channel, written `""`,
stands for `color`). -/
theorem C2_setTexture_null_clears (h : Host) (m : Material) (c : String) (t : Atom)
    (opts : Option Obj) (hc : c ≠ "") (ht : t.truthy = false) :
    (∃ m2, m.setTexture h c t opts = .ok ⟨.prim .undefined, m2, []⟩ ∧
      Table.get m2.textures c = none ∧
      (∀ c2, c2 ≠ c → Table.get m2.textures c2 = Table.get m.textures c2) ∧
      m2 = { m with textures := m2.textures }) ∧
    (∀ c0, (if c0 = "" then Material.COLOR_TEXTURE else c0) ∉ objectPrototypeNames →
      Table.get m.textures (if c0 = "" then Material.COLOR_TEXTURE else c0) = none →
      m.getTexture h c0 = .prim .null) := by
  refine ⟨⟨{ m with textures := Table.erase m.textures c },
    Material.setTexture_falsy h m c t opts hc ht, Table.get_erase_self _ _,
    fun c2 hc2 => Table.get_erase_of_ne _ _ _ hc2, rfl⟩, ?_⟩
  intro c0 _ hnone
  simp [Material.getTexture, Material.getTextureSampler, hnone, Entry.truthy, Prim.truthy]

/-- C2 on a material whose `color` channel is assigned: clearing it with `null`. -/
theorem C2_setTexture_null_clears_witness :
    ("color" ≠ "" ∧ (Atom.prim Prim.null).truthy = false) ∧
    ((∃ m2, (exampleMaterial.run exampleHost
        [Op.setTexture "color" (.prim (.str "a.png")) none]).setTexture exampleHost "color"
          (.prim .null) none = .ok ⟨.prim .undefined, m2, []⟩ ∧
      Table.get m2.textures "color" = none ∧
      (∀ c2, c2 ≠ "color" → Table.get m2.textures c2 =
        Table.get (exampleMaterial.run exampleHost
          [Op.setTexture "color" (.prim (.str "a.png")) none]).textures c2) ∧
      m2 = { (exampleMaterial.run exampleHost
          [Op.setTexture "color" (.prim (.str "a.png")) none]) with textures := m2.textures }) ∧
    (∀ c0, (if c0 = "" then Material.COLOR_TEXTURE else c0) ∉ objectPrototypeNames →
      Table.get (exampleMaterial.run exampleHost
        [Op.setTexture "color" (.prim (.str "a.png")) none]).textures
          (if c0 = "" then Material.COLOR_TEXTURE else c0) = none →
      (exampleMaterial.run exampleHost
        [Op.setTexture "color" (.prim (.str "a.png")) none]).getTexture exampleHost c0 =
          .prim .null)) :=
  ⟨⟨by decide, by decide⟩,
    C2_setTexture_null_clears exampleHost _ "color" (.prim .null) none (by decide) (by decide)⟩

/-! ### C4: creating a descriptor -/

theorem Material.getTextureSampler_of_none (m : Material) (c : String)
    (hnone : Table.get m.textures c = none) : m.getTextureSampler c = .prim .undefined := by
  simp [Material.getTextureSampler, hnone]

/-- C4, as stated, fails for a texture that is not `null` but empty: on a fresh material
`setTexture("color", "")` takes the `!texture` exit, creates no descriptor and returns
nothing. -/
theorem C4_empty_name_creates_nothing :
    Atom.prim (.str "") ≠ .prim .null ∧
    Table.get exampleMaterial.textures "color" = none ∧
    exampleMaterial.setTexture exampleHost "color" (.prim (.str "")) none =
      .ok ⟨.prim .undefined, exampleMaterial, []⟩ := by
  decide

/-- C4, amended: on a non-empty channel `c` without an entry, whose name the table does not
inherit from `Object.prototype`, `setTexture(c, t)` with a non-empty `t` and no sampler
options returns the new descriptor `{texture: t, uvs: default, wrap: 0, minFilter: 0,
magFilter: 0}`, stores it under `c` (after the existing entries unless `c` is an array
index) and changes nothing else; the default is `polar_reflected` for `environment`,
`polar` for `irradiance` and `"0"` for every other channel absent from `DEFAULT_UVS`. -/
theorem C4_setTexture_creates_default (h : Host) (m : Material) (c : String) (t : Atom)
    (hc : c ≠ "") (_hin : c ∉ objectPrototypeNames)
    (hnone : Table.get m.textures c = none) (ht : t.truthy = true) :
    (∃ r, m.setTexture h c t none = .ok r ∧
      r.value = .obj [("texture", t), ("uvs", .prim (.str (Material.defaultUvs c))),
        ("wrap", .prim (.num (.fin 0 0))), ("minFilter", .prim (.num (.fin 0 0))),
        ("magFilter", .prim (.num (.fin 0 0)))] ∧
      r.material = { m with textures := r.material.textures } ∧
      Table.get r.material.textures c = some r.value ∧
      (∀ c2, c2 ≠ c → Table.get r.material.textures c2 = Table.get m.textures c2) ∧
      (arrayIndex c = none → r.material.textures = m.textures ++ [(c, r.value)])) ∧
    Material.defaultUvs "environment" = "polar_reflected" ∧
    Material.defaultUvs "irradiance" = "polar" ∧
    (∀ c2, c2 ∉ objectPrototypeNames → Table.get Material.DEFAULT_UVS c2 = none →
      Material.defaultUvs c2 = "0") := by
  have hs : (m.getTextureSampler c).truthy = false := by
    rw [Material.getTextureSampler_of_none m c hnone]; rfl
  refine ⟨⟨_, Material.setTexture_create h m c t none hc ht hs, rfl, rfl, ?_, ?_, ?_⟩,
    by decide, by decide, ?_⟩
  · exact Table.get_set_self _ _ _
  · intro c2 hc2
    exact Table.get_set_of_ne _ _ _ _ hc2
  · intro hidx
    exact Table.set_of_get_none _ _ _ hnone hidx
  · intro c2 _ hc2
    simp [Material.defaultUvs, hc2]

/-- C4 on a fresh material: the first texture of the `environment` channel. -/
theorem C4_setTexture_creates_default_witness :
    ("environment" ≠ "" ∧ "environment" ∉ objectPrototypeNames ∧
      Table.get exampleMaterial.textures "environment" = none ∧
      (Atom.prim (.str "sky.png")).truthy = true) ∧
    ((∃ r, exampleMaterial.setTexture exampleHost "environment" (.prim (.str "sky.png")) none
        = .ok r ∧
      r.value = .obj [("texture", .prim (.str "sky.png")),
        ("uvs", .prim (.str (Material.defaultUvs "environment"))),
        ("wrap", .prim (.num (.fin 0 0))), ("minFilter", .prim (.num (.fin 0 0))),
        ("magFilter", .prim (.num (.fin 0 0)))] ∧
      r.material = { exampleMaterial with textures := r.material.textures } ∧
      Table.get r.material.textures "environment" = some r.value ∧
      (∀ c2, c2 ≠ "environment" →
        Table.get r.material.textures c2 = Table.get exampleMaterial.textures c2) ∧
      (arrayIndex "environment" = none →
        r.material.textures = exampleMaterial.textures ++ [("environment", r.value)])) ∧
    Material.defaultUvs "environment" = "polar_reflected" ∧
    Material.defaultUvs "irradiance" = "polar" ∧
    (∀ c2, c2 ∉ objectPrototypeNames → Table.get Material.DEFAULT_UVS c2 = none →
      Material.defaultUvs c2 = "0")) :=
  ⟨⟨by decide, by decide, by decide, by decide⟩,
    C4_setTexture_creates_default exampleHost exampleMaterial "environment"
      (.prim (.str "sky.png")) (by decide) (by decide) (by decide) (by decide)⟩

/-! ### C3: assigning the same texture twice -/

theorem Num.eq_self_of_truthy (x : Num) (hx : x.truthy = true) : Num.eq x x = true := by
  cases x with
  | nan => simp [Num.truthy] at hx
  | inf a => simp [Num.eq]
  | fin m e => simp [Num.eq]

theorem Prim.looseEq_refl_of_truthy (h : Host) (p : Prim) (hp : p.truthy = true) :
    Prim.looseEq h p p = true := by
  cases p with
  | undefined => simp [Prim.truthy] at hp
  | null => simp [Prim.truthy] at hp
  | bool b => simp [Prim.looseEq]
  | num x => simpa [Prim.looseEq] using Num.eq_self_of_truthy x (by simpa [Prim.truthy] using hp)
  | str s => simp [Prim.looseEq]

theorem Atom.looseEq_self_of_truthy (h : Host) (t : Atom) (ht : t.truthy = true) :
    Atom.looseEq h t t = true := by
  cases t with
  | tex a => simp [Atom.looseEq]
  | prim p =>
    have hp : p.truthy = true := by simpa [Atom.truthy] using ht
    cases p with
    | undefined => simp [Prim.truthy] at hp
    | null => simp [Prim.truthy] at hp
    | bool b => simpa [Atom.looseEq, Atom.toPrim] using Prim.looseEq_refl_of_truthy h _ hp
    | num x => simpa [Atom.looseEq, Atom.toPrim] using Prim.looseEq_refl_of_truthy h _ hp
    | str s => simpa [Atom.looseEq, Atom.toPrim] using Prim.looseEq_refl_of_truthy h _ hp

theorem Entry.truthy_setField (e : Entry) (k : String) (v : Atom) :
    (e.setField k v).truthy = e.truthy := by
  cases e <;> rfl

theorem Entry.truthy_foldl (o : Obj) :
    ∀ e : Entry, (o.foldl (fun acc kv => acc.setField kv.1 kv.2) e).truthy = e.truthy := by
  induction o with
  | nil => intro e; rfl
  | cons hd tl ih =>
    intro e
    simp only [List.foldl_cons]
    rw [ih, Entry.truthy_setField]

theorem Entry.truthy_merge (e : Entry) (opts : Option Obj) :
    (e.merge opts).truthy = e.truthy := by
  cases opts with
  | none => rfl
  | some o => exact Entry.truthy_foldl o e

theorem Entry.getField_setField_of_ne (e : Entry) (k k2 : String) (v : Atom) (hne : k2 ≠ k) :
    (e.setField k v).getField k2 = e.getField k2 := by
  cases e with
  | prim p => rfl
  | tex t => rfl
  | obj o => simp [Entry.setField, Entry.getField, Table.get_set_of_ne o k k2 v hne]

theorem Entry.getField_foldl_of_no_key (o : Obj) (k : String) :
    ∀ e : Entry, (∀ kv ∈ o, kv.1 ≠ k) →
      (o.foldl (fun acc kv => acc.setField kv.1 kv.2) e).getField k = e.getField k := by
  induction o with
  | nil => intro e _; rfl
  | cons hd tl ih =>
    intro e hall
    simp only [List.foldl_cons]
    rw [ih _ (fun kv hkv => hall kv (List.mem_cons_of_mem _ hkv))]
    exact Entry.getField_setField_of_ne e hd.1 k hd.2
      (Ne.symm (hall hd (List.mem_cons_self _ _)))

theorem Entry.getField_merge_of_no_key (e : Entry) (opts : Option Obj) (k : String)
    (hopts : ∀ o, opts = some o → ∀ kv ∈ o, kv.1 ≠ k) :
    (e.merge opts).getField k = e.getField k := by
  cases opts with
  | none => rfl
  | some o => exact Entry.getField_foldl_of_no_key o k e (hopts o rfl)

theorem Entry.foldl_setField_prim (o : Obj) (p : Prim) :
    o.foldl (fun acc kv => acc.setField kv.1 kv.2) (Entry.prim p) = Entry.prim p := by
  induction o with
  | nil => rfl
  | cons hd tl ih => simpa [List.foldl_cons, Entry.setField] using ih

theorem Entry.foldl_setField_tex (o : Obj) (t : Texture) :
    o.foldl (fun acc kv => acc.setField kv.1 kv.2) (Entry.tex t) = Entry.tex t := by
  induction o with
  | nil => rfl
  | cons hd tl ih => simpa [List.foldl_cons, Entry.setField] using ih

/-- Writes onto a slot that is not a descriptor object are dropped. -/
theorem Entry.merge_setField_of_not_obj (e : Entry) (k : String) (v : Atom)
    (opts : Option Obj) (hno : ∀ o, e ≠ .obj o) : (e.setField k v).merge opts = e := by
  cases e with
  | obj o => exact absurd rfl (hno o)
  | prim p =>
    cases opts with
    | none => rfl
    | some o => exact Entry.foldl_setField_prim o p
  | tex t =>
    cases opts with
    | none => rfl
    | some o => exact Entry.foldl_setField_tex o t

theorem Entry.getField_setField_self_obj (o : Obj) (k : String) (v : Atom) :
    ((Entry.obj o).setField k v).getField k = v := by
  simp [Entry.setField, Entry.getField, Table.get_set_self]

theorem Material.getTextureSampler_set (m : Material) (c : String) (e : Entry) :
    Material.getTextureSampler { m with textures := Table.set m.textures c e } c = e := by
  simp [Material.getTextureSampler, Table.get_set_self]

theorem Material.get_of_truthy_sampler (m : Material) (c : String)
    (hs : (m.getTextureSampler c).truthy = true) :
    Table.get m.textures c = some (m.getTextureSampler c) := by
  unfold Material.getTextureSampler at hs ⊢
  cases hget : Table.get m.textures c with
  | none => simp [hget, Entry.truthy, Prim.truthy] at hs
  | some e => simp

theorem Material.setTexture_same_of (h : Host) (m : Material) (c : String) (t : Atom)
    (opts : Option Obj) (e : Entry) (hc : c ≠ "") (ht : t.truthy = true)
    (hget : m.getTextureSampler c = e) (hs : e.truthy = true)
    (heq : Atom.looseEq h (e.getField "texture") t = true) :
    m.setTexture h c t opts = .ok ⟨e, m, []⟩ := by
  subst hget
  exact Material.setTexture_same h m c t opts hc ht hs heq

theorem Material.setTexture_replace_of (h : Host) (m : Material) (c : String) (t : Atom)
    (opts : Option Obj) (e : Entry) (hc : c ≠ "") (ht : t.truthy = true)
    (hget : m.getTextureSampler c = e) (hs : e.truthy = true)
    (heq : Atom.looseEq h (e.getField "texture") t = false) :
    m.setTexture h c t opts =
      .ok ⟨(e.setField "texture" t).merge opts,
        { m with textures := Table.set m.textures c ((e.setField "texture" t).merge opts) },
        Material.loadRequest t⟩ := by
  subst hget
  exact Material.setTexture_replace h m c t opts hc ht hs heq

/-- C3, as stated, fails: with sampler options that carry a `texture` field the first call
stores that field, so the second call with the same arguments' texture replaces it. -/
theorem C3_texture_option_defeats_idempotence :
    ∃ r1 r2,
      exampleMaterial.setTexture exampleHost "color" (.prim (.str "a.png"))
        (some [("texture", .prim (.str "b.png"))]) = .ok r1 ∧
      r1.material.setTexture exampleHost "color" (.prim (.str "a.png")) none = .ok r2 ∧
      r2.material.textures ≠ r1.material.textures ∧ r2.value ≠ r1.value := by
  refine ⟨_, _, rfl, rfl, ?_, ?_⟩ <;> decide

/-- C3, amended: when the sampler options of the first call carry no `texture` field, a
second `setTexture(c, t, o2)` after a successful `setTexture(c, t, o1)` returns what the
first call returned and leaves the material, channel table included, exactly as the first
call left it; for a non-empty `t` that return value is the entry of `c`. -/
theorem C3_setTexture_idempotent (h : Host) (m : Material) (c : String) (t : Atom)
    (o1 o2 : Option Obj) (r1 : Outcome Entry)
    (ho1 : ∀ o, o1 = some o → ∀ kv ∈ o, kv.1 ≠ "texture")
    (h1 : m.setTexture h c t o1 = .ok r1) :
    (∃ loads, r1.material.setTexture h c t o2 = .ok ⟨r1.value, r1.material, loads⟩) ∧
    (t.truthy = true → Table.get r1.material.textures c = some r1.value) := by
  by_cases hc : c = ""
  · subst hc
    rw [Material.setTexture_no_channel] at h1
    cases h1
  · cases htr : t.truthy with
    | false =>
      rw [Material.setTexture_falsy h m c t o1 hc htr] at h1
      cases h1
      refine ⟨⟨[], ?_⟩, by intro hcontra; cases hcontra⟩
      rw [Material.setTexture_falsy h _ c t o2 hc htr]
      simp [Table.erase_erase_same]
    | true =>
      cases hs : (m.getTextureSampler c).truthy with
      | false =>
        rw [Material.setTexture_create h m c t o1 hc htr hs] at h1
        cases h1
        refine ⟨⟨[], ?_⟩, fun _ => Table.get_set_self _ _ _⟩
        refine Material.setTexture_same_of h _ c t o2 _ hc htr
          (Material.getTextureSampler_set m c _) ?_ ?_
        · rw [Entry.truthy_merge]; rfl
        · rw [Entry.getField_merge_of_no_key _ _ _ ho1]
          simpa [Material.samplerLiteral, Entry.getField, Table.get] using
            Atom.looseEq_self_of_truthy h t htr
      | true =>
        cases heq : Atom.looseEq h ((m.getTextureSampler c).getField "texture") t with
        | true =>
          rw [Material.setTexture_same h m c t o1 hc htr hs heq] at h1
          cases h1
          exact ⟨⟨[], Material.setTexture_same h m c t o2 hc htr hs heq⟩,
            fun _ => Material.get_of_truthy_sampler m c hs⟩
        | false =>
          rw [Material.setTexture_replace h m c t o1 hc htr hs heq] at h1
          cases h1
          refine ⟨?_, fun _ => Table.get_set_self _ _ _⟩
          by_cases hobj : ∃ o, m.getTextureSampler c = Entry.obj o
          · obtain ⟨o, hshape⟩ := hobj
            refine ⟨[], ?_⟩
            refine Material.setTexture_same_of h _ c t o2 _ hc htr
              (Material.getTextureSampler_set m c _) ?_ ?_
            · rw [Entry.truthy_merge, Entry.truthy_setField]; exact hs
            · rw [Entry.getField_merge_of_no_key _ _ _ ho1, hshape,
                Entry.getField_setField_self_obj]
              exact Atom.looseEq_self_of_truthy h t htr
          · have hno : ∀ o, m.getTextureSampler c ≠ Entry.obj o :=
              fun o ho => hobj ⟨o, ho⟩
            have hkeep : ∀ o : Option Obj,
                ((m.getTextureSampler c).setField "texture" t).merge o = m.getTextureSampler c :=
              fun o => Entry.merge_setField_of_not_obj _ _ _ o hno
            refine ⟨Material.loadRequest t, ?_⟩
            simp only [hkeep]
            rw [Material.setTexture_replace_of h _ c t o2 (m.getTextureSampler c) hc htr
              (Material.getTextureSampler_set m c _) hs heq]
            simp [hkeep, Table.set_set_same]

/-- C3 on a fresh material: `color` assigned twice with different wrap options; the second
call keeps the wrap mode of the first. -/
theorem C3_setTexture_idempotent_witness :
    ((∀ o, some [("wrap", Atom.prim (.num (.fin 1 0)))] = some o →
        ∀ kv ∈ o, kv.1 ≠ "texture") ∧
      exampleMaterial.setTexture exampleHost "color" (.prim (.str "a.png"))
        (some [("wrap", .prim (.num (.fin 1 0)))]) =
        .ok ⟨exampleDescriptor, exampleAssigned, ["a.png"]⟩) ∧
    ((∃ loads, exampleAssigned.setTexture exampleHost "color" (.prim (.str "a.png"))
        (some [("wrap", .prim (.num (.fin 2 0)))]) =
        .ok ⟨exampleDescriptor, exampleAssigned, loads⟩) ∧
    ((Atom.prim (.str "a.png")).truthy = true →
      Table.get exampleAssigned.textures "color" = some exampleDescriptor)) :=
  ⟨⟨by intro o ho kv hkv; cases ho; simp at hkv; simp [hkv], by decide⟩,
    C3_setTexture_idempotent exampleHost exampleMaterial "color" (.prim (.str "a.png"))
      (some [("wrap", .prim (.num (.fin 1 0)))]) (some [("wrap", .prim (.num (.fin 2 0)))])
      ⟨exampleDescriptor, exampleAssigned, ["a.png"]⟩
      (by intro o ho kv hkv; cases ho; simp at hkv; simp [hkv]) (by decide)⟩

/-! ### C5: which names `setProperty` recognises -/

theorem Material.listed_not_tex (name : String)
    (hn : name ∈ ["opacity", "specular_factor", "specular_gloss", "reflection", "alpha_test",
      "alpha_test_shadows", "blend_mode", "uvs_matrix", "color", "textures", "transparency"]) :
    substr name 0 4 ≠ "tex_" := by
  simp only [List.mem_cons, List.mem_singleton, List.mem_nil_iff, or_false] at hn
  rcases hn with hn | hn | hn | hn | hn | hn | hn | hn | hn | hn | hn <;> subst hn <;> decide

theorem Material.setProperty_value_of_recognised (h : Host) (m : Material) (name : String)
    (value : Value) (r : Outcome Bool)
    (hn : substr name 0 4 = "tex_" ∨ name ∈ ["opacity", "specular_factor", "specular_gloss",
      "reflection", "alpha_test", "alpha_test_shadows", "blend_mode", "uvs_matrix", "color",
      "textures", "transparency"])
    (hr : m.setProperty h name value = .ok r) : r.value = true := by
  by_cases hp : substr name 0 4 = "tex_"
  · rw [Material.setProperty_tex h m name value hp] at hr
    split at hr
    · split at hr
      · cases hr; rfl
      · cases hr
    · cases hr; rfl
  · rcases hn with hn | hn
    · exact absurd hn hp
    · unfold Material.setProperty at hr
      simp only [hp, if_false] at hr
      split_ifs at hr with h1 h2 h3 h4 h5
      · split at hr
        · cases hr
        · cases hr; rfl
        · cases hr; rfl
      · cases hr; rfl
      · split at hr
        · cases hr
        · cases hr; rfl
        · cases hr; rfl
      · split at hr
        · cases hr
        · cases hr; rfl
        · cases hr; rfl
      · cases hr; rfl
      · cases hr; rfl
      · exfalso
        simp only [List.mem_cons, List.mem_singleton, List.mem_nil_iff, or_false] at hn
        simp only [Material.numberNames, Material.plainNames, Material.vectorNames,
          List.mem_cons, List.mem_singleton, List.mem_nil_iff, or_false, not_or] at h1 h2 h3
        rcases hn with hn | hn | hn | hn | hn | hn | hn | hn | hn | hn | hn <;>
          simp_all

theorem Material.numberArgument_ok (value : Value) (h1 : value ≠ .prim .null)
    (h2 : value ≠ .prim .undefined) : ∃ x, Material.numberArgument value = .ok x := by
  cases value with
  | prim p =>
    cases p with
    | undefined => exact absurd rfl h2
    | null => exact absurd rfl h1
    | bool b => exact ⟨_, rfl⟩
    | num x => exact ⟨_, rfl⟩
    | str s => exact ⟨_, rfl⟩
  | tex t => exact ⟨_, rfl⟩
  | arr xs => exact ⟨_, rfl⟩
  | map mp => exact ⟨_, rfl⟩

theorem Material.lengthMatches_ok (h : Host) (n : Nat) (value : Value)
    (h1 : value ≠ .prim .null) (h2 : value ≠ .prim .undefined) :
    ∃ b, Material.lengthMatches h n value = .ok b := by
  cases value with
  | prim p =>
    cases p with
    | undefined => exact absurd rfl h2
    | null => exact absurd rfl h1
    | bool b => exact ⟨_, rfl⟩
    | num x => exact ⟨_, rfl⟩
    | str s => exact ⟨_, rfl⟩
  | tex t => exact ⟨_, rfl⟩
  | arr xs => exact ⟨_, rfl⟩
  | map mp =>
    simp only [Material.lengthMatches]
    split
    · exact ⟨_, rfl⟩
    · exact ⟨_, rfl⟩

theorem Material.setTexture_ok_of_channel (h : Host) (m : Material) (c : String) (t : Atom)
    (opts : Option Obj) (hc : c ≠ "") : ∃ r, m.setTexture h c t opts = .ok r := by
  cases htr : t.truthy with
  | false => exact ⟨_, Material.setTexture_falsy h m c t opts hc htr⟩
  | true =>
    cases hs : (m.getTextureSampler c).truthy with
    | false => exact ⟨_, Material.setTexture_create h m c t opts hc htr hs⟩
    | true =>
      cases heq : Atom.looseEq h ((m.getTextureSampler c).getField "texture") t with
      | true => exact ⟨_, Material.setTexture_same h m c t opts hc htr hs heq⟩
      | false => exact ⟨_, Material.setTexture_replace h m c t opts hc htr hs heq⟩

/-- C5, as stated, fails: `tex_` begins with the texture prefix, yet
`setProperty("tex_", null)` returns nothing: the empty channel makes `setTexture` throw. -/
theorem C5_empty_channel_throws :
    substr "tex_" 0 4 = "tex_" ∧
    exampleMaterial.setProperty exampleHost "tex_" (.prim .null) =
      .error (.thrown "Material.prototype.setTexture channel must be specified") := by
  decide

/-- C5, amended: `setProperty` returns `false`, changing nothing, for every name that neither
begins with `tex_` nor is one of the eleven listed names; for a recognised name it never
returns `false`; it returns `true` for `tex_` followed by a non-empty channel, for
`alpha_test`, `alpha_test_shadows`, `blend_mode`, `textures` and `transparency` with any
value, and for the number and vector names with any value other than `null` and
`undefined`; for the bare name `tex_` with a string, a texture or an empty value it raises
the missing-channel fault of `setTexture`. -/
theorem C5_setProperty_recognised (h : Host) (m : Material) (name : String) (value : Value) :
    ((substr name 0 4 ≠ "tex_" ∧ name ∉ ["opacity", "specular_factor", "specular_gloss",
        "reflection", "alpha_test", "alpha_test_shadows", "blend_mode", "uvs_matrix", "color",
        "textures", "transparency"]) →
      m.setProperty h name value = .ok ⟨false, m, []⟩) ∧
    ((substr name 0 4 = "tex_" ∨ name ∈ ["opacity", "specular_factor", "specular_gloss",
        "reflection", "alpha_test", "alpha_test_shadows", "blend_mode", "uvs_matrix", "color",
        "textures", "transparency"]) →
      ∀ r, m.setProperty h name value = .ok r → r.value = true) ∧
    (((substr name 0 4 = "tex_" ∧ substrFrom name 4 ≠ "") ∨
        name ∈ ["alpha_test", "alpha_test_shadows", "blend_mode", "textures", "transparency"] ∨
        (name ∈ ["opacity", "specular_factor", "specular_gloss", "reflection", "uvs_matrix",
          "color"] ∧ value ≠ .prim .null ∧ value ≠ .prim .undefined)) →
      ∃ m2 loads, m.setProperty h name value = .ok ⟨true, m2, loads⟩) ∧
    ((substr name 0 4 = "tex_" ∧ substrFrom name 4 = "" ∧
        Material.textureArgument value ≠ none) →
      m.setProperty h name value =
        .error (.thrown "Material.prototype.setTexture channel must be specified")) := by
  refine ⟨?_, ?_, ?_, ?_⟩
  · rintro ⟨hp, hn⟩
    exact Material.setProperty_unknown h m name value hp hn
  · intro hn r hr
    exact Material.setProperty_value_of_recognised h m name value r hn hr
  · rintro (⟨hp, hc⟩ | hn | ⟨hn, h1, h2⟩)
    · rw [Material.setProperty_tex h m name value hp]
      cases harg : Material.textureArgument value with
      | none => exact ⟨m, [], rfl⟩
      | some texture =>
        obtain ⟨r, hr⟩ := Material.setTexture_ok_of_channel h m (substrFrom name 4) texture none hc
        exact ⟨r.material, r.loads, by simp [hr]⟩
    · simp only [List.mem_cons, List.mem_singleton, List.mem_nil_iff, or_false] at hn
      rcases hn with hn | hn | hn | hn | hn <;> subst hn
      · exact ⟨_, _, Material.setProperty_plain h m _ value (by decide) (by decide)⟩
      · exact ⟨_, _, Material.setProperty_plain h m _ value (by decide) (by decide)⟩
      · exact ⟨_, _, Material.setProperty_plain h m _ value (by decide) (by decide)⟩
      · exact ⟨_, _, Material.setProperty_textures h m value⟩
      · exact ⟨_, _, Material.setProperty_transparency h m value⟩
    · simp only [List.mem_cons, List.mem_singleton, List.mem_nil_iff, or_false] at hn
      have hnum : ∀ n, substr n 0 4 ≠ "tex_" → n ∈ Material.numberNames →
          ∃ m2 loads, m.setProperty h n value = .ok ⟨true, m2, loads⟩ := by
        intro n hp hmem
        rw [Material.setProperty_number h m n value hp hmem]
        obtain ⟨x, hx⟩ := Material.numberArgument_ok value h1 h2
        rw [hx]
        cases x with
        | none => exact ⟨_, _, rfl⟩
        | some y => exact ⟨_, _, rfl⟩
      rcases hn with hn | hn | hn | hn | hn | hn <;> subst hn
      · exact hnum _ (by decide) (by decide)
      · exact hnum _ (by decide) (by decide)
      · exact hnum _ (by decide) (by decide)
      · exact hnum _ (by decide) (by decide)
      · rw [Material.setProperty_uvs_matrix]
        obtain ⟨b, hb⟩ := Material.lengthMatches_ok h 9 value h1 h2
        rw [hb]
        cases b with
        | true => exact ⟨_, _, rfl⟩
        | false => exact ⟨_, _, rfl⟩
      · rw [Material.setProperty_color]
        obtain ⟨b, hb⟩ := Material.lengthMatches_ok h 3 value h1 h2
        rw [hb]
        cases b with
        | true => exact ⟨_, _, rfl⟩
        | false => exact ⟨_, _, rfl⟩
  · rintro ⟨hp, hc, harg⟩
    rw [Material.setProperty_tex h m name value hp]
    cases hta : Material.textureArgument value with
    | none => exact absurd hta harg
    | some texture =>
      simp only [hc, Material.setTexture_no_channel]

/-- C5 at concrete calls: an unknown name, a listed name, a texture name and the bare prefix. -/
theorem C5_setProperty_recognised_witness :
    (exampleMaterial.setProperty exampleHost "shininess" (.prim (.num Num.one)) =
      .ok ⟨false, exampleMaterial, []⟩) ∧
    (∃ m2 loads, exampleMaterial.setProperty exampleHost "blend_mode" (.prim (.str "alpha")) =
      .ok ⟨true, m2, loads⟩) ∧
    (∃ m2 loads, exampleMaterial.setProperty exampleHost "tex_color" (.prim (.str "a.png")) =
      .ok ⟨true, m2, loads⟩) ∧
    (exampleMaterial.setProperty exampleHost "tex_" (.prim (.str "a.png")) =
      .error (.thrown "Material.prototype.setTexture channel must be specified")) :=
  ⟨(C5_setProperty_recognised exampleHost exampleMaterial "shininess"
      (.prim (.num Num.one))).1 ⟨by decide, by decide⟩,
    (C5_setProperty_recognised exampleHost exampleMaterial "blend_mode"
      (.prim (.str "alpha"))).2.2.1 (Or.inr (Or.inl (by decide))),
    (C5_setProperty_recognised exampleHost exampleMaterial "tex_color"
      (.prim (.str "a.png"))).2.2.1 (Or.inl ⟨by decide, by decide⟩),
    (C5_setProperty_recognised exampleHost exampleMaterial "tex_"
      (.prim (.str "a.png"))).2.2.2 ⟨by decide, by decide, by decide⟩⟩

/-! ### C6: `null` and `undefined` in the number and vector cases -/

/-- C6 at the failing inputs: `setProperty` with `null` or `undefined` for a number name or a
vector name raises a `TypeError` (the read of `value.constructor`, of `value.length`)
where the claim has the call ignored without failing. -/
theorem C6_null_value_raises (h : Host) (m : Material) :
    m.setProperty h "opacity" (.prim .null) = .error .typeError ∧
    m.setProperty h "opacity" (.prim .undefined) = .error .typeError ∧
    m.setProperty h "specular_factor" (.prim .null) = .error .typeError ∧
    m.setProperty h "specular_gloss" (.prim .undefined) = .error .typeError ∧
    m.setProperty h "reflection" (.prim .null) = .error .typeError ∧
    m.setProperty h "color" (.prim .null) = .error .typeError ∧
    m.setProperty h "uvs_matrix" (.prim .undefined) = .error .typeError := by
  refine ⟨?_, ?_, ?_, ?_, ?_, ?_, ?_⟩
  · rw [Material.setProperty_number h m _ _ (by decide) (by decide)]; rfl
  · rw [Material.setProperty_number h m _ _ (by decide) (by decide)]; rfl
  · rw [Material.setProperty_number h m _ _ (by decide) (by decide)]; rfl
  · rw [Material.setProperty_number h m _ _ (by decide) (by decide)]; rfl
  · rw [Material.setProperty_number h m _ _ (by decide) (by decide)]; rfl
  · rw [Material.setProperty_color]; rfl
  · rw [Material.setProperty_uvs_matrix]; rfl

/-- Outside `null` and `undefined` a mismatched value is ignored: a value that is not a
number leaves a number name as it was, and a value whose length differs leaves a vector
name as it was; the call returns `true`. -/
theorem Material.setProperty_mismatch_ignored (h : Host) (m : Material) (value : Value) :
    (∀ name, name ∈ Material.numberNames → Material.numberArgument value = .ok none →
      m.setProperty h name value = .ok ⟨true, m, []⟩) ∧
    (Material.lengthMatches h 3 value = .ok false →
      m.setProperty h "color" value = .ok ⟨true, m, []⟩) ∧
    (Material.lengthMatches h 9 value = .ok false →
      m.setProperty h "uvs_matrix" value = .ok ⟨true, m, []⟩) := by
  refine ⟨?_, ?_, ?_⟩
  · intro name hn hv
    have hp : substr name 0 4 ≠ "tex_" := by
      apply Material.listed_not_tex
      simp only [Material.numberNames, List.mem_cons, List.mem_singleton, List.mem_nil_iff,
        or_false] at hn
      rcases hn with hn | hn | hn | hn <;> subst hn <;> decide
    rw [Material.setProperty_number h m name value hp hn, hv]
  · intro hv
    rw [Material.setProperty_color, hv]
  · intro hv
    rw [Material.setProperty_uvs_matrix, hv]

/-! ### C7 and C8: the colour buffer -/

theorem F32Array.four_elems (a : F32Array 4) : ∃ d0 d1 d2 d3, a.data = [d0, d1, d2, d3] := by
  obtain ⟨data, hsize⟩ := a
  rcases data with _ | ⟨d0, _ | ⟨d1, _ | ⟨d2, _ | ⟨d3, _ | ⟨d4, tl⟩⟩⟩⟩⟩ <;>
    simp at hsize
  exact ⟨d0, d1, d2, d3, rfl⟩

theorem F32Array.get_set_three (a : F32Array 4) (x : Num) :
    (a.set 3 x).get 3 = .num x.toFloat32 := by
  obtain ⟨d0, d1, d2, d3, hd⟩ := a.four_elems
  simp [F32Array.get, F32Array.set, hd]

theorem F32Array.get_set_three_of_lt (a : F32Array 4) (x : Num) (i : Nat) (hi : i < 3) :
    (a.set 3 x).get i = a.get i := by
  obtain ⟨d0, d1, d2, d3, hd⟩ := a.four_elems
  have hcases : i = 0 ∨ i = 1 ∨ i = 2 := by omega
  rcases hcases with hi0 | hi0 | hi0 <;> subst hi0 <;> simp [F32Array.get, F32Array.set, hd]

theorem F32Array.toAtoms_set_three (a : F32Array 4) (x : Num) :
    (a.set 3 x).toAtoms 3 = a.toAtoms 3 := by
  obtain ⟨d0, d1, d2, d3, hd⟩ := a.four_elems
  simp [F32Array.toAtoms, F32Array.set, hd]

theorem F32Array.data_write_three (a : F32Array 4) (x y z : Num) :
    ∃ d0 d1 d2 d3, a.data = [d0, d1, d2, d3] ∧
      (a.write [x, y, z]).data = [x.toFloat32, y.toFloat32, z.toFloat32, d3] := by
  obtain ⟨d0, d1, d2, d3, hd⟩ := a.four_elems
  exact ⟨d0, d1, d2, d3, hd, by simp [F32Array.write, hd]⟩

theorem Material.getProperty_opacity (m : Material) :
    m.getProperty "opacity" = .prim (m._color.get 3) := by
  have hp : substr "opacity" 0 4 ≠ "tex_" := by decide
  simp [Material.getProperty, hp, Material.field]

theorem Material.getProperty_color (m : Material) :
    m.getProperty "color" = .arr (m._color.toAtoms 3) := by
  have hp : substr "color" 0 4 ≠ "tex_" := by decide
  simp [Material.getProperty, hp, Material.field]

theorem Material.setProperty_opacity (h : Host) (m : Material) (x : Num) :
    m.setProperty h "opacity" (.prim (.num x)) =
      .ok ⟨true, { m with _color := m._color.set 3 x }, []⟩ := by
  rw [Material.setProperty_number h m _ _ (by decide) (by decide)]
  simp [Material.numberArgument, Material.assignNumber]

/-- C7, as stated, fails: for `v = 0.1` the opacity read back is the single-precision
0.89999997615814208984375, not the double `1 - 0.1`. -/
theorem C7_opacity_is_single_precision :
    ∃ r, exampleMaterial.setProperty exampleHost "transparency" (.prim (.num oneTenth)) = .ok r ∧
      r.material.getProperty "opacity" = .prim (.num (.fin 7549747 (-23))) ∧
      Num.sub Num.one oneTenth = .fin 8106479329266893 (-53) ∧
      r.material.getProperty "opacity" ≠ .prim (.num (Num.sub Num.one oneTenth)) := by
  refine ⟨_, rfl, ?_, ?_, ?_⟩ <;> decide

/-- C7, amended: for every number `v`, `setProperty("transparency", v)` returns `true` and
`getProperty("opacity")` then returns `1 - v` rounded to single precision (the opacity lives
in a `Float32Array` slot); the RGB colour and every other field are unchanged; `v = 0.25`
gives exactly 0.75. -/
theorem C7_transparency_sets_opacity (h : Host) (m : Material) (v : Num) :
    (∃ m2, m.setProperty h "transparency" (.prim (.num v)) = .ok ⟨true, m2, []⟩ ∧
      m2.getProperty "opacity" = .prim (.num (Num.sub Num.one v).toFloat32) ∧
      m2.getProperty "color" = m.getProperty "color" ∧
      m2 = { m with _color := m2._color }) ∧
    (Num.sub Num.one oneQuarter).toFloat32 = .fin 3 (-2) := by
  refine ⟨⟨_, Material.setProperty_transparency h m _, ?_, ?_, rfl⟩, by decide⟩
  · rw [Material.getProperty_opacity]
    simp [F32Array.get_set_three, Value.toNumber, Prim.toNumber]
  · rw [Material.getProperty_color, Material.getProperty_color]
    simp [F32Array.toAtoms_set_three]

/-- C8, as stated, fails: `setProperty("opacity", 0.1)` stores the single-precision
0.100000001490116119384765625 in slot 3, not 0.1. -/
theorem C8_opacity_store_rounds :
    ∃ r, exampleMaterial.setProperty exampleHost "opacity" (.prim (.num oneTenth)) = .ok r ∧
      r.material._color.get 3 = .num (.fin 13421773 (-27)) ∧
      r.material._color.get 3 ≠ .num oneTenth := by
  refine ⟨_, rfl, ?_, ?_⟩ <;> decide

/-- C8, amended: `setProperty("color", [a, b, c])` sets slots 0..2 of the colour buffer to
`a`, `b`, `c` rounded to single precision and keeps slot 3; `setProperty("opacity", x)` sets
slot 3 to `x` rounded to single precision and keeps slots 0..2; in both cases the call
returns `true`, nothing but the contents of the one 4-slot buffer changes, and `getProperty`
reads the stored values back. -/
theorem C8_color_and_opacity_share_buffer (h : Host) (m : Material) (a b c x : Num) :
    (∃ m2, m.setProperty h "color"
        (.arr [.prim (.num a), .prim (.num b), .prim (.num c)]) = .ok ⟨true, m2, []⟩ ∧
      m2 = { m with _color := m2._color } ∧
      m2._color.get 0 = .num a.toFloat32 ∧ m2._color.get 1 = .num b.toFloat32 ∧
      m2._color.get 2 = .num c.toFloat32 ∧ m2._color.get 3 = m._color.get 3 ∧
      m2.getProperty "color" = .arr [.prim (.num a.toFloat32), .prim (.num b.toFloat32),
        .prim (.num c.toFloat32)] ∧
      m2.getProperty "opacity" = m.getProperty "opacity") ∧
    (∃ m2, m.setProperty h "opacity" (.prim (.num x)) = .ok ⟨true, m2, []⟩ ∧
      m2 = { m with _color := m2._color } ∧
      m2._color.get 3 = .num x.toFloat32 ∧
      (∀ i, i < 3 → m2._color.get i = m._color.get i) ∧
      m2.getProperty "opacity" = .prim (.num x.toFloat32) ∧
      m2.getProperty "color" = m.getProperty "color") := by
  constructor
  · obtain ⟨d0, d1, d2, d3, hd, hw⟩ := F32Array.data_write_three m._color a b c
    refine ⟨{ m with _color := m._color.write [a, b, c] }, ?_, rfl, ?_, ?_, ?_, ?_, ?_, ?_⟩
    · rw [Material.setProperty_color]
      simp [Material.lengthMatches, Material.elementNumbers, Atom.toPrim, Prim.toNumber]
    · simp [F32Array.get, hw]
    · simp [F32Array.get, hw]
    · simp [F32Array.get, hw]
    · simp [F32Array.get, hw, hd]
    · rw [Material.getProperty_color]
      simp [F32Array.toAtoms, hw]
    · rw [Material.getProperty_opacity, Material.getProperty_opacity]
      simp [F32Array.get, hw, hd]
  · refine ⟨_, Material.setProperty_opacity h m x, rfl, F32Array.get_set_three _ _,
      fun i hi => F32Array.get_set_three_of_lt _ _ i hi, ?_, ?_⟩
    · rw [Material.getProperty_opacity]
      simp [F32Array.get_set_three]
    · rw [Material.getProperty_color, Material.getProperty_color]
      simp [F32Array.toAtoms_set_three]

/-! ### C9: the bulk `textures` form -/

/-- C9 at the failing input: the bulk form stores a bare string of any channel with the
fixed UV mode `"0"`; for `environment`, whose class default is `polar_reflected`, the
descriptor differs from the one `setTexture` creates on the same empty channel. -/
theorem C9_bulk_ignores_channel_default :
    (∀ (h : Host) (m : Material) (c s : String),
      ∃ m2, m.setProperty h "textures" (.map [(c, .prim (.str s))]) = .ok ⟨true, m2, []⟩ ∧
        m2 = { m with textures := m2.textures } ∧
        m2.textures = Table.set m.textures c
          (.obj [("texture", .prim (.str s)), ("uvs", .prim (.str "0")),
            ("wrap", .prim (.num (.fin 0 0))), ("minFilter", .prim (.num (.fin 0 0))),
            ("magFilter", .prim (.num (.fin 0 0)))])) ∧
    Material.defaultUvs "environment" = "polar_reflected" ∧
    (∃ r1 r2,
      exampleMaterial.setProperty exampleHost "textures"
        (.map [("environment", .prim (.str "sky.png"))]) = .ok r1 ∧
      exampleMaterial.setTexture exampleHost "environment" (.prim (.str "sky.png")) none
        = .ok r2 ∧
      (Material.getTextureSampler r1.material "environment").getField "uvs"
        = .prim (.str "0") ∧
      (Material.getTextureSampler r2.material "environment").getField "uvs"
        = .prim (.str "polar_reflected") ∧
      r1.material.textures ≠ r2.material.textures) := by
  refine ⟨?_, by decide, ⟨_, _, rfl, rfl, by decide, by decide, by decide⟩⟩
  intro h m c s
  exact ⟨_, Material.setProperty_textures h m _, rfl, rfl⟩

/-! ### C10: `setTextureProperty` on a missing descriptor -/

/-- C10, as stated, fails for `null`: on a fresh material `setTexture("color", null)` leaves
the table empty, `setTextureProperty("color", "texture", null)` stores a descriptor whose
texture is `null`. -/
theorem C10_null_texture_differs :
    ∃ r, exampleMaterial.setTexture exampleHost "color" (.prim .null) none = .ok r ∧
      r.material.textures = [] ∧
      (exampleMaterial.setTextureProperty "color" "texture" (.prim .null)).textures ≠
        r.material.textures := by
  refine ⟨_, rfl, ?_, ?_⟩ <;> decide

/-- C10, amended: on a channel `c` without an entry, whose name the table does not inherit
from `Object.prototype`, `setTextureProperty(c, "texture", v)`
stores the descriptor `{texture: v, uvs: default, wrap: 0, minFilter: 0, magFilter: 0}`
under `c` whatever `v` is and changes nothing else; for a non-empty channel name and a
non-empty `v` (a texture handle or a resource name) the material is then the one
`setTexture(c, v)` produces; for every property name other than `texture` the material is
unchanged. -/
theorem C10_setTextureProperty_missing (h : Host) (m : Material) (c p : String) (v : Atom)
    (_hin : c ∉ objectPrototypeNames) (hnone : Table.get m.textures c = none) :
    (Table.get (m.setTextureProperty c "texture" v).textures c =
        some (.obj [("texture", v), ("uvs", .prim (.str (Material.defaultUvs c))),
          ("wrap", .prim (.num (.fin 0 0))), ("minFilter", .prim (.num (.fin 0 0))),
          ("magFilter", .prim (.num (.fin 0 0)))]) ∧
      (∀ c2, c2 ≠ c → Table.get (m.setTextureProperty c "texture" v).textures c2 =
        Table.get m.textures c2) ∧
      m.setTextureProperty c "texture" v =
        { m with textures := (m.setTextureProperty c "texture" v).textures }) ∧
    (c ≠ "" → v.truthy = true →
      ∃ r, m.setTexture h c v none = .ok r ∧ m.setTextureProperty c "texture" v = r.material) ∧
    (p ≠ "texture" → m.setTextureProperty c p v = m) := by
  have hs : (m.getTextureSampler c).truthy = false := by
    rw [Material.getTextureSampler_of_none m c hnone]; rfl
  refine ⟨?_, ?_, ?_⟩
  · rw [Material.setTextureProperty_create m c v hs]
    exact ⟨Table.get_set_self _ _ _, fun c2 hc2 => Table.get_set_of_ne _ _ _ _ hc2, rfl⟩
  · intro hc hv
    refine ⟨_, Material.setTexture_create h m c v none hc hv hs, ?_⟩
    rw [Material.setTextureProperty_create m c v hs]
    rfl
  · intro hp
    exact Material.setTextureProperty_missing m c p v hs hp

/-- C10 on a fresh material: the `color` channel and the name `a.png`. -/
theorem C10_setTextureProperty_missing_witness :
    ("color" ∉ objectPrototypeNames ∧ Table.get exampleMaterial.textures "color" = none) ∧
    ((Table.get (exampleMaterial.setTextureProperty "color" "texture"
          (.prim (.str "a.png"))).textures "color" =
        some (.obj [("texture", .prim (.str "a.png")),
          ("uvs", .prim (.str (Material.defaultUvs "color"))),
          ("wrap", .prim (.num (.fin 0 0))), ("minFilter", .prim (.num (.fin 0 0))),
          ("magFilter", .prim (.num (.fin 0 0)))]) ∧
      (∀ c2, c2 ≠ "color" → Table.get (exampleMaterial.setTextureProperty "color" "texture"
          (.prim (.str "a.png"))).textures c2 = Table.get exampleMaterial.textures c2) ∧
      exampleMaterial.setTextureProperty "color" "texture" (.prim (.str "a.png")) =
        { exampleMaterial with textures := (exampleMaterial.setTextureProperty "color"
          "texture" (.prim (.str "a.png"))).textures }) ∧
    ("color" ≠ "" → (Atom.prim (.str "a.png")).truthy = true →
      ∃ r, exampleMaterial.setTexture exampleHost "color" (.prim (.str "a.png")) none = .ok r ∧
        exampleMaterial.setTextureProperty "color" "texture" (.prim (.str "a.png")) =
          r.material) ∧
    ("uvs" ≠ "texture" →
      exampleMaterial.setTextureProperty "color" "uvs" (.prim (.str "a.png")) =
        exampleMaterial)) :=
  ⟨⟨by decide, by decide⟩,
    C10_setTextureProperty_missing exampleHost exampleMaterial "color" "uvs"
      (.prim (.str "a.png")) (by decide) (by decide)⟩

end LS

namespace LS

/-! ### C14: the macro map does not depend on the cached one -/

/-- C14: for a fixed channel table, registry and extra macros, the macro map that
`fillShaderQuery` builds is the same whatever macro map was cached before, so a second
call, and any number of further calls, leave the material as the first call left it. -/
theorem C14_shader_key_determinism (h : Host) (m : Material) (q : ShaderQuery) (n : Nat) :
    (Material.fillShaderQuery h { m with _query := q })._query =
      (Material.fillShaderQuery h m)._query ∧
    Material.fillShaderQuery h (Material.fillShaderQuery h m) = Material.fillShaderQuery h m ∧
    (Material.fillShaderQuery h)^[n + 1] m = Material.fillShaderQuery h m := by
  refine ⟨rfl, rfl, ?_⟩
  induction n with
  | zero => rfl
  | succ k ih =>
    rw [Function.iterate_succ_apply', ih]
    rfl

/-! ### C17: the default material -/

/-- C17, as stated, fails: on a default material `fillUniforms` leaves five uniforms, the
fifth being `u_reflection`. -/
theorem C17_five_uniforms :
    (Material.fillUniforms exampleHost exampleMaterial exampleScene)._uniforms.map
        (fun u => u.map Prod.fst) =
      some ["u_material_color", "u_ambient_color", "u_texture_matrix", "u_specular",
        "u_reflection"] := by
  decide

/-- C17, amended: a material constructed without arguments has colour `[1,1,1]`, opacity 1
and no texture channel; `fillShaderQuery` leaves an empty macro map; `fillUniforms` leaves
an empty sampler list and exactly five uniforms: the base colour, the ambient colour (the
scene's, or the material's own diffuse colour), the UV matrix, the specular vector and
`u_reflection = 0`. -/
theorem C17_default_material (h : Host) (uid : String) (scene : Scene) :
    (Material.create h uid).getProperty "color" =
      .arr [.prim (.num (.fin 1 0)), .prim (.num (.fin 1 0)), .prim (.num (.fin 1 0))] ∧
    (Material.create h uid).getProperty "opacity" = .prim (.num (.fin 1 0)) ∧
    (Material.create h uid).textures = [] ∧
    (Material.fillShaderQuery h (Material.create h uid))._query.macros = [] ∧
    (Material.fillUniforms h (Material.create h uid) scene)._samplers = some [] ∧
    (Material.fillUniforms h (Material.create h uid) scene)._uniforms = some
      [("u_material_color", .arr [.prim (.num (.fin 1 0)), .prim (.num (.fin 1 0)),
          .prim (.num (.fin 1 0)), .prim (.num (.fin 1 0))]),
        ("u_ambient_color", match scene.info with
          | some info => info.ambient_color
          | none => .arr [.prim (.num (.fin 1 0)), .prim (.num (.fin 1 0)),
              .prim (.num (.fin 1 0))]),
        ("u_texture_matrix", .arr [.prim (.num (.fin 1 0)), .prim (.num (.fin 0 0)),
          .prim (.num (.fin 0 0)), .prim (.num (.fin 0 0)), .prim (.num (.fin 1 0)),
          .prim (.num (.fin 0 0)), .prim (.num (.fin 0 0)), .prim (.num (.fin 0 0)),
          .prim (.num (.fin 1 0))]),
        ("u_specular", h.specular),
        ("u_reflection", .prim (.num (.fin 0 0)))] := by
  refine ⟨?_, ?_, rfl, rfl, rfl, ?_⟩
  · rw [Material.getProperty_color]; rfl
  · rw [Material.getProperty_opacity]; rfl
  · rcases scene with ⟨_ | info⟩ <;> rfl

end LS

namespace LS

/-! ### C18: renaming a resource -/

theorem Table.get_map_value {β : Type} (t : List (String × β)) (g : β → β) (k : String) :
    Table.get (t.map (fun kv => (kv.1, g kv.2))) k = (Table.get t k).map g := by
  induction t with
  | nil => rfl
  | cons hd tl ih =>
    obtain ⟨k1, v1⟩ := hd
    by_cases hk : k1 = k
    · simp [Table.get, hk]
    · simp [Table.get, hk, ih]

theorem Material.onResourceRenamed_textures (h : Host) (m : Material) (a b : Atom) :
    (m.onResourceRenamed h a b).textures = m.textures.map (fun kv => (kv.1,
      if kv.2.truthy && Atom.looseEq h (kv.2.getField "texture") a
      then kv.2.setField "texture" b else kv.2)) := by
  simp only [Material.onResourceRenamed]
  apply List.map_congr_left
  intro kv _
  cases h1 : kv.2.truthy <;> cases h2 : Atom.looseEq h (kv.2.getField "texture") a <;> simp

theorem Entry.rename_rename (h : Host) (a b : Atom) (e : Entry) :
    (if (if e.truthy && Atom.looseEq h (e.getField "texture") a
          then e.setField "texture" b else e).truthy &&
        Atom.looseEq h ((if e.truthy && Atom.looseEq h (e.getField "texture") a
          then e.setField "texture" b else e).getField "texture") a
      then (if e.truthy && Atom.looseEq h (e.getField "texture") a
          then e.setField "texture" b else e).setField "texture" b
      else (if e.truthy && Atom.looseEq h (e.getField "texture") a
          then e.setField "texture" b else e)) =
    (if e.truthy && Atom.looseEq h (e.getField "texture") a
      then e.setField "texture" b else e) := by
  cases h1 : (e.truthy && Atom.looseEq h (e.getField "texture") a) with
  | false => simp [h1]
  | true =>
    simp only [if_true]
    split
    · cases e with
      | prim p => rfl
      | tex t => rfl
      | obj o => simp [Entry.setField, Table.set_set_same]
    · rfl

/-- C18 at the failing inputs: `onResourceRenamed(old, new)` keeps the channels and their
order and touches no other field of the material; an object-shaped descriptor whose
`texture` field equals `old` (the test is `==`, string equality on two names) gets the
reference `new` and keeps every other field; a second identical call changes nothing. But
every slot that is not an object is left as it is: a slot holding the bare name `old`,
which `getTexture` and `getTextureFromSampler` read as the texture reference of the
channel, still holds `old` after the call. -/
theorem C18_onResourceRenamed (h : Host) (m : Material) (old_name new_name : Atom) :
    (m.onResourceRenamed h old_name new_name).textures.map Prod.fst =
      m.textures.map Prod.fst ∧
    m.onResourceRenamed h old_name new_name =
      { m with textures := (m.onResourceRenamed h old_name new_name).textures } ∧
    (∀ c o, Table.get m.textures c = some (.obj o) →
      Atom.looseEq h ((Entry.obj o).getField "texture") old_name = true →
      ∃ o2, Table.get (m.onResourceRenamed h old_name new_name).textures c = some (.obj o2) ∧
        (Entry.obj o2).getField "texture" = new_name ∧
        ∀ k, k ≠ "texture" → Table.get o2 k = Table.get o k) ∧
    (∀ c e, Table.get m.textures c = some e →
      (Atom.looseEq h (e.getField "texture") old_name = false ∨ ∀ o, e ≠ .obj o) →
      Table.get (m.onResourceRenamed h old_name new_name).textures c = some e) ∧
    (∀ c, Table.get m.textures c = none →
      Table.get (m.onResourceRenamed h old_name new_name).textures c = none) ∧
    (m.onResourceRenamed h old_name new_name).onResourceRenamed h old_name new_name =
      m.onResourceRenamed h old_name new_name ∧
    (∀ s o : String, Atom.looseEq h (.prim (.str s)) (.prim (.str o)) = decide (s = o)) := by
  refine ⟨?_, rfl, ?_, ?_, ?_, ?_, ?_⟩
  · rw [Material.onResourceRenamed_textures]
    simp [List.map_map, Function.comp_def]
  · intro c o hget heq
    rw [Material.onResourceRenamed_textures, Table.get_map_value m.textures
      (fun e => if e.truthy && Atom.looseEq h (e.getField "texture") old_name
        then e.setField "texture" new_name else e), hget]
    refine ⟨Table.set o "texture" new_name, ?_, ?_, ?_⟩
    · simp [heq, Entry.truthy, Entry.setField]
    · exact Entry.getField_setField_self_obj o "texture" new_name
    · intro k hk
      exact Table.get_set_of_ne o "texture" k new_name hk
  · intro c e hget hcase
    rw [Material.onResourceRenamed_textures, Table.get_map_value m.textures
      (fun e => if e.truthy && Atom.looseEq h (e.getField "texture") old_name
        then e.setField "texture" new_name else e), hget]
    rcases hcase with heq | hno
    · simp [heq]
    · cases e with
      | obj o => exact absurd rfl (hno o)
      | prim p => simp [Entry.setField]
      | tex t => simp [Entry.setField]
  · intro c hget
    rw [Material.onResourceRenamed_textures, Table.get_map_value m.textures
      (fun e => if e.truthy && Atom.looseEq h (e.getField "texture") old_name
        then e.setField "texture" new_name else e), hget]
    rfl
  · have htex : ((m.onResourceRenamed h old_name new_name).onResourceRenamed h old_name
        new_name).textures = (m.onResourceRenamed h old_name new_name).textures := by
      rw [Material.onResourceRenamed_textures h (m.onResourceRenamed h old_name new_name),
        Material.onResourceRenamed_textures h m, List.map_map]
      apply List.map_congr_left
      intro kv _
      simp only [Function.comp_def]
      rw [Entry.rename_rename]
    calc (m.onResourceRenamed h old_name new_name).onResourceRenamed h old_name new_name
        = { m.onResourceRenamed h old_name new_name with textures :=
            ((m.onResourceRenamed h old_name new_name).onResourceRenamed h old_name
              new_name).textures } := rfl
      _ = m.onResourceRenamed h old_name new_name := by rw [htex]
  · intro s o
    simp only [Atom.looseEq, Atom.toPrim, Prim.looseEq]
    by_cases hso : s = o <;> simp [hso]

/-- C18 at a failing input: after `setTextureSampler("color", "a.png")` the slot is the
bare name `a.png`, which is the texture reference of the channel (`getTexture` resolves
it); `onResourceRenamed("a.png", "b.png")` leaves the slot as it is. -/
theorem C18_onResourceRenamed_witness :
    exampleMaterial.setTextureSampler "color" (.prim (.str "a.png")) = .ok exampleLegacy ∧
    Material.textureRef (exampleLegacy.getTextureSampler "color") = .prim (.str "a.png") ∧
    exampleLegacy.getTexture exampleRegistry "color" = .tex exampleTexture ∧
    Table.get (exampleLegacy.onResourceRenamed exampleHost (.prim (.str "a.png"))
      (.prim (.str "b.png"))).textures "color" = some (.prim (.str "a.png")) :=
  ⟨by decide, by decide, by decide,
    (C18_onResourceRenamed exampleHost exampleLegacy (.prim (.str "a.png"))
      (.prim (.str "b.png"))).2.2.2.1 "color" (.prim (.str "a.png")) (by decide)
      (Or.inr nofun)⟩

end LS

namespace LS

/-! ### C19: the three access paths -/

theorem substr_tex_append (c : String) : substr ("tex_" ++ c) 0 4 = "tex_" := by
  simp [substr, String.data_append]

theorem Material.getPropertyInfoFromPath_tex (m : Material) (v : String) (rest : List String)
    (hv : substr v 0 4 = "tex_") : m.getPropertyInfoFromPath (v :: rest) = .null := by
  have hne : ∀ n, n ∈ ["opacity", "specular_factor", "specular_gloss", "reflection",
      "alpha_test", "alpha_test_shadows", "blend_mode", "uvs_matrix", "color", "textures",
      "transparency"] → v ≠ n := by
    intro n hn hvn
    exact Material.listed_not_tex n hn (hvn ▸ hv)
  have h1 := hne "opacity" (by decide)
  have h2 := hne "specular_factor" (by decide)
  have h3 := hne "specular_gloss" (by decide)
  have h4 := hne "reflection" (by decide)
  have h5 := hne "alpha_test" (by decide)
  have h6 := hne "alpha_test_shadows" (by decide)
  have h7 := hne "blend_mode" (by decide)
  have h8 := hne "uvs_matrix" (by decide)
  have h9 := hne "color" (by decide)
  have h10 := hne "textures" (by decide)
  have h11 := hne "transparency" (by decide)
  simp [Material.getPropertyInfoFromPath, h1, h2, h3, h4, h5, h6, h7, h8, h9, h10, h11]

theorem Material.getProperty_of_not_tex (m : Material) (n : String)
    (hn : substr n 0 4 ≠ "tex_") : m.getProperty n = m.field n := by
  simp [Material.getProperty, hn]

theorem Material.getPropertiesInfo_fold_keep (channels : List String) (k : String) :
    ∀ o : List (String × String), Table.get o k = some "Texture" →
      Table.get (channels.foldl (fun o c => Table.set o ("tex_" ++ c) "Texture") o) k =
        some "Texture" := by
  induction channels with
  | nil => intro o ho; exact ho
  | cons d rest ih =>
    intro o ho
    simp only [List.foldl_cons]
    apply ih
    by_cases hk : k = "tex_" ++ d
    · rw [hk]; exact Table.get_set_self _ _ _
    · rw [Table.get_set_of_ne _ _ _ _ hk]; exact ho

theorem Material.getPropertiesInfo_fold_tex (channels : List String) (c : String)
    (hc : c ∈ channels) :
    ∀ o : List (String × String),
      Table.get (channels.foldl (fun o c => Table.set o ("tex_" ++ c) "Texture") o)
        ("tex_" ++ c) = some "Texture" := by
  induction channels with
  | nil => simp at hc
  | cons d rest ih =>
    intro o
    simp only [List.foldl_cons]
    rcases List.mem_cons.mp hc with hcd | hcr
    · subst hcd
      exact Material.getPropertiesInfo_fold_keep rest _ _ (Table.get_set_self _ _ _)
    · exact ih hcr _

theorem Material.getPropertiesInfo_fold_other (channels : List String) (k : String)
    (hk : substr k 0 4 ≠ "tex_") :
    ∀ o : List (String × String),
      Table.get (channels.foldl (fun o c => Table.set o ("tex_" ++ c) "Texture") o) k =
        Table.get o k := by
  induction channels with
  | nil => intro o; rfl
  | cons d rest ih =>
    intro o
    simp only [List.foldl_cons]
    rw [ih]
    apply Table.get_set_of_ne
    intro hkd
    exact hk (hkd ▸ substr_tex_append d)

/-- C19 at the failing inputs: for a class with texture channels, `getPropertiesInfo` lists
`tex_<channel>` with type `Texture` and `getProperty` reads it, but
`getPropertyInfoFromPath(["tex_<channel>"])` returns `null`. For the six other listed names
the three paths agree on name, type and value. -/
theorem C19_texture_path_not_found (m : Material) (channels : List String) :
    (∀ c, c ∈ channels →
      Table.get (Material.getPropertiesInfo (some channels)) ("tex_" ++ c) = some "Texture" ∧
      m.getProperty ("tex_" ++ c) = (m.getTextureSampler (substrFrom ("tex_" ++ c) 4)).toValue ∧
      m.getPropertyInfoFromPath ["tex_" ++ c] = .null) ∧
    (∀ n, n ∈ ["color", "opacity", "blend_mode", "alpha_test", "alpha_test_shadows",
        "uvs_matrix"] →
      ∃ ty, Table.get (Material.getPropertiesInfo (some channels)) n = some ty ∧
        m.getPropertyInfoFromPath [n] = .info n (m.getProperty n) ty ∧
        m.getProperty n = m.field n) := by
  constructor
  · intro c hc
    refine ⟨Material.getPropertiesInfo_fold_tex channels c hc _, ?_,
      Material.getPropertyInfoFromPath_tex m _ [] (substr_tex_append c)⟩
    simp [Material.getProperty, substr_tex_append]
  · intro n hn
    simp only [List.mem_cons, List.mem_singleton, List.mem_nil_iff, or_false] at hn
    have hget : ∀ k, substr k 0 4 ≠ "tex_" →
        Table.get (Material.getPropertiesInfo (some channels)) k =
          Table.get [("color", "vec3"), ("opacity", "number"), ("blend_mode", "number"),
            ("alpha_test", "boolean"), ("alpha_test_shadows", "boolean"),
            ("uvs_matrix", "mat3")] k :=
      fun k hk => Material.getPropertiesInfo_fold_other channels k hk _
    rcases hn with hn | hn | hn | hn | hn | hn <;> subst hn
    · refine ⟨"vec3", by rw [hget _ (by decide)]; decide, ?_,
        Material.getProperty_of_not_tex m _ (by decide)⟩
      rw [Material.getProperty_of_not_tex m _ (by decide)]
      simp [Material.getPropertyInfoFromPath]
    · refine ⟨"number", by rw [hget _ (by decide)]; decide, ?_,
        Material.getProperty_of_not_tex m _ (by decide)⟩
      rw [Material.getProperty_of_not_tex m _ (by decide)]
      simp [Material.getPropertyInfoFromPath]
    · refine ⟨"number", by rw [hget _ (by decide)]; decide, ?_,
        Material.getProperty_of_not_tex m _ (by decide)⟩
      rw [Material.getProperty_of_not_tex m _ (by decide)]
      simp [Material.getPropertyInfoFromPath]
    · refine ⟨"boolean", by rw [hget _ (by decide)]; decide, ?_,
        Material.getProperty_of_not_tex m _ (by decide)⟩
      rw [Material.getProperty_of_not_tex m _ (by decide)]
      simp [Material.getPropertyInfoFromPath]
    · refine ⟨"boolean", by rw [hget _ (by decide)]; decide, ?_,
        Material.getProperty_of_not_tex m _ (by decide)⟩
      rw [Material.getProperty_of_not_tex m _ (by decide)]
      simp [Material.getPropertyInfoFromPath]
    · refine ⟨"mat3", by rw [hget _ (by decide)]; decide, ?_,
        Material.getProperty_of_not_tex m _ (by decide)⟩
      rw [Material.getProperty_of_not_tex m _ (by decide)]
      simp [Material.getPropertyInfoFromPath]

end LS

namespace LS

/-- C19 for a class whose only texture channel is `color`. -/
theorem C19_texture_path_not_found_witness :
    "color" ∈ ["color"] ∧
    (Table.get (Material.getPropertiesInfo (some ["color"])) ("tex_" ++ "color")
        = some "Texture" ∧
      exampleAssigned.getProperty ("tex_" ++ "color") =
        (exampleAssigned.getTextureSampler (substrFrom ("tex_" ++ "color") 4)).toValue ∧
      exampleAssigned.getPropertyInfoFromPath ["tex_" ++ "color"] = .null) :=
  ⟨by decide, (C19_texture_path_not_found exampleAssigned ["color"]).1 "color" (by decide)⟩

end LS

namespace LS

/-! ### C20: cloning -/

theorem Material.setTexture_diffuse (h : Host) (m : Material) (c : String) (t : Atom)
    (opts : Option Obj) (r : Outcome Entry) (hr : m.setTexture h c t opts = .ok r) :
    r.material._diffuse = m._diffuse := by
  by_cases hc : c = ""
  · subst hc
    rw [Material.setTexture_no_channel] at hr
    cases hr
  · cases htr : t.truthy with
    | false =>
      rw [Material.setTexture_falsy h m c t opts hc htr] at hr
      cases hr; rfl
    | true =>
      cases hs : (m.getTextureSampler c).truthy with
      | false =>
        rw [Material.setTexture_create h m c t opts hc htr hs] at hr
        cases hr; rfl
      | true =>
        cases heq : Atom.looseEq h ((m.getTextureSampler c).getField "texture") t with
        | true =>
          rw [Material.setTexture_same h m c t opts hc htr hs heq] at hr
          cases hr; rfl
        | false =>
          rw [Material.setTexture_replace h m c t opts hc htr hs heq] at hr
          cases hr; rfl

theorem Material.assignNumber_diffuse (m : Material) (name : String) (x : Num) :
    (m.assignNumber name x)._diffuse = m._diffuse := by
  unfold Material.assignNumber
  split_ifs <;> rfl

theorem Material.assignPlain_diffuse (m : Material) (name : String) (value : Value) :
    (m.assignPlain name value)._diffuse = m._diffuse := by
  unfold Material.assignPlain
  split_ifs <;> rfl

/-- No case of `setProperty` writes the diffuse colour. -/
theorem Material.setProperty_diffuse (h : Host) (m : Material) (name : String)
    (value : Value) (r : Outcome Bool) (hr : m.setProperty h name value = .ok r) :
    r.material._diffuse = m._diffuse := by
  by_cases hp : substr name 0 4 = "tex_"
  · rw [Material.setProperty_tex h m name value hp] at hr
    split at hr
    · next texture _ =>
      cases hst : m.setTexture h (substrFrom name 4) texture none with
      | error e => simp only [hst] at hr; cases hr
      | ok r1 =>
        simp only [hst] at hr
        cases hr
        exact Material.setTexture_diffuse h m _ texture none r1 hst
    · cases hr; rfl
  · unfold Material.setProperty at hr
    simp only [hp, if_false] at hr
    split_ifs at hr with h1 h2 h3 h4 h5 h6
    · split at hr
      · cases hr
      · cases hr; exact Material.assignNumber_diffuse _ _ _
      · cases hr; rfl
    · cases hr; exact Material.assignPlain_diffuse _ _ _
    · split at hr
      · cases hr
      · cases hr; rfl
      · cases hr; rfl
    · split at hr
      · cases hr
      · cases hr; rfl
      · cases hr; rfl
    · cases hr; rfl
    · cases hr; rfl
    · cases hr; rfl

theorem Material.configure_diffuse (h : Host) (o : List (String × Value)) :
    ∀ (m : Material) (r : Outcome Unit), m.configure h o = .ok r →
      r.material._diffuse = m._diffuse := by
  induction o with
  | nil =>
    intro m r hr
    simp only [Material.configure] at hr
    cases hr; rfl
  | cons hd tl ih =>
    intro m r hr
    obtain ⟨i, v⟩ := hd
    simp only [Material.configure] at hr
    cases hsp : m.setProperty h i v with
    | error e => simp only [hsp] at hr; cases hr
    | ok r1 =>
      simp only [hsp] at hr
      cases hcf : Material.configure h r1.material tl with
      | error e => simp only [hcf] at hr; cases hr
      | ok r2 =>
        simp only [hcf] at hr
        cases hr
        rw [ih r1.material r2 hcf]
        exact Material.setProperty_diffuse h m i v r1 hsp

/-- C20 at the failing input: whatever `LS.cloneObject` and the JSON copy hand over, the
clone is configured through `setProperty`, which has no case for `diffuse`, so every clone
has the default diffuse colour `[1,1,1]`; a material whose diffuse colour was changed is not
cloned faithfully. -/
theorem C20_clone_drops_diffuse (h : Host) (k : Cloner) (m : Material) (uid : String)
    (r : Outcome Unit) (hr : m.clone h k uid = .ok r) :
    r.material._diffuse = ⟨[Num.one, Num.one, Num.one], rfl⟩ := by
  unfold Material.clone at hr
  exact Material.configure_diffuse h _ _ r hr

/-- C20 on a material with diffuse colour `[0.5, 0.5, 0.5]`: the clone has `[1, 1, 1]`. -/
theorem C20_clone_drops_diffuse_witness :
    Material.clone exampleHost exampleCloner exampleDiffuse "MAT-1" = .ok exampleCloneOutcome ∧
    exampleCloneOutcome.material._diffuse = ⟨[Num.one, Num.one, Num.one], rfl⟩ ∧
    exampleCloneOutcome.material._diffuse ≠ exampleDiffuse._diffuse :=
  ⟨by decide, C20_clone_drops_diffuse exampleHost exampleCloner exampleDiffuse "MAT-1"
    exampleCloneOutcome (by decide), by decide⟩

end LS

namespace LS

/-! ### C22: comment removal -/

theorem Material.splitOnChar_ne_nil (sep : Char) (cs : List Char) :
    Material.splitOnChar sep cs ≠ [] := by
  induction cs with
  | nil => simp [Material.splitOnChar]
  | cons c rest ih =>
    simp only [Material.splitOnChar]
    split_ifs
    · simp
    · split <;> simp

/-- No piece of `s.split(sep)` contains the separator. -/
theorem Material.not_mem_of_mem_splitOnChar (sep : Char) (cs : List Char) :
    ∀ l, l ∈ Material.splitOnChar sep cs → sep ∉ l := by
  induction cs with
  | nil =>
    intro l hl
    simp [Material.splitOnChar] at hl
    simp [hl]
  | cons c rest ih =>
    intro l hl
    simp only [Material.splitOnChar] at hl
    split_ifs at hl with hc
    · rcases List.mem_cons.mp hl with h1 | h1
      · simp [h1]
      · exact ih l h1
    · split at hl
      · next hnil => exact absurd hnil (Material.splitOnChar_ne_nil sep rest)
      · next l0 ls hsplit =>
        rcases List.mem_cons.mp hl with h1 | h1
        · rw [h1]
          intro hmem
          rcases List.mem_cons.mp hmem with h2 | h2
          · exact hc h2.symm
          · exact ih l0 (by rw [hsplit]; exact List.mem_cons_self _ _) h2
        · exact ih l (by rw [hsplit]; exact List.mem_cons_of_mem _ h1)

/-- What precedes the comment is a prefix of the line. -/
theorem Material.beforeComment_prefix (l : List Char) : Material.beforeComment l <+: l := by
  induction l using Material.beforeComment.induct with
  | case1 => simp [Material.beforeComment]
  | case2 c => simp [Material.beforeComment]
  | case3 c d rest hcd =>
    simp only [Material.beforeComment, hcd, and_self, if_true]
    exact List.nil_prefix
  | case4 c d rest hcd ih =>
    simp only [Material.beforeComment, hcd, if_false]
    exact (List.prefix_cons_inj c).mpr ih

/-- What precedes the comment holds no `//`. -/
theorem Material.beforeComment_no_marker (l : List Char) :
    ¬ (['/', '/'] <:+: Material.beforeComment l) := by
  induction l using Material.beforeComment.induct with
  | case1 => simp [Material.beforeComment]
  | case2 c =>
    simp only [Material.beforeComment]
    intro hinf
    have := hinf.length_le
    simp at this
  | case3 c d rest hcd =>
    simp only [Material.beforeComment, hcd, and_self, if_true]
    simp
  | case4 c d rest hcd ih =>
    simp only [Material.beforeComment, hcd, if_false]
    intro hinf
    rcases List.infix_cons_iff.mp hinf with hpre | hinf2
    · obtain ⟨t, ht⟩ := hpre
      cases hb : Material.beforeComment (d :: rest) with
      | nil =>
        rw [hb] at ht
        simp at ht
      | cons e tl =>
        rw [hb] at ht
        simp only [List.cons_append, List.nil_append, List.cons.injEq] at ht
        obtain ⟨hc1, he, _⟩ := ht
        have hpre2 := Material.beforeComment_prefix (d :: rest)
        rw [hb] at hpre2
        obtain ⟨t2, ht2⟩ := hpre2
        simp only [List.cons_append, List.cons.injEq] at ht2
        exact hcd ⟨hc1.symm, by rw [← ht2.1, ← he]⟩
    · exact ih hinf2

end LS

namespace LS

/-- C22, as stated, fails: a line ending in `/` followed by a line starting with `/` joins
into a result that holds `//`. -/
theorem C22_joined_lines_form_marker :
    Material.processShaderCode "a/\n/b" = some "a//b" ∧
    ['/', '/'] <:+: ("a//b" : String).data := by
  refine ⟨by decide, ⟨['a'], ['b'], by decide⟩⟩

/-- C22, amended: `processShaderCode` cuts every line at its first `//` and joins the
pieces without a separator; it returns `null` exactly when every piece is empty, and
otherwise the joined string, which holds no line feed; no single piece holds `//` (the
joined string may, where a piece ending in `/` meets one starting with `/`). -/
theorem C22_processShaderCode (code : String) :
    (Material.processShaderCode code = none ↔
      ∀ l, l ∈ Material.splitOnChar '\n' code.data → Material.beforeComment l = []) ∧
    (∀ r, Material.processShaderCode code = some r →
      r.data = ((Material.splitOnChar '\n' code.data).map Material.beforeComment).flatten ∧
      '\n' ∉ r.data) ∧
    (∀ l, l ∈ Material.splitOnChar '\n' code.data →
      ¬ (['/', '/'] <:+: Material.beforeComment l) ∧ Material.beforeComment l <+: l) := by
  have hmk : ∀ cs : List Char, (String.mk cs = "") ↔ cs = [] := by
    intro cs
    constructor
    · intro hcs
      have := congrArg String.data hcs
      simpa using this
    · intro hcs
      rw [hcs]
  refine ⟨?_, ?_, ?_⟩
  · unfold Material.processShaderCode
    simp only [hmk]
    split_ifs with hnil
    · simp only [true_iff]
      intro l hl
      rw [List.flatten_eq_nil_iff] at hnil
      exact hnil _ (List.mem_map_of_mem _ hl)
    · simp only [false_iff]
      intro hall
      apply hnil
      rw [List.flatten_eq_nil_iff]
      intro piece hpiece
      obtain ⟨l, hl, hlp⟩ := List.mem_map.mp hpiece
      rw [← hlp]; exact hall l hl
  · intro r hr
    unfold Material.processShaderCode at hr
    simp only [hmk] at hr
    split_ifs at hr with hnil
    cases hr
    refine ⟨rfl, ?_⟩
    intro hmem
    obtain ⟨piece, hpiece, hin⟩ := List.mem_flatten.mp hmem
    obtain ⟨l, hl, hlp⟩ := List.mem_map.mp hpiece
    rw [← hlp] at hin
    exact Material.not_mem_of_mem_splitOnChar '\n' code.data l hl
      ((Material.beforeComment_prefix l).subset hin)
  · intro l _
    exact ⟨Material.beforeComment_no_marker l, Material.beforeComment_prefix l⟩

/-- C22 on a two-line input with a comment. -/
theorem C22_processShaderCode_witness :
    Material.processShaderCode "abc // x\ndef" = some "abc def" ∧
    (("abc def" : String).data = ((Material.splitOnChar '\n'
        ("abc // x\ndef" : String).data).map Material.beforeComment).flatten ∧
      '\n' ∉ ("abc def" : String).data) :=
  ⟨by decide, (C22_processShaderCode "abc // x\ndef").2.1 "abc def" (by decide)⟩

end LS

namespace LS

/-! ### Tables filled by a loop -/

theorem Table.get_eq_none_iff {β : Type} (t : List (String × β)) (k : String) :
    Table.get t k = none ↔ k ∉ t.map Prod.fst := by
  induction t with
  | nil => simp [Table.get]
  | cons hd tl ih =>
    obtain ⟨k1, v1⟩ := hd
    by_cases hk : k1 = k
    · simp [Table.get, hk]
    · simp [Table.get, hk, ih, Ne.symm hk]

theorem Table.isSome_get_iff {β : Type} (t : List (String × β)) (k : String) :
    (Table.get t k).isSome = true ↔ k ∈ t.map Prod.fst := by
  rw [← not_iff_not, ← Table.get_eq_none_iff]
  cases Table.get t k <;> simp

theorem Table.setAll_cons {β : Type} (t : List (String × β)) (p : String × β)
    (ps : List (String × β)) :
    Table.setAll t (p :: ps) = Table.setAll (Table.set t p.1 p.2) ps := rfl

theorem Table.setAll_append {β : Type} (t ps qs : List (String × β)) :
    Table.setAll t (ps ++ qs) = Table.setAll (Table.setAll t ps) qs := by
  simp [Table.setAll, List.foldl_append]

theorem Table.get_setAll_of_not_mem {β : Type} (ps : List (String × β)) (k : String)
    (hk : k ∉ ps.map Prod.fst) :
    ∀ t : List (String × β), Table.get (Table.setAll t ps) k = Table.get t k := by
  induction ps with
  | nil => intro t; rfl
  | cons p rest ih =>
    intro t
    simp only [List.map_cons, List.mem_cons, not_or] at hk
    rw [Table.setAll_cons, ih hk.2]
    exact Table.get_set_of_ne _ _ _ _ hk.1

theorem Table.isSome_get_setAll {β : Type} (ps : List (String × β)) (k : String) :
    ∀ t : List (String × β), (Table.get (Table.setAll t ps) k).isSome = true ↔
      ((Table.get t k).isSome = true ∨ k ∈ ps.map Prod.fst) := by
  induction ps with
  | nil => intro t; simp [Table.setAll]
  | cons p rest ih =>
    intro t
    rw [Table.setAll_cons, ih]
    by_cases hk : k = p.1
    · subst hk
      simp [Table.get_set_self]
    · rw [Table.get_set_of_ne _ _ _ _ hk]
      simp [hk]

theorem Table.get_setAll_mem {β : Type} (ps : List (String × β)) (k : String) (v : β) :
    ∀ t : List (String × β), Table.get (Table.setAll t ps) k = some v →
      Table.get t k = some v ∨ (k, v) ∈ ps := by
  induction ps with
  | nil => intro t ht; exact Or.inl ht
  | cons p rest ih =>
    intro t ht
    rw [Table.setAll_cons] at ht
    rcases ih _ ht with h1 | h1
    · by_cases hk : k = p.1
      · subst hk
        rw [Table.get_set_self] at h1
        right
        have hv : p.2 = v := by simpa using h1
        rw [← hv]
        exact List.mem_cons_self _ _
      · rw [Table.get_set_of_ne _ _ _ _ hk] at h1
        exact Or.inl h1
    · exact Or.inr (List.mem_cons_of_mem _ h1)

theorem Table.get_setAll_of_nodup {β : Type} (ps : List (String × β)) (k : String) (v : β)
    (hnd : (ps.map Prod.fst).Nodup) (hmem : (k, v) ∈ ps) :
    ∀ t : List (String × β), Table.get (Table.setAll t ps) k = some v := by
  induction ps with
  | nil => simp at hmem
  | cons p rest ih =>
    intro t
    rw [Table.setAll_cons]
    simp only [List.map_cons, List.nodup_cons] at hnd
    rcases List.mem_cons.mp hmem with h1 | h1
    · subst h1
      rw [Table.get_setAll_of_not_mem rest _ hnd.1]
      exact Table.get_set_self _ _ _
    · exact ih hnd.2 h1 _

/-- In a table without repeated keys the value under the key of a member is the member's. -/
theorem Table.get_of_mem_nodup {β : Type} (t : List (String × β)) (k : String) (v : β)
    (hnd : (t.map Prod.fst).Nodup) (hmem : (k, v) ∈ t) : Table.get t k = some v := by
  induction t with
  | nil => simp at hmem
  | cons hd tl ih =>
    obtain ⟨k1, v1⟩ := hd
    simp only [List.map_cons, List.nodup_cons] at hnd
    rcases List.mem_cons.mp hmem with h1 | h1
    · cases h1
      simp [Table.get]
    · have hne : k1 ≠ k := by
        intro hk
        apply hnd.1
        rw [hk]
        exact List.mem_map_of_mem Prod.fst h1
      simp [Table.get, hne, ih hnd.2 h1]

/-! ### Names of macros and uniforms -/

theorem String.append_right_cancel_of_length (a b s1 s2 : String)
    (hlen : s1.data.length = s2.data.length) (heq : a ++ s1 = b ++ s2) : a = b ∧ s1 = s2 := by
  have hdata := congrArg String.data heq
  simp only [String.data_append] at hdata
  obtain ⟨h1, h2⟩ := List.append_inj' hdata hlen
  exact ⟨String.ext h1, String.ext h2⟩

theorem Material.uniformName_inj (h : Host) (c c2 : String) (t t2 : Texture)
    (heq : Material.uniformName h c t = Material.uniformName h c2 t2) : c = c2 := by
  unfold Material.uniformName at heq
  refine (String.append_right_cancel_of_length c c2 _ _ ?_ heq).1
  split_ifs <;> rfl

theorem Material.macroName_inj (h : Host) (c c2 : String) (t t2 : Texture)
    (heq : Material.macroName h c t = Material.macroName h c2 t2) :
    h.toUpperCase c = h.toUpperCase c2 := by
  unfold Material.macroName at heq
  have h1 := (String.append_right_cancel_of_length ("USE_" ++ h.toUpperCase c)
    ("USE_" ++ h.toUpperCase c2) _ _ (by split_ifs <;> rfl) heq).1
  have hdata := congrArg String.data h1
  simp only [String.data_append] at hdata
  exact String.ext (List.append_cancel_left hdata)

end LS

namespace LS

/-! ### Keys of a table after writes -/

theorem Table.keys_replace {β : Type} (t : List (String × β)) (k : String) (v : β) :
    (Table.replace t k v).map Prod.fst = t.map Prod.fst := by
  induction t with
  | nil => rfl
  | cons hd tl ih =>
    obtain ⟨k1, v1⟩ := hd
    by_cases hk : k1 = k
    · simp [Table.replace, hk]
    · simp [Table.replace, hk, ih]

theorem Table.insertIndex_perm {β : Type} (t : List (String × β)) (n : Nat) (k : String)
    (v : β) : (Table.insertIndex t n k v).Perm ((k, v) :: t) := by
  induction t with
  | nil => exact List.Perm.refl _
  | cons hd tl ih =>
    obtain ⟨k1, v1⟩ := hd
    unfold Table.insertIndex
    cases arrayIndex k1 with
    | none => exact List.Perm.refl _
    | some n1 =>
      simp only []
      split_ifs
      · exact List.Perm.refl _
      · exact (List.Perm.cons _ ih).trans (List.Perm.swap _ _ _)

theorem Table.keys_set_perm {β : Type} (t : List (String × β)) (k : String) (v : β)
    (hk : k ∉ t.map Prod.fst) :
    ((Table.set t k v).map Prod.fst).Perm (k :: t.map Prod.fst) := by
  have hnone := (Table.get_eq_none_iff t k).mpr hk
  unfold Table.set
  rw [hnone]
  simp only []
  cases arrayIndex k with
  | none =>
    simp only [List.map_append, List.map_cons, List.map_nil]
    exact List.perm_append_comm
  | some n =>
    exact (Table.insertIndex_perm t n k v).map Prod.fst

theorem Table.keys_set_of_mem {β : Type} (t : List (String × β)) (k : String) (v : β)
    (hk : k ∈ t.map Prod.fst) : (Table.set t k v).map Prod.fst = t.map Prod.fst := by
  have hsome := (Table.isSome_get_iff t k).mpr hk
  unfold Table.set
  cases hget : Table.get t k with
  | none => rw [hget] at hsome; cases hsome
  | some w => exact Table.keys_replace t k v

theorem Table.nodup_keys_set {β : Type} (t : List (String × β)) (k : String) (v : β)
    (hnd : (t.map Prod.fst).Nodup) : ((Table.set t k v).map Prod.fst).Nodup := by
  by_cases hk : k ∈ t.map Prod.fst
  · rw [Table.keys_set_of_mem t k v hk]
    exact hnd
  · exact (Table.keys_set_perm t k v hk).nodup_iff.mpr (List.nodup_cons.mpr ⟨hk, hnd⟩)

theorem Table.nodup_keys_setAll {β : Type} (ps : List (String × β)) :
    ∀ t : List (String × β), (t.map Prod.fst).Nodup →
      ((Table.setAll t ps).map Prod.fst).Nodup := by
  induction ps with
  | nil => intro t ht; exact ht
  | cons p rest ih =>
    intro t ht
    rw [Table.setAll_cons]
    exact ih _ (Table.nodup_keys_set t p.1 p.2 ht)

theorem Table.mem_keys_setAll {β : Type} (ps t : List (String × β)) (k : String) :
    k ∈ (Table.setAll t ps).map Prod.fst ↔ (k ∈ t.map Prod.fst ∨ k ∈ ps.map Prod.fst) := by
  rw [← Table.isSome_get_iff, Table.isSome_get_setAll, Table.isSome_get_iff]

theorem Table.get_setAll_of_unique {β : Type} (ps : List (String × β)) (k : String) (v : β)
    (hmem : (k, v) ∈ ps) (huniq : ∀ w, (k, w) ∈ ps → w = v) :
    ∀ t : List (String × β), Table.get (Table.setAll t ps) k = some v := by
  induction ps with
  | nil => simp at hmem
  | cons p rest ih =>
    intro t
    rw [Table.setAll_cons]
    by_cases hk : k ∈ rest.map Prod.fst
    · obtain ⟨q, hq, hqk⟩ := List.mem_map.mp hk
      obtain ⟨k2, w⟩ := q
      simp only at hqk
      subst hqk
      have hw : w = v := huniq w (List.mem_cons_of_mem _ hq)
      subst hw
      exact ih hq (fun w2 hw2 => huniq w2 (List.mem_cons_of_mem _ hw2)) _
    · rw [Table.get_setAll_of_not_mem rest k hk]
      rcases List.mem_cons.mp hmem with h1 | h1
      · subst h1
        exact Table.get_set_self _ _ _
      · exact absurd (List.mem_map_of_mem Prod.fst h1) hk

/-! ### The two texture loops as one pass over the active channels -/

theorem Material.macroFor_eq (h : Host) (m : Material) (i : String) :
    Material.macroFor h m i =
      (Material.activeTexture h m i).map (fun t =>
        (Material.macroName h i t,
          Atom.prim (.str ("uvs_" ++ Material.effectiveUvs h i (m.getTextureSampler i))))) := by
  unfold Material.macroFor Material.activeTexture
  simp only []
  split_ifs
  · rfl
  · cases Material.getTextureFromSampler h (m.getTextureSampler i) <;> rfl

theorem Material.textureMacros_eq (h : Host) (m : Material) :
    Material.textureMacros h m =
      (Material.activeChannels h m).map (fun p =>
        (Material.macroName h p.1 p.2,
          Atom.prim (.str ("uvs_" ++ Material.effectiveUvs h p.1 (m.getTextureSampler p.1))))) := by
  unfold Material.textureMacros Material.activeChannels
  rw [List.map_filterMap]
  congr 1
  funext kv
  rw [Material.macroFor_eq]
  cases Material.activeTexture h m kv.1 <;> rfl

theorem Material.foldl_macroFor (h : Host) (m : Material) (l : List (String × Entry)) :
    ∀ init : Obj,
      l.foldl (fun q kv =>
        match Material.macroFor h m kv.1 with
        | some p => Table.set q p.1 p.2
        | none => q) init =
      Table.setAll init (l.filterMap (fun kv => Material.macroFor h m kv.1)) := by
  induction l with
  | nil => intro init; rfl
  | cons hd tl ih =>
    intro init
    rw [List.foldl_cons, ih]
    cases hm : Material.macroFor h m hd.1 with
    | none => simp [List.filterMap_cons, hm]
    | some p => simp [List.filterMap_cons, hm, Table.setAll_cons]

theorem Material.fillShaderQuery_macros (h : Host) (m : Material) :
    (Material.fillShaderQuery h m)._query.macros =
      match m.extra_macros with
      | some extra => Table.setAll (Table.setAll [] (Material.textureMacros h m)) extra
      | none => Table.setAll [] (Material.textureMacros h m) := by
  unfold Material.fillShaderQuery Material.textureMacros
  simp only [Material.foldl_macroFor]
  cases m.extra_macros <;> rfl

theorem Material.uniformStep_eq (h : Host) (m : Material) (st : UniformState) (i : String) :
    Material.uniformStep h m st i =
      match Material.activeTexture h m i with
      | some t =>
        ⟨Table.set st.uniforms (Material.uniformName h i t)
            (.prim (.num (Num.ofNat st.last_texture_slot))),
          arrayAssign st.samplers st.last_texture_slot (m.getTextureSampler i),
          st.last_texture_slot + 1⟩
      | none => st := by
  unfold Material.uniformStep Material.activeTexture
  simp only []
  split_ifs
  · rfl
  · cases Material.getTextureFromSampler h (m.getTextureSampler i) <;> rfl

theorem arrayAssign_length (xs : List Entry) (x : Entry) :
    arrayAssign xs xs.length x = xs ++ [x] := by
  simp [arrayAssign]

theorem Material.foldl_uniformStep (h : Host) (m : Material) (l : List (String × Entry)) :
    ∀ st : UniformState, st.last_texture_slot = st.samplers.length →
      l.foldl (fun st kv => Material.uniformStep h m st kv.1) st =
        ⟨Table.setAll st.uniforms (Material.slotPairs h st.last_texture_slot
            (l.filterMap (fun kv => (Material.activeTexture h m kv.1).map (fun t => (kv.1, t))))),
          st.samplers ++ (l.filterMap (fun kv =>
            (Material.activeTexture h m kv.1).map (fun t => (kv.1, t)))).map
              (fun p => m.getTextureSampler p.1),
          st.last_texture_slot + (l.filterMap (fun kv =>
            (Material.activeTexture h m kv.1).map (fun t => (kv.1, t)))).length⟩ := by
  induction l with
  | nil =>
    intro st _
    simp [Material.slotPairs, Table.setAll]
  | cons hd tl ih =>
    intro st hst
    rw [List.foldl_cons, Material.uniformStep_eq]
    cases ha : Material.activeTexture h m hd.1 with
    | none =>
      simp only [List.filterMap_cons, ha, Option.map_none']
      exact ih st hst
    | some t =>
      simp only [List.filterMap_cons, ha, Option.map_some']
      rw [ih _ (by simp [hst, arrayAssign])]
      simp only [hst, arrayAssign_length, Material.slotPairs, Table.setAll_cons, List.map_cons,
        List.length_cons, List.append_assoc, List.singleton_append]
      congr 1
      omega

theorem Material.fillUniforms_samplers (h : Host) (m : Material) (scene : Scene) :
    (Material.fillUniforms h m scene)._samplers =
      some ((Material.activeChannels h m).map (fun p => m.getTextureSampler p.1)) := by
  unfold Material.fillUniforms
  simp only []
  rw [Material.foldl_uniformStep h m m.textures _ rfl]
  simp [Material.activeChannels]

theorem Material.fillUniforms_uniforms (h : Host) (m : Material) (scene : Scene) :
    (Material.fillUniforms h m scene)._uniforms =
      some (match m.extra_uniforms with
        | some extra =>
          Table.setAll (Table.setAll (Material.baseUniforms h m scene)
            (Material.slotPairs h 0 (Material.activeChannels h m))) extra
        | none =>
          Table.setAll (Material.baseUniforms h m scene)
            (Material.slotPairs h 0 (Material.activeChannels h m))) := by
  unfold Material.fillUniforms
  simp only []
  rw [Material.foldl_uniformStep h m m.textures _ rfl]
  cases m.extra_uniforms <;> rfl

end LS

namespace LS

/-! ### The active channels -/

theorem Material.activeTexture_eq_some_iff (h : Host) (m : Material) (c : String) (t : Texture) :
    Material.activeTexture h m c = some t ↔
      Material.getTextureFromSampler h (m.getTextureSampler c) = .tex t := by
  unfold Material.activeTexture
  simp only []
  by_cases hs : (m.getTextureSampler c).truthy = true
  · simp only [hs, Bool.not_true, Bool.false_eq_true, if_false]
    cases Material.getTextureFromSampler h (m.getTextureSampler c) <;> simp
  · simp only [Bool.not_eq_true] at hs
    simp only [hs, Bool.not_false, if_true]
    constructor
    · intro hn; cases hn
    · intro hg
      exfalso
      revert hg hs
      cases m.getTextureSampler c with
      | prim p =>
        cases p with
        | str s =>
          simp only [Material.getTextureFromSampler, Material.textureRef, Entry.getField,
            Entry.truthy, Atom.truthy, Prim.truthy]
          intro hempty hres
          simp [hempty] at hres
        | _ =>
          simp [Material.getTextureFromSampler, Material.textureRef, Entry.getField,
            Entry.truthy, Atom.truthy, Prim.truthy]
      | obj o => simp [Entry.truthy]
      | tex t2 => simp [Entry.truthy]

theorem Material.mem_activeChannels (h : Host) (m : Material) (c : String) (t : Texture) :
    (c, t) ∈ Material.activeChannels h m ↔
      (c ∈ m.textures.map Prod.fst ∧ Material.activeTexture h m c = some t) := by
  unfold Material.activeChannels
  simp only [List.mem_filterMap, List.mem_map]
  constructor
  · rintro ⟨kv, hkv, heq⟩
    cases ha : Material.activeTexture h m kv.1 with
    | none => rw [ha] at heq; cases heq
    | some t2 =>
      rw [ha] at heq
      simp only [Option.map_some', Option.some.injEq, Prod.mk.injEq] at heq
      obtain ⟨h1, h2⟩ := heq
      subst h1
      subst h2
      exact ⟨⟨kv, hkv, rfl⟩, ha⟩
  · rintro ⟨⟨kv, hkv, hk⟩, ha⟩
    refine ⟨kv, hkv, ?_⟩
    rw [hk, ha]
    rfl

theorem Material.filterMap_active_keys (h : Host) (m : Material) (l : List (String × Entry)) :
    (l.filterMap (fun kv =>
        (Material.activeTexture h m kv.1).map (fun t => (kv.1, t)))).map Prod.fst =
      (l.map Prod.fst).filter (fun c => (Material.activeTexture h m c).isSome) := by
  induction l with
  | nil => rfl
  | cons hd tl ih =>
    cases ha : Material.activeTexture h m hd.1 with
    | none => simp [List.filterMap_cons, List.filter_cons, ha, ih]
    | some t => simp [List.filterMap_cons, List.filter_cons, ha, ih]

theorem Material.activeChannels_keys (h : Host) (m : Material) :
    (Material.activeChannels h m).map Prod.fst =
      (m.textures.map Prod.fst).filter (fun c => (Material.activeTexture h m c).isSome) :=
  Material.filterMap_active_keys h m m.textures

theorem Material.activeChannels_nodup (h : Host) (m : Material)
    (hnd : (m.textures.map Prod.fst).Nodup) :
    ((Material.activeChannels h m).map Prod.fst).Nodup := by
  rw [Material.activeChannels_keys]
  exact hnd.filter _

/-- Two active channels with the same name are the same pair. -/
theorem Material.activeChannels_fst_inj (h : Host) (m : Material) (p q : String × Texture)
    (hp : p ∈ Material.activeChannels h m) (hq : q ∈ Material.activeChannels h m)
    (heq : p.1 = q.1) : p = q := by
  obtain ⟨c, t⟩ := p
  obtain ⟨c2, t2⟩ := q
  simp only at heq
  subst heq
  have h1 := ((Material.mem_activeChannels h m c t).mp hp).2
  have h2 := ((Material.mem_activeChannels h m c t2).mp hq).2
  rw [h1] at h2
  cases h2
  rfl

theorem Material.macroName_eq_iff (h : Host) (m : Material) (name : String) :
    name ∈ (Material.textureMacros h m).map Prod.fst ↔
      ∃ c t, (c, t) ∈ Material.activeChannels h m ∧ name = Material.macroName h c t := by
  rw [Material.textureMacros_eq]
  simp only [List.map_map, List.mem_map, Function.comp]
  constructor
  · rintro ⟨p, hp, heq⟩
    exact ⟨p.1, p.2, hp, heq.symm⟩
  · rintro ⟨c, t, hp, heq⟩
    exact ⟨(c, t), hp, heq.symm⟩

theorem Material.defaultUvs_eq (c : String) :
    Material.defaultUvs c =
      match Table.get Material.DEFAULT_UVS c with
      | some u => u
      | none => "0" := by
  unfold Material.defaultUvs Material.DEFAULT_UVS
  by_cases h1 : "normal" = c
  · subst h1; decide
  by_cases h2 : "displacement" = c
  · subst h2; decide
  by_cases h3 : "environment" = c
  · subst h3; decide
  by_cases h4 : "irradiance" = c
  · subst h4; decide
  simp [Table.get, h1, h2, h3, h4]

/-! ### C11: the names of the macros -/

/-- C11, as stated, fails: a 2D texture on the channel `color` yields the single macro
`USE_COLOR_TEXTURE`; the macro map has no entry named `COLOR_TEXTURE`. -/
theorem C11_macro_carries_use :
    (Material.fillShaderQuery exampleHost exampleTextured)._query.macros =
      [("USE_COLOR_TEXTURE", .prim (.str "uvs_0"))] ∧
    Table.get (Material.fillShaderQuery exampleHost exampleTextured)._query.macros
      "COLOR_TEXTURE" = none := by
  decide

/-- C11, amended: for a material without extra macros, after `fillShaderQuery` the names in
the macro map are exactly the names `"USE_" + upper(c) + "_TEXTURE"` (2D texture) or
`"USE_" + upper(c) + "_CUBEMAP"` (otherwise) of the channels `c` of the table whose
reference resolves to a usable texture; no name occurs twice; and when the table has no
repeated key and no two keys with the same uppercase form, the map has one entry per such
channel. -/
theorem C11_macro_naming (h : Host) (m : Material) (hextra : m.extra_macros = none) :
    (∀ name, name ∈ (Material.fillShaderQuery h m)._query.macros.map Prod.fst ↔
      ∃ c t, c ∈ m.textures.map Prod.fst ∧
        Material.getTextureFromSampler h (m.getTextureSampler c) = .tex t ∧
        name = "USE_" ++ h.toUpperCase c ++
          (if t.texture_type = h.TEXTURE_2D then "_TEXTURE" else "_CUBEMAP")) ∧
    ((Material.fillShaderQuery h m)._query.macros.map Prod.fst).Nodup ∧
    ((m.textures.map Prod.fst).Nodup →
      (∀ a ∈ m.textures.map Prod.fst, ∀ b ∈ m.textures.map Prod.fst,
        h.toUpperCase a = h.toUpperCase b → a = b) →
      (Material.fillShaderQuery h m)._query.macros.length =
        (Material.activeChannels h m).length) := by
  have hmac : (Material.fillShaderQuery h m)._query.macros =
      Table.setAll [] (Material.textureMacros h m) := by
    rw [Material.fillShaderQuery_macros, hextra]
  have hmem : ∀ name, name ∈ (Material.fillShaderQuery h m)._query.macros.map Prod.fst ↔
      ∃ c t, (c, t) ∈ Material.activeChannels h m ∧ name = Material.macroName h c t := by
    intro name
    rw [hmac, Table.mem_keys_setAll, ← Material.macroName_eq_iff]
    simp
  have hnodup : ((Material.fillShaderQuery h m)._query.macros.map Prod.fst).Nodup := by
    rw [hmac]
    exact Table.nodup_keys_setAll _ [] List.nodup_nil
  refine ⟨?_, hnodup, ?_⟩
  · intro name
    rw [hmem]
    constructor
    · rintro ⟨c, t, hp, hname⟩
      obtain ⟨hc, ha⟩ := (Material.mem_activeChannels h m c t).mp hp
      exact ⟨c, t, hc, (Material.activeTexture_eq_some_iff h m c t).mp ha, hname⟩
    · rintro ⟨c, t, hc, hg, hname⟩
      exact ⟨c, t, (Material.mem_activeChannels h m c t).mpr
        ⟨hc, (Material.activeTexture_eq_some_iff h m c t).mpr hg⟩, hname⟩
  · intro hnd hinj
    have hnames : ((Material.activeChannels h m).map
        (fun p => Material.macroName h p.1 p.2)).Nodup := by
      refine List.Nodup.map_on ?_ (List.Nodup.of_map Prod.fst
        (Material.activeChannels_nodup h m hnd))
      intro p hp q hq heq
      have hup := Material.macroName_inj h p.1 q.1 p.2 q.2 heq
      have hp2 := ((Material.mem_activeChannels h m p.1 p.2).mp hp).1
      have hq2 := ((Material.mem_activeChannels h m q.1 q.2).mp hq).1
      exact Material.activeChannels_fst_inj h m p q hp hq (hinj _ hp2 _ hq2 hup)
    have hperm : ((Material.fillShaderQuery h m)._query.macros.map Prod.fst).Perm
        ((Material.activeChannels h m).map (fun p => Material.macroName h p.1 p.2)) := by
      refine (List.perm_ext_iff_of_nodup hnodup hnames).mpr ?_
      intro name
      rw [hmem]
      simp only [List.mem_map]
      constructor
      · rintro ⟨c, t, hp, hname⟩
        exact ⟨(c, t), hp, hname.symm⟩
      · rintro ⟨p, hp, hname⟩
        exact ⟨p.1, p.2, hp, hname.symm⟩
    have hlen := hperm.length_eq
    simpa using hlen

/-- C11 on a fresh material with a 2D texture on `color`: the only macro is
`USE_COLOR_TEXTURE`. -/
theorem C11_macro_naming_witness :
    exampleTextured.extra_macros = none ∧
    (∀ name, name ∈ (Material.fillShaderQuery exampleHost exampleTextured)._query.macros.map
        Prod.fst ↔
      ∃ c t, c ∈ exampleTextured.textures.map Prod.fst ∧
        Material.getTextureFromSampler exampleHost (exampleTextured.getTextureSampler c) =
          .tex t ∧
        name = "USE_" ++ exampleHost.toUpperCase c ++
          (if t.texture_type = exampleHost.TEXTURE_2D then "_TEXTURE" else "_CUBEMAP")) :=
  ⟨rfl, (C11_macro_naming exampleHost exampleTextured rfl).1⟩

/-! ### C12: the value of a macro -/

/-- C12, as stated, fails for an explicit `uvs` that is empty: with `uvs` set to the number
0 on `environment`, the macro value is `uvs_polar_reflected`, the class default, and not
`uvs_0`. -/
theorem C12_zero_uvs_falls_back :
    exampleEnvironment.setTextureProperty "environment" "uvs" (.prim (.num Num.zero)) =
      exampleZeroUvs ∧
    (exampleZeroUvs.getTextureSampler "environment").getField "uvs" = .prim (.num Num.zero) ∧
    (Material.fillShaderQuery exampleHost exampleZeroUvs)._query.macros =
      [("USE_ENVIRONMENT_CUBEMAP", .prim (.str "uvs_polar_reflected"))] := by
  decide

/-- C12, amended: for a channel `c` whose reference resolves to a usable texture and whose
name the class table `DEFAULT_UVS` does not inherit from `Object.prototype`, the macro that
the loop of `fillShaderQuery` assigns for `c` has the value `"uvs_"` followed by the
effective mode: the descriptor's own `uvs` when it is not empty (the test is truthiness:
`""`, `0` and `null` count as none), else `Material.DEFAULT_UVS[c]`, else `"0"`. Without extra macros, and when no other key of the table shares the uppercase form
of `c`, that value is what the macro map holds under the macro of `c` after the call. -/
theorem C12_macro_value (h : Host) (m : Material) (c : String) (t : Texture)
    (_hin : c ∉ objectPrototypeNames)
    (ht : Material.getTextureFromSampler h (m.getTextureSampler c) = .tex t) :
    Material.macroFor h m c =
      some ("USE_" ++ h.toUpperCase c ++
          (if t.texture_type = h.TEXTURE_2D then "_TEXTURE" else "_CUBEMAP"),
        .prim (.str ("uvs_" ++ Material.effectiveUvs h c (m.getTextureSampler c)))) ∧
    Material.effectiveUvs h c (m.getTextureSampler c) =
      (if ((m.getTextureSampler c).getField "uvs").truthy then
        ((m.getTextureSampler c).getField "uvs").toStr h
      else
        match Table.get Material.DEFAULT_UVS c with
        | some u => u
        | none => "0") ∧
    (m.extra_macros = none → c ∈ m.textures.map Prod.fst →
      (∀ c2 ∈ m.textures.map Prod.fst, h.toUpperCase c2 = h.toUpperCase c → c2 = c) →
      Table.get (Material.fillShaderQuery h m)._query.macros
          ("USE_" ++ h.toUpperCase c ++
            (if t.texture_type = h.TEXTURE_2D then "_TEXTURE" else "_CUBEMAP")) =
        some (.prim (.str ("uvs_" ++ Material.effectiveUvs h c (m.getTextureSampler c))))) := by
  have hact := (Material.activeTexture_eq_some_iff h m c t).mpr ht
  refine ⟨?_, ?_, ?_⟩
  · rw [Material.macroFor_eq, hact]
    rfl
  · unfold Material.effectiveUvs
    rw [Material.defaultUvs_eq]
  · intro hextra hc hclash
    rw [Material.fillShaderQuery_macros, hextra]
    simp only []
    have hp : (c, t) ∈ Material.activeChannels h m :=
      (Material.mem_activeChannels h m c t).mpr ⟨hc, hact⟩
    refine Table.get_setAll_of_unique _ _ _ ?_ ?_ []
    · rw [Material.textureMacros_eq]
      exact List.mem_map.mpr ⟨(c, t), hp, rfl⟩
    · intro w hw
      rw [Material.textureMacros_eq] at hw
      obtain ⟨q, hq, heq⟩ := List.mem_map.mp hw
      simp only [Prod.mk.injEq] at heq
      obtain ⟨hname, hval⟩ := heq
      have hup := Material.macroName_inj h q.1 c q.2 t hname
      have hq2 := ((Material.mem_activeChannels h m q.1 q.2).mp hq).1
      have hqc : q.1 = c := hclash _ hq2 hup
      rw [← hval, hqc]

/-- C12 on a fresh material whose `environment` channel holds a cubemap and no explicit
`uvs`: the macro `USE_ENVIRONMENT_CUBEMAP` has the value `uvs_polar_reflected`. -/
theorem C12_macro_value_witness :
    "environment" ∉ objectPrototypeNames ∧
    Material.getTextureFromSampler exampleHost
        (exampleEnvironment.getTextureSampler "environment") = .tex exampleCubemap ∧
    Material.macroFor exampleHost exampleEnvironment "environment" =
      some ("USE_ENVIRONMENT_CUBEMAP", .prim (.str "uvs_polar_reflected")) ∧
    Material.effectiveUvs exampleHost "environment"
        (exampleEnvironment.getTextureSampler "environment") = "polar_reflected" ∧
    Table.get (Material.fillShaderQuery exampleHost exampleEnvironment)._query.macros
        "USE_ENVIRONMENT_CUBEMAP" = some (.prim (.str "uvs_polar_reflected")) :=
  ⟨by decide, by decide,
    (C12_macro_value exampleHost exampleEnvironment "environment" exampleCubemap
      (by decide) (by decide)).1.trans (by decide),
    by decide,
    ((C12_macro_value exampleHost exampleEnvironment "environment" exampleCubemap
      (by decide) (by decide)).2.2 rfl (by decide) (by decide)).trans (by decide)⟩

/-! ### C13: extra macros -/

/-- C13: for a material with extra macros `E` (an object: no key twice), after
`fillShaderQuery` every key of `E` is in the macro map with the value `E` gives it,
whatever the texture loop emitted under that name, and under every name that is not a key
of `E` the macro map holds what it holds for the same material without extra macros. -/
theorem C13_extra_macros_override (h : Host) (m : Material) (E : Obj)
    (hE : m.extra_macros = some E) (hnd : (E.map Prod.fst).Nodup) :
    (∀ k v, (k, v) ∈ E →
      Table.get (Material.fillShaderQuery h m)._query.macros k = some v) ∧
    (∀ k, k ∉ E.map Prod.fst →
      Table.get (Material.fillShaderQuery h m)._query.macros k =
        Table.get (Material.fillShaderQuery h { m with extra_macros := none })._query.macros
          k) := by
  have hmac : (Material.fillShaderQuery h m)._query.macros =
      Table.setAll (Table.setAll [] (Material.textureMacros h m)) E := by
    rw [Material.fillShaderQuery_macros, hE]
  have hloop : (Material.fillShaderQuery h { m with extra_macros := none })._query.macros =
      Table.setAll [] (Material.textureMacros h m) := by
    rw [Material.fillShaderQuery_macros]
    rfl
  constructor
  · intro k v hkv
    rw [hmac]
    exact Table.get_setAll_of_nodup E k v hnd hkv _
  · intro k hk
    rw [hmac, hloop]
    exact Table.get_setAll_of_not_mem E k hk _

/-- C13 on a material with a 2D texture on `color` and the extra macros
`USE_COLOR_TEXTURE = "custom"` and `FAST`: the extra value replaces `uvs_0`. -/
theorem C13_extra_macros_override_witness :
    (exampleOverride.extra_macros =
        some [("USE_COLOR_TEXTURE", .prim (.str "custom")), ("FAST", .prim (.str ""))] ∧
      (([("USE_COLOR_TEXTURE", Atom.prim (.str "custom")),
        ("FAST", Atom.prim (.str ""))] : Obj).map Prod.fst).Nodup) ∧
    Table.get (Material.fillShaderQuery exampleHost exampleOverride)._query.macros
      "USE_COLOR_TEXTURE" = some (.prim (.str "custom")) ∧
    Table.get (Material.fillShaderQuery exampleHost exampleTextured)._query.macros
      "USE_COLOR_TEXTURE" = some (.prim (.str "uvs_0")) :=
  ⟨⟨rfl, by decide⟩,
    (C13_extra_macros_override exampleHost exampleOverride _ rfl (by decide)).1
      "USE_COLOR_TEXTURE" (.prim (.str "custom")) (by decide), by decide⟩

end LS

namespace LS

/-! ### Texture uniforms and their slots -/

theorem Material.slotPairs_keys (h : Host) (act : List (String × Texture)) :
    ∀ n : Nat, (Material.slotPairs h n act).map Prod.fst =
      act.map (fun p => Material.uniformName h p.1 p.2) := by
  induction act with
  | nil => intro n; rfl
  | cons p rest ih =>
    intro n
    obtain ⟨c, t⟩ := p
    simp [Material.slotPairs, ih]

theorem Material.mem_slotPairs (h : Host) (act : List (String × Texture)) :
    ∀ (n j : Nat) (c : String) (t : Texture), act[j]? = some (c, t) →
      (Material.uniformName h c t, Value.prim (.num (Num.ofNat (n + j)))) ∈
        Material.slotPairs h n act := by
  induction act with
  | nil => intro n j c t hj; simp at hj
  | cons p rest ih =>
    intro n j c t hj
    obtain ⟨c1, t1⟩ := p
    cases j with
    | zero =>
      simp only [List.getElem?_cons_zero, Option.some.injEq, Prod.mk.injEq] at hj
      obtain ⟨h1, h2⟩ := hj
      subst h1
      subst h2
      simp [Material.slotPairs]
    | succ k =>
      simp only [List.getElem?_cons_succ] at hj
      have hrec := ih (n + 1) k c t hj
      have hidx : n + 1 + k = n + (k + 1) := by omega
      rw [hidx] at hrec
      simp only [Material.slotPairs]
      exact List.mem_cons_of_mem _ hrec

theorem Material.uniformNames_nodup (h : Host) (act : List (String × Texture))
    (hnd : (act.map Prod.fst).Nodup) :
    (act.map (fun p => Material.uniformName h p.1 p.2)).Nodup := by
  refine List.Nodup.map_on ?_ (List.Nodup.of_map Prod.fst hnd)
  intro p hp q hq heq
  exact List.inj_on_of_nodup_map hnd hp hq (Material.uniformName_inj h p.1 q.1 p.2 q.2 heq)

/-- The slot written for the `j`-th active channel is `j`, whatever the map held before. -/
theorem Material.get_slot (h : Host) (base : List (String × Value))
    (act : List (String × Texture)) (hnd : (act.map Prod.fst).Nodup) (j : Nat) (c : String)
    (t : Texture) (hj : act[j]? = some (c, t)) :
    Table.get (Table.setAll base (Material.slotPairs h 0 act)) (Material.uniformName h c t) =
      some (.prim (.num (Num.ofNat j))) := by
  have hmem := Material.mem_slotPairs h act 0 j c t hj
  rw [Nat.zero_add] at hmem
  refine Table.get_setAll_of_nodup _ _ _ ?_ hmem base
  rw [Material.slotPairs_keys]
  exact Material.uniformNames_nodup h act hnd

theorem Material.fillUniforms_fillUniforms (h : Host) (m : Material) (scene : Scene) :
    Material.fillUniforms h (Material.fillUniforms h m scene) scene =
      Material.fillUniforms h m scene := rfl

theorem Material.iterate_fillUniforms (h : Host) (m : Material) (scene : Scene) (n : Nat) :
    (fun x => Material.fillUniforms h x scene)^[n + 1] m = Material.fillUniforms h m scene := by
  induction n with
  | zero => rfl
  | succ k ih =>
    rw [Function.iterate_succ_apply', ih]
    rfl

/-! ### Inserting channels one after the other -/

theorem Material.getTextureFromSampler_literal (h : Host) (t : Texture) (uvs : String) :
    Material.getTextureFromSampler h (.obj (Material.samplerLiteral (.tex t) uvs)) = .tex t := by
  simp [Material.getTextureFromSampler, Material.textureRef, Entry.getField,
    Material.samplerLiteral, Table.get, Atom.truthy]

/-- A reference whose fresh descriptor resolves to a texture is not empty. -/
theorem Material.truthy_of_literal_resolves (h : Host) (t : Atom) (uvs : String)
    (τ : Texture)
    (hres : Material.getTextureFromSampler h (.obj (Material.samplerLiteral t uvs)) = .tex τ) :
    t.truthy = true := by
  cases ht : t.truthy with
  | true => rfl
  | false =>
    simp [Material.getTextureFromSampler, Material.textureRef, Entry.getField,
      Material.samplerLiteral, Table.get, ht] at hres

theorem Material.insertTextures_ok (h : Host) (l : List (String × Atom)) :
    ∀ m0 : Material, (l.map Prod.fst).Nodup →
      (∀ p ∈ l, p.1 ≠ "" ∧ arrayIndex p.1 = none ∧ p.1 ∉ m0.textures.map Prod.fst ∧
        p.2.truthy = true) →
      Material.insertTextures h m0 l =
        .ok { m0 with textures := m0.textures ++ l.map (fun p =>
          (p.1, Entry.obj (Material.samplerLiteral p.2 (Material.defaultUvs p.1)))) } := by
  induction l with
  | nil =>
    intro m0 _ _
    simp [Material.insertTextures]
  | cons p rest ih =>
    intro m0 hnd hnames
    obtain ⟨c, t⟩ := p
    simp only [List.map_cons, List.nodup_cons] at hnd
    obtain ⟨hc1, hc2, hc3, hc4⟩ := hnames (c, t) (List.mem_cons_self _ _)
    simp only at hc1 hc2 hc3 hc4
    have hnone : Table.get m0.textures c = none := (Table.get_eq_none_iff _ _).mpr hc3
    have hs : (m0.getTextureSampler c).truthy = false := by
      simp [Material.getTextureSampler, hnone, Entry.truthy, Prim.truthy]
    unfold Material.insertTextures
    rw [Material.setTexture_create h m0 c t none hc1 hc4 hs]
    simp only [Entry.merge]
    rw [Table.set_of_get_none _ _ _ hnone hc2, ih _ hnd.2]
    · simp [List.append_assoc]
    · intro q hq
      obtain ⟨hq1, hq2, hq3, hq4⟩ := hnames q (List.mem_cons_of_mem _ hq)
      refine ⟨hq1, hq2, ?_, hq4⟩
      simp only [List.map_append, List.map_cons, List.map_nil, List.mem_append,
        List.mem_singleton, not_or]
      refine ⟨hq3, ?_⟩
      intro hqc
      apply hnd.1
      rw [← hqc]
      exact List.mem_map_of_mem Prod.fst hq

/-- When every slot holds the fresh descriptor of a reference that resolves to a texture,
every channel is active, with that texture. -/
theorem Material.activeChannels_of_literals (h : Host) (m : Material)
    (l : List (String × Atom × Texture)) (hnd : (l.map Prod.fst).Nodup)
    (htex : m.textures = l.map (fun p =>
      (p.1, Entry.obj (Material.samplerLiteral p.2.1 (Material.defaultUvs p.1)))))
    (hres : ∀ p ∈ l, Material.getTextureFromSampler h
      (.obj (Material.samplerLiteral p.2.1 (Material.defaultUvs p.1))) = .tex p.2.2) :
    (∀ p ∈ l, m.getTextureSampler p.1 =
      .obj (Material.samplerLiteral p.2.1 (Material.defaultUvs p.1))) ∧
    Material.activeChannels h m = l.map (fun p => (p.1, p.2.2)) := by
  have hget : ∀ p ∈ l, m.getTextureSampler p.1 =
      .obj (Material.samplerLiteral p.2.1 (Material.defaultUvs p.1)) := by
    intro p hp
    unfold Material.getTextureSampler
    rw [Table.get_of_mem_nodup m.textures p.1
      (.obj (Material.samplerLiteral p.2.1 (Material.defaultUvs p.1)))]
    · rfl
    · rw [htex, List.map_map]
      exact hnd
    · rw [htex]
      exact List.mem_map.mpr ⟨p, hp, rfl⟩
  refine ⟨hget, ?_⟩
  unfold Material.activeChannels
  rw [htex, List.filterMap_map]
  have hsome : ∀ p ∈ l, ((fun kv : String × Entry =>
      (Material.activeTexture h m kv.1).map (fun t => (kv.1, t))) ∘
      (fun p : String × Atom × Texture =>
        (p.1, Entry.obj (Material.samplerLiteral p.2.1 (Material.defaultUvs p.1))))) p =
      (fun p : String × Atom × Texture => some (p.1, p.2.2)) p := by
    intro p hp
    simp only [Function.comp]
    have hact : Material.activeTexture h m p.1 = some p.2.2 := by
      rw [Material.activeTexture_eq_some_iff, hget p hp]
      exact hres p hp
    rw [hact]
    rfl
  rw [List.filterMap_congr hsome]
  exact congrFun (List.filterMap_eq_map (fun p : String × Atom × Texture => (p.1, p.2.2))) l

/-- The uniforms and samplers of a table in which every slot holds the fresh descriptor of
a reference that resolves to a texture. -/
theorem Material.fillUniforms_of_literals (h : Host) (m : Material) (scene : Scene)
    (l : List (String × Atom × Texture)) (hnd : (l.map Prod.fst).Nodup)
    (htex : m.textures = l.map (fun p =>
      (p.1, Entry.obj (Material.samplerLiteral p.2.1 (Material.defaultUvs p.1)))))
    (hres : ∀ p ∈ l, Material.getTextureFromSampler h
      (.obj (Material.samplerLiteral p.2.1 (Material.defaultUvs p.1))) = .tex p.2.2)
    (huni : m.extra_uniforms = none) :
    ∃ uniforms samplers,
      (Material.fillUniforms h m scene)._uniforms = some uniforms ∧
      (Material.fillUniforms h m scene)._samplers = some samplers ∧
      samplers.length = l.length ∧
      (∀ i c t τ, l[i]? = some (c, t, τ) →
        Table.get uniforms
            (c ++ (if τ.texture_type = h.TEXTURE_2D then "_texture" else "_cubemap")) =
          some (.prim (.num (Num.ofNat i))) ∧
        samplers[i]? = some (m.getTextureSampler c) ∧
        m.getTextureSampler c =
          .obj (Material.samplerLiteral t (Material.defaultUvs c))) := by
  obtain ⟨hget, hact⟩ := Material.activeChannels_of_literals h m l hnd htex hres
  refine ⟨_, _, Material.fillUniforms_uniforms h m scene,
    Material.fillUniforms_samplers h m scene, ?_, ?_⟩
  · rw [hact, List.length_map, List.length_map]
  · intro i c t τ hi
    have hmem : (c, t, τ) ∈ l := List.getElem?_mem hi
    have hidx : (l.map (fun p : String × Atom × Texture => (p.1, p.2.2)))[i]? = some (c, τ) := by
      rw [List.getElem?_map, hi]
      rfl
    refine ⟨?_, ?_, hget (c, t, τ) hmem⟩
    · rw [huni, hact]
      refine Material.get_slot h _ _ ?_ i c τ hidx
      rw [List.map_map]
      exact hnd
    · rw [hact, List.map_map, List.getElem?_map, hi]
      rfl

/-! ### C15: slots and the order of insertion -/

/-- C15, as stated, fails: after inserting `b` and then `0`, each with a usable texture,
the table enumerates `0` first (an array index), so `fillUniforms` gives `0` slot 0 and the
channel inserted first, `b`, slot 1. -/
theorem C15_array_index_goes_first :
    Material.insertTextures exampleHost exampleMaterial
        [("b", .tex exampleTexture), ("0", .tex exampleTexture)] = .ok exampleIndexed ∧
    (Material.fillUniforms exampleHost exampleIndexed exampleScene)._uniforms.bind
        (fun u => Table.get u "b_texture") = some (.prim (.num (Num.ofNat 1))) ∧
    (Material.fillUniforms exampleHost exampleIndexed exampleScene)._uniforms.bind
        (fun u => Table.get u "0_texture") = some (.prim (.num (Num.ofNat 0))) ∧
    (Material.fillUniforms exampleHost exampleIndexed exampleScene)._samplers.map
        (fun s => s.map Material.textureRef) =
      some [.tex exampleTexture, .tex exampleTexture] := by
  decide

/-- C15, amended: for distinct channel names, none empty, none an array index and none
inherited from `Object.prototype`, inserted by `setTexture` in the order `c0, ..., c(n-1)`,
each with a reference that resolves to a texture (a handle, or a name the registry
resolves), into a material with an empty channel table and no extra uniforms: the
insertions succeed, `fillUniforms` sets the uniform of `c_i` (its name followed by
`_texture` for a 2D texture, `_cubemap` otherwise) to `i`, the sampler list has length `n`
and holds the descriptor of `c_i` at index `i`, and any number of further calls of
`fillUniforms` leave the same result. -/
theorem C15_slots_follow_insertion (h : Host) (m0 : Material) (scene : Scene)
    (l : List (String × Atom × Texture)) (n : Nat)
    (hempty : m0.textures = []) (huni : m0.extra_uniforms = none)
    (hnd : (l.map Prod.fst).Nodup)
    (hnames : ∀ p ∈ l, p.1 ≠ "" ∧ arrayIndex p.1 = none ∧ p.1 ∉ objectPrototypeNames)
    (hres : ∀ p ∈ l, Material.getTextureFromSampler h
      (.obj (Material.samplerLiteral p.2.1 (Material.defaultUvs p.1))) = .tex p.2.2) :
    ∃ m uniforms samplers,
      Material.insertTextures h m0 (l.map (fun p => (p.1, p.2.1))) = .ok m ∧
      (Material.fillUniforms h m scene)._uniforms = some uniforms ∧
      (Material.fillUniforms h m scene)._samplers = some samplers ∧
      samplers.length = l.length ∧
      (∀ i c t τ, l[i]? = some (c, t, τ) →
        Table.get uniforms
            (c ++ (if τ.texture_type = h.TEXTURE_2D then "_texture" else "_cubemap")) =
          some (.prim (.num (Num.ofNat i))) ∧
        samplers[i]? = some (m.getTextureSampler c) ∧
        m.getTextureSampler c =
          .obj (Material.samplerLiteral t (Material.defaultUvs c))) ∧
      (fun x => Material.fillUniforms h x scene)^[n + 1] m =
        Material.fillUniforms h m scene := by
  have hins := Material.insertTextures_ok h (l.map (fun p => (p.1, p.2.1))) m0
    (by rw [List.map_map]; exact hnd) (by
    intro q hq
    obtain ⟨p, hp, hpq⟩ := List.mem_map.mp hq
    subst hpq
    obtain ⟨h1, h2, _⟩ := hnames p hp
    refine ⟨h1, h2, ?_, Material.truthy_of_literal_resolves h _ _ _ (hres p hp)⟩
    rw [hempty]
    simp)
  rw [hempty, List.nil_append, List.map_map] at hins
  obtain ⟨uniforms, samplers, h1, h2, h3, h4⟩ := Material.fillUniforms_of_literals h
    { m0 with textures := l.map (fun p =>
      (p.1, Entry.obj (Material.samplerLiteral p.2.1 (Material.defaultUvs p.1)))) }
    scene l hnd rfl hres huni
  exact ⟨_, uniforms, samplers, hins, h1, h2, h3, h4,
    Material.iterate_fillUniforms h _ scene n⟩

/-- C15 on the names `A`, `B`, `C` inserted in this order into a fresh material, `A` with a
registered name and `B`, `C` with handles: slots 0, 1 and 2. -/
theorem C15_slots_follow_insertion_witness :
    (exampleMaterial.textures = [] ∧ exampleMaterial.extra_uniforms = none ∧
      (exampleInsertions.map Prod.fst).Nodup ∧
      (∀ p ∈ exampleInsertions,
        p.1 ≠ "" ∧ arrayIndex p.1 = none ∧ p.1 ∉ objectPrototypeNames) ∧
      (∀ p ∈ exampleInsertions, Material.getTextureFromSampler exampleRegistry
        (.obj (Material.samplerLiteral p.2.1 (Material.defaultUvs p.1))) = .tex p.2.2)) ∧
    (∃ m uniforms samplers,
      Material.insertTextures exampleRegistry exampleMaterial
        (exampleInsertions.map (fun p => (p.1, p.2.1))) = .ok m ∧
      (Material.fillUniforms exampleRegistry m exampleScene)._uniforms = some uniforms ∧
      (Material.fillUniforms exampleRegistry m exampleScene)._samplers = some samplers ∧
      samplers.length = exampleInsertions.length ∧
      (∀ i c t τ, exampleInsertions[i]? = some (c, t, τ) →
        Table.get uniforms
            (c ++ (if τ.texture_type = exampleRegistry.TEXTURE_2D then "_texture"
              else "_cubemap")) =
          some (.prim (.num (Num.ofNat i))) ∧
        samplers[i]? = some (m.getTextureSampler c) ∧
        m.getTextureSampler c =
          .obj (Material.samplerLiteral t (Material.defaultUvs c))) ∧
      (fun x => Material.fillUniforms exampleRegistry x exampleScene)^[2 + 1] m =
        Material.fillUniforms exampleRegistry m exampleScene) ∧
    Material.insertTextures exampleRegistry exampleMaterial
        (exampleInsertions.map (fun p => (p.1, p.2.1))) = .ok exampleInserted ∧
    (Material.fillUniforms exampleRegistry exampleInserted exampleScene)._uniforms.map
        (fun u => [Table.get u "A_texture", Table.get u "B_cubemap", Table.get u "C_texture"]) =
      some [some (.prim (.num (Num.ofNat 0))), some (.prim (.num (Num.ofNat 1))),
        some (.prim (.num (Num.ofNat 2)))] :=
  ⟨⟨rfl, rfl, by decide, by decide, by decide⟩,
    C15_slots_follow_insertion exampleRegistry exampleMaterial exampleScene exampleInsertions 2
      rfl rfl (by decide) (by decide) (by decide), by decide, by decide⟩

end LS

namespace LS

/-! ### Presence of a macro or a texture uniform -/

theorem String.suffix_of_append_eq (c s name : String) (heq : c ++ s = name) :
    s.data <:+ name.data := by
  rw [← heq, String.data_append]
  exact List.suffix_append _ _

theorem Material.baseUniforms_keys (h : Host) (m : Material) (scene : Scene) :
    (Material.baseUniforms h m scene).map Prod.fst =
      ["u_material_color", "u_ambient_color", "u_texture_matrix", "u_specular",
        "u_reflection"] := rfl

theorem Material.uniformName_not_base (h : Host) (m : Material) (scene : Scene) (c : String)
    (t : Texture) :
    Material.uniformName h c t ∉ (Material.baseUniforms h m scene).map Prod.fst := by
  rw [Material.baseUniforms_keys]
  intro hmem
  unfold Material.uniformName at hmem
  simp only [List.mem_cons, List.mem_singleton, List.not_mem_nil, or_false] at hmem
  split_ifs at hmem <;> rcases hmem with h1 | h1 | h1 | h1 | h1 <;>
    exact absurd (String.suffix_of_append_eq _ _ _ h1) (by decide)

theorem Material.texture_uniform_not_base (h : Host) (m : Material) (scene : Scene)
    (c : String) :
    c ++ "_texture" ∉ (Material.baseUniforms h m scene).map Prod.fst ∧
      c ++ "_cubemap" ∉ (Material.baseUniforms h m scene).map Prod.fst := by
  rw [Material.baseUniforms_keys]
  constructor <;> intro hmem <;>
    simp only [List.mem_cons, List.mem_singleton, List.not_mem_nil, or_false] at hmem <;>
    rcases hmem with h1 | h1 | h1 | h1 | h1 <;>
    exact absurd (String.suffix_of_append_eq _ _ _ h1) (by decide)

theorem Material.uniformName_cases (h : Host) (c : String) (t : Texture) :
    Material.uniformName h c t = c ++ "_texture" ∨ Material.uniformName h c t = c ++ "_cubemap" := by
  unfold Material.uniformName
  split_ifs
  · exact Or.inl rfl
  · exact Or.inr rfl

theorem Material.macroName_cases (h : Host) (c : String) (t : Texture) :
    Material.macroName h c t = "USE_" ++ h.toUpperCase c ++ "_TEXTURE" ∨
      Material.macroName h c t = "USE_" ++ h.toUpperCase c ++ "_CUBEMAP" := by
  unfold Material.macroName
  split_ifs
  · exact Or.inl rfl
  · exact Or.inr rfl

/-- A texture uniform is named after the channel `c` only if it is the uniform of `c`. -/
theorem Material.uniformName_channel (h : Host) (c c2 : String) (t : Texture)
    (heq : Material.uniformName h c2 t = c ++ "_texture" ∨
      Material.uniformName h c2 t = c ++ "_cubemap") : c2 = c := by
  unfold Material.uniformName at heq
  rcases heq with h1 | h1
  · exact (String.append_right_cancel_of_length c2 c _ _ (by split_ifs <;> rfl) h1).1
  · exact (String.append_right_cancel_of_length c2 c _ _ (by split_ifs <;> rfl) h1).1

/-- A macro is named after the channel `c` only if it is the macro of a channel with the
uppercase form of `c`. -/
theorem Material.macroName_channel (h : Host) (c c2 : String) (t : Texture)
    (heq : Material.macroName h c2 t = "USE_" ++ h.toUpperCase c ++ "_TEXTURE" ∨
      Material.macroName h c2 t = "USE_" ++ h.toUpperCase c ++ "_CUBEMAP") :
    h.toUpperCase c2 = h.toUpperCase c := by
  unfold Material.macroName at heq
  have hcancel : "USE_" ++ h.toUpperCase c2 = "USE_" ++ h.toUpperCase c := by
    rcases heq with h1 | h1
    · exact (String.append_right_cancel_of_length _ _ _ _ (by split_ifs <;> rfl) h1).1
    · exact (String.append_right_cancel_of_length _ _ _ _ (by split_ifs <;> rfl) h1).1
  have hdata := congrArg String.data hcancel
  simp only [String.data_append] at hdata
  exact String.ext (List.append_cancel_left hdata)

theorem Material.hasTextureUniform_fillUniforms (h : Host) (m : Material) (scene : Scene)
    (c : String) (huni : m.extra_uniforms = none) :
    Material.hasTextureUniform (Material.fillUniforms h m scene) c = true ↔
      (c ∈ m.textures.map Prod.fst ∧ (Material.activeTexture h m c).isSome = true) := by
  unfold Material.hasTextureUniform
  rw [Material.fillUniforms_uniforms, huni]
  simp only [Bool.or_eq_true, Table.isSome_get_iff, Table.mem_keys_setAll,
    Material.slotPairs_keys]
  constructor
  · intro hkey
    have hin : ∃ p ∈ Material.activeChannels h m,
        Material.uniformName h p.1 p.2 = c ++ "_texture" ∨
          Material.uniformName h p.1 p.2 = c ++ "_cubemap" := by
      rcases hkey with (hb | hs) | (hb | hs)
      · exact absurd hb (Material.texture_uniform_not_base h m scene c).1
      · obtain ⟨p, hp, hname⟩ := List.mem_map.mp hs
        exact ⟨p, hp, Or.inl hname⟩
      · exact absurd hb (Material.texture_uniform_not_base h m scene c).2
      · obtain ⟨p, hp, hname⟩ := List.mem_map.mp hs
        exact ⟨p, hp, Or.inr hname⟩
    obtain ⟨p, hp, hname⟩ := hin
    have hpc := Material.uniformName_channel h c p.1 p.2 hname
    obtain ⟨hk, ha⟩ := (Material.mem_activeChannels h m p.1 p.2).mp hp
    rw [hpc] at hk ha
    exact ⟨hk, by rw [ha]; rfl⟩
  · rintro ⟨hk, ha⟩
    obtain ⟨t, ht⟩ := Option.isSome_iff_exists.mp ha
    have hp := (Material.mem_activeChannels h m c t).mpr ⟨hk, ht⟩
    rcases Material.uniformName_cases h c t with hn | hn
    · exact Or.inl (Or.inr (List.mem_map.mpr ⟨(c, t), hp, hn⟩))
    · exact Or.inr (Or.inr (List.mem_map.mpr ⟨(c, t), hp, hn⟩))

end LS

namespace LS

theorem Material.hasMacro_fillShaderQuery (h : Host) (m : Material) (c : String)
    (hmac : m.extra_macros = none) :
    Material.hasMacro h (Material.fillShaderQuery h m) c = true ↔
      ∃ c2 t, (c2, t) ∈ Material.activeChannels h m ∧ h.toUpperCase c2 = h.toUpperCase c := by
  unfold Material.hasMacro
  rw [Material.fillShaderQuery_macros, hmac]
  simp only [Bool.or_eq_true, Table.isSome_get_iff, Table.mem_keys_setAll, List.map_nil,
    List.not_mem_nil, false_or, Material.macroName_eq_iff]
  constructor
  · rintro (⟨c2, t, hp, hn⟩ | ⟨c2, t, hp, hn⟩)
    · exact ⟨c2, t, hp, Material.macroName_channel h c c2 t (Or.inl hn.symm)⟩
    · exact ⟨c2, t, hp, Material.macroName_channel h c c2 t (Or.inr hn.symm)⟩
  · rintro ⟨c2, t, hp, hup⟩
    rcases Material.macroName_cases h c2 t with hn | hn
    · exact Or.inl ⟨c2, t, hp, by rw [hn, hup]⟩
    · exact Or.inr ⟨c2, t, hp, by rw [hn, hup]⟩

theorem Material.prepareMaterial_query (h : Host) (m : Material) (scene : Scene) :
    (Material.prepareMaterial h m scene)._query = (Material.fillShaderQuery h m)._query := by
  unfold Material.prepareMaterial
  cases m._uniforms <;> rfl

theorem Material.prepareMaterial_uniforms (h : Host) (m : Material) (scene : Scene) :
    (Material.prepareMaterial h m scene)._uniforms =
      (Material.fillUniforms h m scene)._uniforms := by
  unfold Material.prepareMaterial
  cases m._uniforms <;> rfl

theorem Material.prepareMaterial_samplers (h : Host) (m : Material) (scene : Scene) :
    (Material.prepareMaterial h m scene)._samplers =
      (Material.fillUniforms h m scene)._samplers := by
  unfold Material.prepareMaterial
  cases m._uniforms <;> rfl

/-! ### A channel whose name is not resolved -/

theorem Material.activeTexture_unresolved (h : Host) (m : Material) (c name : String)
    (hentry : Material.textureRef (m.getTextureSampler c) = .prim (.str name))
    (hunres : ∀ t, h.textures name ≠ .tex t) : Material.activeTexture h m c = none := by
  cases ha : Material.activeTexture h m c with
  | none => rfl
  | some t =>
    exfalso
    have hg := (Material.activeTexture_eq_some_iff h m c t).mp ha
    cases hx : h.textures name with
    | tex t2 => exact hunres t2 hx
    | prim p => simp [Material.getTextureFromSampler, hentry, hx] at hg

theorem Material.activeTexture_erase_of_ne (h : Host) (m : Material) (c k : String)
    (hk : k ≠ c) :
    Material.activeTexture h { m with textures := Table.erase m.textures c } k =
      Material.activeTexture h m k := by
  unfold Material.activeTexture Material.getTextureSampler
  simp only [Table.get_erase_of_ne m.textures c k hk]

theorem Material.getTextureSampler_erase_of_ne (m : Material) (c k : String) (hk : k ≠ c) :
    Material.getTextureSampler { m with textures := Table.erase m.textures c } k =
      m.getTextureSampler k := by
  unfold Material.getTextureSampler
  simp only [Table.get_erase_of_ne m.textures c k hk]

theorem Material.activeChannels_erase (h : Host) (m : Material) (c : String)
    (hc : Material.activeTexture h m c = none) :
    Material.activeChannels h { m with textures := Table.erase m.textures c } =
      Material.activeChannels h m := by
  unfold Material.activeChannels
  simp only [Table.erase]
  rw [List.filterMap_filter]
  apply List.filterMap_congr
  intro kv _
  by_cases hk : kv.1 = c
  · simp [hk, hc]
  · simp only [ne_eq, hk, not_false_eq_true, decide_True, if_true]
    have := Material.activeTexture_erase_of_ne h m c kv.1 hk
    simp only [Table.erase] at this
    rw [this]

theorem Material.ne_of_mem_activeChannels (h : Host) (m : Material) (c : String)
    (hc : Material.activeTexture h m c = none) (p : String × Texture)
    (hp : p ∈ Material.activeChannels h m) : p.1 ≠ c := by
  intro hpc
  have ha := ((Material.mem_activeChannels h m p.1 p.2).mp hp).2
  rw [hpc, hc] at ha
  cases ha

theorem Material.textureMacros_erase (h : Host) (m : Material) (c : String)
    (hc : Material.activeTexture h m c = none) :
    Material.textureMacros h { m with textures := Table.erase m.textures c } =
      Material.textureMacros h m := by
  rw [Material.textureMacros_eq, Material.textureMacros_eq, Material.activeChannels_erase h m c hc]
  apply List.map_congr_left
  intro p hp
  rw [Material.getTextureSampler_erase_of_ne m c p.1
    (Material.ne_of_mem_activeChannels h m c hc p hp)]

theorem Material.samplers_erase (h : Host) (m : Material) (scene : Scene) (c : String)
    (hc : Material.activeTexture h m c = none) :
    (Material.fillUniforms h { m with textures := Table.erase m.textures c } scene)._samplers =
      (Material.fillUniforms h m scene)._samplers := by
  rw [Material.fillUniforms_samplers, Material.fillUniforms_samplers,
    Material.activeChannels_erase h m c hc]
  congr 1
  apply List.map_congr_left
  intro p hp
  exact Material.getTextureSampler_erase_of_ne m c p.1
    (Material.ne_of_mem_activeChannels h m c hc p hp)

theorem Material.uniforms_erase (h : Host) (m : Material) (scene : Scene) (c : String)
    (hc : Material.activeTexture h m c = none) :
    (Material.fillUniforms h { m with textures := Table.erase m.textures c } scene)._uniforms =
      (Material.fillUniforms h m scene)._uniforms := by
  rw [Material.fillUniforms_uniforms, Material.fillUniforms_uniforms,
    Material.activeChannels_erase h m c hc]
  rfl

theorem Material.query_erase (h : Host) (m : Material) (c : String)
    (hc : Material.activeTexture h m c = none) :
    (Material.fillShaderQuery h { m with textures := Table.erase m.textures c })._query =
      (Material.fillShaderQuery h m)._query := by
  have hq : ∀ a b : ShaderQuery, a.macros = b.macros → a = b := by
    intro a b hab
    cases a
    cases b
    simp only at hab
    rw [hab]
  apply hq
  rw [Material.fillShaderQuery_macros, Material.fillShaderQuery_macros,
    Material.textureMacros_erase h m c hc]

/-! ### C16: an unresolved texture -/

/-- C16: for a channel `c` whose texture reference is a resource name that the registry
does not resolve to a texture, the loop of `fillShaderQuery` assigns no macro at `c` and the
loop of `fillUniforms` leaves uniforms, samplers and the slot counter as they are at `c`;
the macro map, the uniform map and the sampler list are those of the same material with `c`
removed from the table; the descriptor of `c` is not in the sampler list; without extra
uniforms no texture uniform is named after `c`, and without extra macros no macro is named
after `c` unless another key of the table has the same uppercase form. Both builders are
total functions. -/
theorem C16_unresolved_inactive (h : Host) (m : Material) (scene : Scene) (c name : String)
    (hentry : Material.textureRef (m.getTextureSampler c) = .prim (.str name))
    (hunres : ∀ t, h.textures name ≠ .tex t) :
    Material.macroFor h m c = none ∧
    (∀ st, Material.uniformStep h m st c = st) ∧
    (Material.fillShaderQuery h m)._query =
      (Material.fillShaderQuery h { m with textures := Table.erase m.textures c })._query ∧
    (Material.fillUniforms h m scene)._uniforms =
      (Material.fillUniforms h { m with textures := Table.erase m.textures c } scene)._uniforms ∧
    (Material.fillUniforms h m scene)._samplers =
      (Material.fillUniforms h { m with textures := Table.erase m.textures c } scene)._samplers ∧
    (∀ samplers, (Material.fillUniforms h m scene)._samplers = some samplers →
      m.getTextureSampler c ∉ samplers) ∧
    (m.extra_uniforms = none →
      Material.hasTextureUniform (Material.fillUniforms h m scene) c = false) ∧
    (m.extra_macros = none →
      (∀ c2 ∈ m.textures.map Prod.fst, h.toUpperCase c2 = h.toUpperCase c → c2 = c) →
      Material.hasMacro h (Material.fillShaderQuery h m) c = false) := by
  have hc := Material.activeTexture_unresolved h m c name hentry hunres
  refine ⟨?_, ?_, (Material.query_erase h m c hc).symm, (Material.uniforms_erase h m scene c hc).symm,
    (Material.samplers_erase h m scene c hc).symm, ?_, ?_, ?_⟩
  · rw [Material.macroFor_eq, hc]
    rfl
  · intro st
    rw [Material.uniformStep_eq, hc]
  · intro samplers hs hmem
    rw [Material.fillUniforms_samplers] at hs
    cases hs
    obtain ⟨p, hp, heq⟩ := List.mem_map.mp hmem
    have ha := ((Material.mem_activeChannels h m p.1 p.2).mp hp).2
    rw [Material.activeTexture_eq_some_iff, heq, ← Material.activeTexture_eq_some_iff, hc] at ha
    cases ha
  · intro huni
    rw [← Bool.not_eq_true, Material.hasTextureUniform_fillUniforms h m scene c huni, hc]
    simp
  · intro hmac hclash
    rw [← Bool.not_eq_true, Material.hasMacro_fillShaderQuery h m c hmac]
    rintro ⟨c2, t, hp, hup⟩
    obtain ⟨hk, ha⟩ := (Material.mem_activeChannels h m c2 t).mp hp
    rw [hclash c2 hk hup, hc] at ha
    cases ha

/-- C16 on a material whose `color` channel names the unregistered `missing.png` and whose
`environment` channel holds a cubemap: only `environment` gets a macro, a uniform (slot 0)
and a sampler. -/
theorem C16_unresolved_inactive_witness :
    (Material.textureRef (exampleUnresolved.getTextureSampler "color") =
        .prim (.str "missing.png") ∧
      (∀ t, exampleHost.textures "missing.png" ≠ .tex t)) ∧
    (Material.macroFor exampleHost exampleUnresolved "color" = none ∧
      (Material.fillShaderQuery exampleHost exampleUnresolved)._query.macros =
        [("USE_ENVIRONMENT_CUBEMAP", .prim (.str "uvs_polar_reflected"))] ∧
      (Material.fillUniforms exampleHost exampleUnresolved exampleScene)._uniforms.bind
          (fun u => Table.get u "environment_cubemap") = some (.prim (.num (Num.ofNat 0))) ∧
      (Material.fillUniforms exampleHost exampleUnresolved exampleScene)._samplers =
        some [.obj [("texture", .tex exampleCubemap)]]) :=
  ⟨⟨by decide, nofun⟩,
    (C16_unresolved_inactive exampleHost exampleUnresolved exampleScene "color" "missing.png"
      (by decide) nofun).1, by decide, by decide, by decide⟩

/-! ### C21: the two builders agree -/

/-- C21, as stated, fails: with a 2D texture on `color` and an unresolved name on `COLOR`,
and no extra macros or uniforms, after `prepareMaterial` the macro map has the macro named
after `COLOR` (`USE_COLOR_TEXTURE`, emitted for `color`) while the uniform map has no texture
uniform of `COLOR`. -/
theorem C21_macro_without_uniform :
    exampleCaseClash.extra_macros = none ∧ exampleCaseClash.extra_uniforms = none ∧
    Material.hasMacro exampleHost
      (Material.prepareMaterial exampleHost exampleCaseClash exampleScene) "COLOR" = true ∧
    Material.hasTextureUniform
      (Material.prepareMaterial exampleHost exampleCaseClash exampleScene) "COLOR" = false := by
  decide

/-- C21, amended: for a material with no extra macros and no extra uniforms whose channel
table has no repeated key and no two keys with the same uppercase form, after
`prepareMaterial` a channel of the table has a macro in the macro map exactly when it has a
texture uniform in the uniform map; the number of such channels is the length of the sampler
list; and the `j`-th such channel `c`, in table order, has a usable texture, its uniform
holds `j`, and the sampler list holds the descriptor of `c` at index `j`. -/
theorem C21_builders_agree (h : Host) (m : Material) (scene : Scene)
    (hmac : m.extra_macros = none) (huni : m.extra_uniforms = none)
    (hnd : (m.textures.map Prod.fst).Nodup)
    (hinj : ∀ a ∈ m.textures.map Prod.fst, ∀ b ∈ m.textures.map Prod.fst,
      h.toUpperCase a = h.toUpperCase b → a = b) :
    ∃ uniforms samplers,
      (Material.prepareMaterial h m scene)._uniforms = some uniforms ∧
      (Material.prepareMaterial h m scene)._samplers = some samplers ∧
      (∀ c ∈ m.textures.map Prod.fst,
        Material.hasMacro h (Material.prepareMaterial h m scene) c =
          Material.hasTextureUniform (Material.prepareMaterial h m scene) c) ∧
      ((m.textures.map Prod.fst).filter (fun c =>
        Material.hasTextureUniform (Material.prepareMaterial h m scene) c)).length =
        samplers.length ∧
      (∀ j c, ((m.textures.map Prod.fst).filter (fun c =>
          Material.hasTextureUniform (Material.prepareMaterial h m scene) c))[j]? = some c →
        ∃ t, Material.getTextureFromSampler h (m.getTextureSampler c) = .tex t ∧
          Table.get uniforms
              (c ++ (if t.texture_type = h.TEXTURE_2D then "_texture" else "_cubemap")) =
            some (.prim (.num (Num.ofNat j))) ∧
          samplers[j]? = some (m.getTextureSampler c)) := by
  have hU := Material.prepareMaterial_uniforms h m scene
  have hS := Material.prepareMaterial_samplers h m scene
  have hQ := Material.prepareMaterial_query h m scene
  have hTU : ∀ c, Material.hasTextureUniform (Material.prepareMaterial h m scene) c =
      Material.hasTextureUniform (Material.fillUniforms h m scene) c := by
    intro c
    unfold Material.hasTextureUniform
    rw [hU]
  have hM : ∀ c, Material.hasMacro h (Material.prepareMaterial h m scene) c =
      Material.hasMacro h (Material.fillShaderQuery h m) c := by
    intro c
    unfold Material.hasMacro
    rw [hQ]
  have hactive : ∀ c ∈ m.textures.map Prod.fst,
      Material.hasTextureUniform (Material.prepareMaterial h m scene) c =
        (Material.activeTexture h m c).isSome := by
    intro c hc
    rw [hTU, Bool.eq_iff_iff, Material.hasTextureUniform_fillUniforms h m scene c huni]
    exact ⟨fun hx => hx.2, fun hx => ⟨hc, hx⟩⟩
  have hfilter : (m.textures.map Prod.fst).filter (fun c =>
      Material.hasTextureUniform (Material.prepareMaterial h m scene) c) =
      (Material.activeChannels h m).map Prod.fst := by
    rw [Material.activeChannels_keys]
    exact List.filter_congr hactive
  refine ⟨Table.setAll (Material.baseUniforms h m scene)
      (Material.slotPairs h 0 (Material.activeChannels h m)),
    (Material.activeChannels h m).map (fun p => m.getTextureSampler p.1), ?_, ?_, ?_, ?_, ?_⟩
  · rw [hU, Material.fillUniforms_uniforms, huni]
  · rw [hS, Material.fillUniforms_samplers]
  · intro c hc
    rw [hactive c hc, hM, Bool.eq_iff_iff, Material.hasMacro_fillShaderQuery h m c hmac]
    constructor
    · rintro ⟨c2, t, hp, hup⟩
      obtain ⟨hk, ha⟩ := (Material.mem_activeChannels h m c2 t).mp hp
      rw [hinj c2 hk c hc hup] at ha
      rw [ha]
      rfl
    · intro hsome
      obtain ⟨t, ht⟩ := Option.isSome_iff_exists.mp hsome
      exact ⟨c, t, (Material.mem_activeChannels h m c t).mpr ⟨hc, ht⟩, rfl⟩
  · rw [hfilter, List.length_map, List.length_map]
  · intro j c hj
    rw [hfilter, List.getElem?_map] at hj
    cases hp : (Material.activeChannels h m)[j]? with
    | none => rw [hp] at hj; cases hj
    | some p =>
      rw [hp] at hj
      simp only [Option.map_some', Option.some.injEq] at hj
      obtain ⟨c2, t⟩ := p
      simp only at hj
      subst hj
      have hmem : (c2, t) ∈ Material.activeChannels h m := List.getElem?_mem hp
      refine ⟨t, ?_, ?_, ?_⟩
      · exact (Material.activeTexture_eq_some_iff h m c2 t).mp
          ((Material.mem_activeChannels h m c2 t).mp hmem).2
      · exact Material.get_slot h _ _ (Material.activeChannels_nodup h m hnd) j c2 t hp
      · rw [List.getElem?_map, hp]
        rfl

/-- C21 on a material whose `color` channel names an unregistered resource and whose
`environment` channel holds a cubemap: `environment` alone has a macro and a uniform, and
the sampler list has length one. -/
theorem C21_builders_agree_witness :
    (exampleUnresolved.extra_macros = none ∧ exampleUnresolved.extra_uniforms = none ∧
      (exampleUnresolved.textures.map Prod.fst).Nodup ∧
      (∀ a ∈ exampleUnresolved.textures.map Prod.fst,
        ∀ b ∈ exampleUnresolved.textures.map Prod.fst,
          exampleHost.toUpperCase a = exampleHost.toUpperCase b → a = b)) ∧
    (∃ uniforms samplers,
      (Material.prepareMaterial exampleHost exampleUnresolved exampleScene)._uniforms =
        some uniforms ∧
      (Material.prepareMaterial exampleHost exampleUnresolved exampleScene)._samplers =
        some samplers ∧
      (∀ c ∈ exampleUnresolved.textures.map Prod.fst,
        Material.hasMacro exampleHost
            (Material.prepareMaterial exampleHost exampleUnresolved exampleScene) c =
          Material.hasTextureUniform
            (Material.prepareMaterial exampleHost exampleUnresolved exampleScene) c) ∧
      ((exampleUnresolved.textures.map Prod.fst).filter (fun c =>
        Material.hasTextureUniform
          (Material.prepareMaterial exampleHost exampleUnresolved exampleScene) c)).length =
        samplers.length ∧
      (∀ j c, ((exampleUnresolved.textures.map Prod.fst).filter (fun c =>
          Material.hasTextureUniform
            (Material.prepareMaterial exampleHost exampleUnresolved exampleScene) c))[j]? =
            some c →
        ∃ t, Material.getTextureFromSampler exampleHost
            (exampleUnresolved.getTextureSampler c) = .tex t ∧
          Table.get uniforms
              (c ++ (if t.texture_type = exampleHost.TEXTURE_2D then "_texture"
                else "_cubemap")) =
            some (.prim (.num (Num.ofNat j))) ∧
          samplers[j]? = some (exampleUnresolved.getTextureSampler c))) ∧
    (exampleUnresolved.textures.map Prod.fst).filter (fun c =>
        Material.hasTextureUniform
          (Material.prepareMaterial exampleHost exampleUnresolved exampleScene) c) =
      ["environment"] :=
  ⟨⟨rfl, rfl, by decide, by decide⟩,
    C21_builders_agree exampleHost exampleUnresolved exampleScene rfl rfl (by decide)
      (by decide), by decide⟩

end LS
